import Mathlib

/-!
# Webserv reactor core: framing, buffered I/O, registry, listener, event loop

A shallow embedding of `Client.cpp` (the per-connection state machine),
`ClientManager.cpp` (the registry of connections of one listener), `Server.cpp` (the
listener), `WebServer.cpp` (the reactor and its event loop) and `LocationConfig.cpp`
(the configuration of a location), together with theorems about request framing, the
oversized-body check, the draining of the response buffer, the dispatch of events, the
setup of listeners, the upkeep of the interest list, the teardown of the reactor and
the index list of a location.

Conventions of the embedding

* A `std::string` is a `List Char`; positions and sizes are natural numbers.
  `std::string::npos` is the number `2 ^ 64 - 1`, and `find` reports it as `none`.
* `size_t` arithmetic that can leave the range of the buffer positions
  (the value coming out of `atoi`, and the sum compared with the buffer size in
  `_hasCompleteRequest`) is taken modulo `2 ^ 64`.
* A `std::map<int, V>` is a list of pairs in ascending key order, a `std::set<int>` an
  ascending list, a `std::vector` a list. Objects reached through pointers are changed
  in place, so the containers hold the objects themselves.
* System calls are not executed: the value a call returns is an argument of the
  embedded method, and every call that the method issues is recorded in a trace.
* Classes that live outside the embedded files (`Request`, `Response`,
  `RequestHandler`, `HttpStatus`, `ServerConfig`) are supplied as a record of
  functions, `Collaborators`. Logging is left out.
-/

namespace Webserv

/-- Contents of a `std::string`. -/
abbrev Bytes := List Char

/-- The value of `std::string::npos` for a 64-bit `size_t`. -/
def npos : Nat := 2 ^ 64 - 1

/-- The header name searched by `_getContentLength` (15 characters). -/
def contentLengthName : Bytes := "Content-Length:".toList

/-- The line terminator. -/
def crlf : Bytes := "\r\n".toList

/-- The header terminator, a blank line. -/
def headerTerminator : Bytes := "\r\n\r\n".toList

/-- Does `needle` occur in `s` starting at position `i`? -/
def matchAt (s needle : Bytes) (i : Nat) : Bool :=
  decide ((s.drop i).take needle.length = needle)

/-- Scan of `std::string::find`: try the positions `i, i + 1, ...`, `fuel` of them. -/
def findLoop (s needle : Bytes) (i : Nat) : Nat → Option Nat
  | 0 => none
  | fuel + 1 => if matchAt s needle i then some i else findLoop s needle (i + 1) fuel

/-- `s.find(needle, pos)`: the first position `≥ pos` where `needle` occurs;
`none` stands for `npos`. -/
def find (s needle : Bytes) (pos : Nat) : Option Nat :=
  if pos ≤ s.length then findLoop s needle pos (s.length - pos + 1) else none

/-- `s.substr(pos, count)` for `pos ≤ s.size()`: at most `count` characters from `pos`. -/
def substr (s : Bytes) (pos count : Nat) : Bytes := (s.drop pos).take count

/-- `std::isdigit` in the C locale. -/
def isdigit (c : Char) : Bool := decide (48 ≤ c.toNat ∧ c.toNat ≤ 57)

/-- `isspace` in the C locale: space, `\t`, `\n`, `\v`, `\f`, `\r`. -/
def isspace (c : Char) : Bool := decide (c.toNat = 32 ∨ (9 ≤ c.toNat ∧ c.toNat ≤ 13))

/-- Decimal value of a string of digits, most significant digit first. -/
def decimalValue (d : Bytes) : Nat :=
  d.foldl (fun acc c => 10 * acc + (c.toNat - 48)) 0

/-- The C library `strtol(s, NULL, 10)` on a 64-bit `long`: skip white space, read
an optional sign, read the longest run of digits, saturate at `LONG_MIN`/`LONG_MAX`. -/
def strtol (s : Bytes) : Int :=
  let s1 := s.dropWhile isspace
  let neg : Bool := s1.head? = some '-'
  let s2 := if s1.head? = some '-' ∨ s1.head? = some '+' then s1.tail else s1
  let v : Int := (decimalValue (s2.takeWhile isdigit) : Nat)
  if neg then max (-v) (-(2 : Int) ^ 63) else min v ((2 : Int) ^ 63 - 1)

/-- Conversion of a `long` to `int`: the low 32 bits, read as two's complement. -/
def toInt32 (x : Int) : Int := (x + 2 ^ 31) % 2 ^ 32 - 2 ^ 31

/-- `std::atoi`, as the C library defines it: `(int) strtol(s, NULL, 10)`. -/
def atoi (s : Bytes) : Int := toInt32 (strtol s)

/-- Conversion of an `int` to the 64-bit `size_t` return type. -/
def toSizeT (x : Int) : Nat := (x % 2 ^ 64).toNat

/-- `Client::_getContentLength` on the read buffer. -/
def _getContentLength (_readBuffer : Bytes) : Nat :=
  match find _readBuffer contentLengthName 0 with
  | some clPos =>
    let lineEnd : Nat := (find _readBuffer crlf clPos).getD npos
    let clStr := substr _readBuffer (clPos + 15) (lineEnd - (clPos + 15))
    if clStr.all isdigit then toSizeT (atoi clStr) else 0
  | none => 0

/-- `Client::_hasCompleteRequest` on the read buffer. -/
def _hasCompleteRequest (_readBuffer : Bytes) : Bool :=
  match find _readBuffer headerTerminator 0 with
  | none => false
  | some headerEnd =>
    let contentLength := _getContentLength _readBuffer
    decide (_readBuffer.length ≥ (headerEnd + 4 + contentLength) % 2 ^ 64)

/-- The classes used by `Client` that are defined outside `Client.cpp`. -/
structure Collaborators (Config Request Response : Type) where
  /-- `ServerConfig::getClientMaxBodySize`. -/
  getClientMaxBodySize : Config → Nat
  /-- `Request::Request(const std::string&)`. -/
  newRequest : Bytes → Request
  /-- `RequestHandler::handle(request, config)`. -/
  handle : Request → Config → Response
  /-- `Response::toString`. -/
  toString : Response → Bytes
  /-- `Response::Response()`. -/
  emptyResponse : Response
  /-- `HttpStatus::buildResponse(config, resp, code)`: the response object after the call. -/
  buildResponse : Config → Response → Nat → Response

/-- The data members of `Client`. -/
structure Client (Config Request Response : Type) where
  _fd : Int
  _closed : Bool
  _readBuffer : Bytes
  _writeBuffer : Bytes
  _request : Option Request
  _response : Response
  _clientAddress : String
  _config : Config

/-- Calls that leave the `Client` object. -/
inductive Effect where
  /-- `recv(fd, buffer, cap, 0)`. -/
  | recv (fd : Int) (cap : Nat)
  /-- `HttpStatus::buildResponse(_config, resp, code)`. -/
  | buildStatus (code : Nat)
  /-- `new Request(raw)`. -/
  | parse (raw : Bytes)
  /-- `RequestHandler::handle` on the request parsed from `raw`. -/
  | handle (raw : Bytes)
  /-- `delete _request`. -/
  | release
  /-- `send(fd, data, data.size(), 0)`. -/
  | send (fd : Int) (data : Bytes)
  /-- `close(fd)`. -/
  | close (fd : Int)
  deriving DecidableEq, Repr

/-- Result of one method call: the returned `bool`, the object afterwards, the calls issued. -/
structure Step (Config Request Response : Type) where
  ret : Bool
  client : Client Config Request Response
  trace : List Effect

/-- `Client::handleClientRequest`. `bytesRead` and `buffer` are what `recv` returns and
writes into the local array when the method reaches it. -/
def handleClientRequest {Config Request Response : Type}
    (K : Collaborators Config Request Response) (c : Client Config Request Response)
    (bytesRead : Int) (buffer : Bytes) : Step Config Request Response :=
  let contentLength := _getContentLength c._readBuffer
  if contentLength > 0 ∧ contentLength > K.getClientMaxBodySize c._config then
    let resp := K.buildResponse c._config K.emptyResponse 413
    { ret := true
      client := { c with _writeBuffer := K.toString resp, _readBuffer := [] }
      trace := [Effect.buildStatus 413] }
  else if bytesRead ≤ 0 then
    { ret := false
      client := { c with _closed := true }
      trace := [Effect.recv c._fd 8192] }
  else
    let rb := c._readBuffer ++ buffer.take bytesRead.toNat
    if _hasCompleteRequest rb then
      let resp := K.handle (K.newRequest rb) c._config
      { ret := true
        client := { c with _response := resp, _writeBuffer := K.toString resp,
                           _request := none, _readBuffer := [] }
        trace := [Effect.recv c._fd 8192, Effect.parse rb, Effect.handle rb, Effect.release] }
    else
      { ret := true
        client := { c with _readBuffer := rb }
        trace := [Effect.recv c._fd 8192] }

/-- `Client::handleClientResponse`. `bytesWritten` is what `send` returns when the
method reaches it. -/
def handleClientResponse {Config Request Response : Type}
    (c : Client Config Request Response) (bytesWritten : Int) : Step Config Request Response :=
  if c._writeBuffer.isEmpty then
    { ret := true, client := c, trace := [] }
  else if bytesWritten ≤ 0 then
    { ret := false
      client := { c with _closed := true }
      trace := [Effect.send c._fd c._writeBuffer] }
  else
    { ret := true
      client := { c with _writeBuffer := c._writeBuffer.drop bytesWritten.toNat }
      trace := [Effect.send c._fd c._writeBuffer] }

/-- `Client::closeClient`. -/
def closeClient {Config Request Response : Type}
    (c : Client Config Request Response) : Step Config Request Response :=
  if c._fd > 0 then
    { ret := true, client := { c with _fd := -1, _closed := true }, trace := [Effect.close c._fd] }
  else
    { ret := true, client := { c with _closed := true }, trace := [] }


/-- The successive `handleClientRequest` calls made while the peer's data arrives in
`chunks`: each call that receives gets the next chunk whole. A call that returns without
receiving leaves its chunk in the socket, and the following call, which starts from the
emptied read buffer, receives it. -/
def feed {Config Request Response : Type}
    (K : Collaborators Config Request Response) (c : Client Config Request Response) :
    List Bytes → List (Step Config Request Response)
  | [] => []
  | ck :: rest =>
    let s := handleClientRequest K c ck.length ck
    if s.trace.head? = some (Effect.recv c._fd 8192) then
      s :: feed K s.client rest
    else
      let s2 := handleClientRequest K s.client ck.length ck
      s :: s2 :: feed K s2.client rest

/-- The bytes that a `send` returning `n` took from the data offered to it. -/
def accepted (n : Int) (trace : List Effect) : Bytes :=
  match trace with
  | [Effect.send _ data] => data.take n.toNat
  | _ => []

/-- The successive `handleClientResponse` calls whose `send` returns the values `ns`:
for each call the `Step` and the bytes its `send` accepted. -/
def drain {Config Request Response : Type} (c : Client Config Request Response) :
    List Int → List (Step Config Request Response × Bytes)
  | [] => []
  | n :: ns =>
    let s := handleClientResponse c n
    (s, accepted n s.trace) :: drain s.client ns

/-- The connection after the successive `handleClientResponse` calls whose `send`
returns the values `ns`. -/
def drainEnd {Config Request Response : Type} (c : Client Config Request Response) :
    List Int → Client Config Request Response
  | [] => c
  | n :: ns => drainEnd (handleClientResponse c n).client ns

/-- Send results that are positive and at most the length of what remains to be sent,
for a buffer of length `len`. -/
def validSends : Nat → List Int → Bool
  | _, [] => true
  | len, n :: ns => decide (0 < n) && decide (n ≤ (len : Int)) && validSends (len - n.toNat) ns

/-- A small instance of the collaborators, for running the methods on concrete input:
the configuration is the maximum body size, a request is its raw bytes, the handler
answers `200:` followed by the request, and the status builder answers the code `413`
by `413!`. -/
def sampleCollaborators : Collaborators Nat Bytes Bytes where
  getClientMaxBodySize := fun cfg => cfg
  newRequest := fun raw => raw
  handle := fun req _ => "200:".toList ++ req
  toString := fun resp => resp
  emptyResponse := []
  buildResponse := fun _ _ code => if code = 413 then "413!".toList else "500!".toList

/-- A connection on descriptor 4 with the given maximum body size and buffers. -/
def sampleClient (maxBody : Nat) (rb wb : Bytes) : Client Nat Bytes Bytes where
  _fd := 4
  _closed := false
  _readBuffer := rb
  _writeBuffer := wb
  _request := none
  _response := []
  _clientAddress := "127.0.0.1"
  _config := maxBody

/-! ## The registry of connections (`ClientManager.cpp`) -/

/-- `POLLIN` of `<poll.h>`. -/
def POLLIN : Nat := 1

/-- `POLLOUT` of `<poll.h>`. -/
def POLLOUT : Nat := 4

/-- `POLLERR` of `<poll.h>`. -/
def POLLERR : Nat := 8

/-- `POLLHUP` of `<poll.h>`. -/
def POLLHUP : Nat := 16

/-- `m.find(k)` on a `std::map<int, V>`, kept as a list of pairs in ascending key order;
`none` stands for `m.end()`. -/
def mapFind {V : Type} : List (Int × V) → Int → Option V
  | [], _ => none
  | (k1, v) :: rest, k => if k1 = k then some v else mapFind rest k

/-- `m[k] = v` on a `std::map<int, V>`: replace the value of an existing key, or insert
the pair at its place in the key order. -/
def mapSet {V : Type} : List (Int × V) → Int → V → List (Int × V)
  | [], k, v => [(k, v)]
  | (k1, v1) :: rest, k, v =>
    if k < k1 then (k, v) :: (k1, v1) :: rest
    else if k = k1 then (k, v) :: rest
    else (k1, v1) :: mapSet rest k v

/-- `m.erase(k)` on a `std::map<int, V>`. -/
def mapErase {V : Type} (m : List (Int × V)) (k : Int) : List (Int × V) :=
  m.filter (fun p => decide (p.1 ≠ k))

/-- The keys of a `std::map<int, V>`, in iteration order. -/
def mapKeys {V : Type} (m : List (Int × V)) : List Int := m.map (fun p => p.1)

/-- System calls and registry calls issued above the `Client` class. -/
inductive Sys where
  /-- A call issued by the `Client` object of descriptor `fd`. -/
  | client (fd : Int) (e : Effect)
  /-- `accept(serverFd, ...)`. -/
  | accept (serverFd : Int)
  /-- `fcntl(fd, F_GETFL, 0)`. -/
  | fcntlGet (fd : Int)
  /-- `fcntl(fd, F_SETFL, flags | O_NONBLOCK)`. -/
  | fcntlSet (fd : Int)
  /-- `close(fd)`. -/
  | close (fd : Int)
  /-- `delete` of the `Client` object registered under `fd`. -/
  | deleteClient (fd : Int)
  /-- `socket(AF_INET, SOCK_STREAM, 0)`. -/
  | socket
  /-- `setsockopt(fd, SOL_SOCKET, SO_REUSEADDR, ...)`. -/
  | setsockopt (fd : Int)
  /-- `inet_pton(AF_INET, ip, ...)`. -/
  | inetPton (ip : String)
  /-- `bind(fd, ip:port)`. -/
  | bind (fd : Int) (ip : String) (port : Int)
  /-- `listen(fd, SOMAXCONN)`. -/
  | listen (fd : Int)
  /-- `Server::removeClient(fd)` called on the listener of index `server`. -/
  | offerRemove (server : Nat) (fd : Int)
  deriving DecidableEq, Repr

/-- Result of a call above the `Client` class: the returned value, the object afterwards,
the calls issued. -/
structure Out (σ α : Type) where
  ret : α
  state : σ
  trace : List Sys

/-- The data member of `ClientManager`: `std::map<int, Client*> _clients`. -/
structure ClientManager (Config Request Response : Type) where
  _clients : List (Int × Client Config Request Response)

/-- What the operating system answers to the calls of `acceptNewClient`: the value of
`accept`, the peer address it fills in (as text), and the values of the two `fcntl` calls. -/
structure AcceptOutcome where
  clientFd : Int
  peer : String
  getfl : Int
  setfl : Int

/-- What the operating system answers to the calls of one `handleClientIO`: the value and
data of `recv`, and the value of `send`. -/
structure IoResult where
  bytesRead : Int
  buffer : Bytes
  bytesWritten : Int

/-- `Client::Client(fd, addr, config)`; `peer` is the text `inet_ntop` gives for `addr`. -/
def newClient {Config Request Response : Type}
    (K : Collaborators Config Request Response) (fd : Int) (peer : String) (config : Config) :
    Client Config Request Response where
  _fd := fd
  _closed := false
  _readBuffer := []
  _writeBuffer := []
  _request := none
  _response := K.emptyResponse
  _clientAddress := peer
  _config := config

/-- `ClientManager::acceptNewClient`. -/
def ClientManager.acceptNewClient {Config Request Response : Type}
    (K : Collaborators Config Request Response) (m : ClientManager Config Request Response)
    (serverFd : Int) (config : Config) (o : AcceptOutcome) :
    Out (ClientManager Config Request Response) Int :=
  let clientFd := o.clientFd
  if clientFd < 0 then
    { ret := -1, state := m, trace := [Sys.accept serverFd] }
  else if o.getfl < 0 then
    { ret := -1, state := m
      trace := [Sys.accept serverFd, Sys.fcntlGet clientFd, Sys.close clientFd] }
  else if o.setfl < 0 then
    { ret := -1, state := m
      trace := [Sys.accept serverFd, Sys.fcntlGet clientFd, Sys.fcntlSet clientFd,
        Sys.close clientFd] }
  else
    { ret := clientFd
      state := { m with _clients := mapSet m._clients clientFd (newClient K clientFd o.peer config) }
      trace := [Sys.accept serverFd, Sys.fcntlGet clientFd, Sys.fcntlSet clientFd] }

/-- `ClientManager::handleClientIO`. The `Client` is reached through the pointer kept in
the map, so its changes are seen under the same key afterwards. -/
def ClientManager.handleClientIO {Config Request Response : Type}
    (K : Collaborators Config Request Response) (m : ClientManager Config Request Response)
    (fd : Int) (revents : Nat) (io : IoResult) :
    Out (ClientManager Config Request Response) Bool :=
  match mapFind m._clients fd with
  | none => { ret := false, state := m, trace := [] }
  | some client =>
    let keepConnection := true
    let s1 : Step Config Request Response :=
      if revents &&& POLLIN ≠ 0 then handleClientRequest K client io.bytesRead io.buffer
      else { ret := true, client := client, trace := [] }
    let keepConnection := if revents &&& POLLIN ≠ 0 ∧ s1.ret = false then false else keepConnection
    let s2 : Step Config Request Response :=
      if revents &&& POLLOUT ≠ 0 then handleClientResponse s1.client io.bytesWritten
      else { ret := true, client := s1.client, trace := [] }
    let keepConnection := if revents &&& POLLOUT ≠ 0 ∧ s2.ret = false then false else keepConnection
    let keepConnection := if revents &&& POLLHUP ≠ 0 then false else keepConnection
    let keepConnection := if revents &&& POLLERR ≠ 0 then false else keepConnection
    { ret := keepConnection
      state := { m with _clients := mapSet m._clients fd s2.client }
      trace := (s1.trace ++ s2.trace).map (Sys.client fd) }

/-- `ClientManager::removeClient`. -/
def ClientManager.removeClient {Config Request Response : Type}
    (m : ClientManager Config Request Response) (fd : Int) :
    Out (ClientManager Config Request Response) Unit :=
  match mapFind m._clients fd with
  | some _ =>
    { ret := (), state := { m with _clients := mapErase m._clients fd }
      trace := [Sys.deleteClient fd, Sys.close fd] }
  | none => { ret := (), state := m, trace := [] }

/-- `ClientManager::cleanup`. -/
def ClientManager.cleanup {Config Request Response : Type}
    (m : ClientManager Config Request Response) :
    Out (ClientManager Config Request Response) Unit :=
  { ret := ()
    state := { m with _clients := [] }
    trace := (mapKeys m._clients).flatMap (fun fd => [Sys.deleteClient fd, Sys.close fd]) }

/-- The connection after `n` calls of `closeClient`, and the calls issued by them. -/
def closeTimes {Config Request Response : Type} (c : Client Config Request Response) :
    Nat → Client Config Request Response × List Effect
  | 0 => (c, [])
  | n + 1 =>
    let s := closeClient c
    let r := closeTimes s.client n
    (r.1, s.trace ++ r.2)

/-- A registry holding the given connections, for running the methods on concrete input. -/
def sampleManager (cs : List (Client Nat Bytes Bytes)) : ClientManager Nat Bytes Bytes where
  _clients := cs.foldl (fun m c => mapSet m c._fd c) []

/-! ## The listener (`Server.cpp`) -/

/-- One entry of `ServerConfig::getListens()`: the address and port of a `ListenConfig`. -/
structure ListenConfig where
  ip : String
  port : Int
  deriving DecidableEq, Repr

/-- What the operating system answers to the calls of one `setupSocketForListen`: the
values of `socket`, `setsockopt`, `inet_pton`, `bind`, the two `fcntl` calls and `listen`. -/
structure SocketOutcome where
  socket : Int
  setsockopt : Int
  inetPton : Int
  bind : Int
  getfl : Int
  setfl : Int
  listen : Int
  deriving DecidableEq, Repr

/-- The data members of `Server`. -/
structure Server (Config Request Response : Type) where
  config : Config
  serverFds : List Int
  _clientManager : ClientManager Config Request Response

/-- `Server::createSocket`. -/
def Server.createSocket (o : SocketOutcome) : Int × List Sys :=
  (o.socket, [Sys.socket])

/-- `Server::setSocketOptions`. -/
def Server.setSocketOptions (fd : Int) (o : SocketOutcome) : Bool × List Sys :=
  if o.setsockopt < 0 then (false, [Sys.setsockopt fd]) else (true, [Sys.setsockopt fd])

/-- `Server::bindSocket`. -/
def Server.bindSocket (fd : Int) (ip : String) (port : Int) (o : SocketOutcome) :
    Bool × List Sys :=
  if ip = "0.0.0.0" then
    if o.bind < 0 then (false, [Sys.bind fd ip port]) else (true, [Sys.bind fd ip port])
  else if o.inetPton ≤ 0 then (false, [Sys.inetPton ip])
  else if o.bind < 0 then (false, [Sys.inetPton ip, Sys.bind fd ip port])
  else (true, [Sys.inetPton ip, Sys.bind fd ip port])

/-- `Server::makeSocketNonBlocking`. -/
def Server.makeSocketNonBlocking (fd : Int) (o : SocketOutcome) : Bool × List Sys :=
  if o.getfl < 0 then (false, [Sys.fcntlGet fd])
  else if o.setfl < 0 then (false, [Sys.fcntlGet fd, Sys.fcntlSet fd])
  else (true, [Sys.fcntlGet fd, Sys.fcntlSet fd])

/-- `Server::startListening`. -/
def Server.startListening (fd : Int) (o : SocketOutcome) : Bool × List Sys :=
  if o.listen < 0 then (false, [Sys.listen fd]) else (true, [Sys.listen fd])

/-- `Server::setupSocketForListen`. The four steps are joined by `||`, so a step runs only
when the steps before it succeeded. -/
def Server.setupSocketForListen {Config Request Response : Type}
    (srv : Server Config Request Response) (ip : String) (port : Int) (o : SocketOutcome) :
    Out (Server Config Request Response) Bool :=
  let (fd, t0) := Server.createSocket o
  if fd < 0 then { ret := false, state := srv, trace := t0 }
  else
    let (ok1, t1) := Server.setSocketOptions fd o
    if !ok1 then { ret := false, state := srv, trace := t0 ++ t1 ++ [Sys.close fd] }
    else
      let (ok2, t2) := Server.bindSocket fd ip port o
      if !ok2 then { ret := false, state := srv, trace := t0 ++ t1 ++ t2 ++ [Sys.close fd] }
      else
        let (ok3, t3) := Server.makeSocketNonBlocking fd o
        if !ok3 then
          { ret := false, state := srv, trace := t0 ++ t1 ++ t2 ++ t3 ++ [Sys.close fd] }
        else
          let (ok4, t4) := Server.startListening fd o
          if !ok4 then
            { ret := false, state := srv
              trace := t0 ++ t1 ++ t2 ++ t3 ++ t4 ++ [Sys.close fd] }
          else
            { ret := true
              state := { srv with serverFds := srv.serverFds ++ [fd] }
              trace := t0 ++ t1 ++ t2 ++ t3 ++ t4 }

/-- The loop of `Server::setup` over the listen entries, each paired with the answers of
the operating system for it: stop with `false` at the first entry that fails. -/
def Server.setupLoop {Config Request Response : Type}
    (srv : Server Config Request Response) :
    List (ListenConfig × SocketOutcome) → Out (Server Config Request Response) Bool
  | [] => { ret := true, state := srv, trace := [] }
  | (l, o) :: rest =>
    let r := Server.setupSocketForListen srv l.ip l.port o
    if !r.ret then { ret := false, state := r.state, trace := r.trace }
    else
      let r2 := Server.setupLoop r.state rest
      { ret := r2.ret, state := r2.state, trace := r.trace ++ r2.trace }

/-- `Server::setup`. `listens` is `config.getListens()` in the iteration order of the map,
each entry paired with the answers of the operating system for it. -/
def Server.setup {Config Request Response : Type}
    (srv : Server Config Request Response) (listens : List (ListenConfig × SocketOutcome)) :
    Out (Server Config Request Response) Bool :=
  if listens.isEmpty then { ret := false, state := srv, trace := [] }
  else Server.setupLoop srv listens

/-- `Server::acceptNewConnection`. -/
def Server.acceptNewConnection {Config Request Response : Type}
    (K : Collaborators Config Request Response) (srv : Server Config Request Response)
    (serverFd : Int) (o : AcceptOutcome) : Out (Server Config Request Response) Int :=
  let r := srv._clientManager.acceptNewClient K serverFd srv.config o
  { ret := r.ret, state := { srv with _clientManager := r.state }, trace := r.trace }

/-- `Server::handleClientEvent`. -/
def Server.handleClientEvent {Config Request Response : Type}
    (K : Collaborators Config Request Response) (srv : Server Config Request Response)
    (clientFd : Int) (revents : Nat) (io : IoResult) :
    Out (Server Config Request Response) Bool :=
  let r := srv._clientManager.handleClientIO K clientFd revents io
  { ret := r.ret, state := { srv with _clientManager := r.state }, trace := r.trace }

/-- `Server::removeClient`. -/
def Server.removeClient {Config Request Response : Type}
    (srv : Server Config Request Response) (fd : Int) :
    Out (Server Config Request Response) Unit :=
  let r := srv._clientManager.removeClient fd
  { ret := (), state := { srv with _clientManager := r.state }, trace := r.trace }

/-- `Server::cleanup`. -/
def Server.cleanup {Config Request Response : Type}
    (srv : Server Config Request Response) : Out (Server Config Request Response) Unit :=
  let r := srv._clientManager.cleanup
  { ret := ()
    state := { srv with serverFds := [], _clientManager := r.state }
    trace := (srv.serverFds.filter (fun fd => decide (fd ≥ 0))).map Sys.close ++ r.trace }

/-- Do all the steps of `setupSocketForListen` succeed with these answers for this entry? -/
def entryOk (e : ListenConfig × SocketOutcome) : Bool :=
  decide (0 ≤ e.2.socket) && decide (0 ≤ e.2.setsockopt) &&
    (decide (e.1.ip = "0.0.0.0") || decide (0 < e.2.inetPton)) && decide (0 ≤ e.2.bind) &&
    decide (0 ≤ e.2.getfl) && decide (0 ≤ e.2.setfl) && decide (0 ≤ e.2.listen)

/-- Answers of an operating system for which every step succeeds on descriptor `fd`. -/
def goodSocket (fd : Int) : SocketOutcome :=
  { socket := fd, setsockopt := 0, inetPton := 1, bind := 0, getfl := 2, setfl := 0, listen := 0 }

/-- A listener with the given configuration, listening descriptors and connections. -/
def sampleServer (maxBody : Nat) (fds : List Int) (cs : List (Client Nat Bytes Bytes)) :
    Server Nat Bytes Bytes where
  config := maxBody
  serverFds := fds
  _clientManager := sampleManager cs

/-! ## The reactor (`WebServer.cpp`) -/

/-- `struct pollfd`. -/
structure PollFd where
  fd : Int
  events : Nat
  revents : Nat
  deriving DecidableEq, Repr

/-- `s.insert(x)` on a `std::set<int>`, kept as an ascending list without repetition. -/
def setInsert : List Int → Int → List Int
  | [], x => [x]
  | y :: rest, x =>
    if x < y then x :: y :: rest
    else if x = y then y :: rest
    else y :: setInsert rest x

/-- The data members of `WebServer` used by the event loop: the listeners, the interest
list, the index from listening descriptor to listener, and the set of listening
descriptors. -/
structure WebServer (Config Request Response : Type) where
  servers : List (Server Config Request Response)
  pollFds : List PollFd
  fdToServerIndex : List (Int × Nat)
  serverFdsSet : List Int

/-- The inner loop of `WebServer::initPollStructures`, over the listening descriptors of
the listener of index `i`. -/
def WebServer.initInner {Config Request Response : Type} (i : Nat) :
    List Int → WebServer Config Request Response → WebServer Config Request Response
  | [], w => w
  | fd :: rest, w =>
    WebServer.initInner i rest
      { w with
        pollFds := w.pollFds ++ [{ fd := fd, events := POLLIN, revents := 0 }]
        fdToServerIndex := mapSet w.fdToServerIndex fd i
        serverFdsSet := setInsert w.serverFdsSet fd }

/-- The outer loop of `WebServer::initPollStructures`, over the listeners from index `i`. -/
def WebServer.initOuter {Config Request Response : Type} :
    Nat → List (Server Config Request Response) → WebServer Config Request Response →
      WebServer Config Request Response
  | _, [], w => w
  | i, s :: rest, w => WebServer.initOuter (i + 1) rest (WebServer.initInner i s.serverFds w)

/-- `WebServer::initPollStructures`. -/
def WebServer.initPollStructures {Config Request Response : Type}
    (w : WebServer Config Request Response) : WebServer Config Request Response :=
  WebServer.initOuter 0 w.servers w

/-- What the operating system answers during one iteration of the event loop: the value
of `poll`, the `revents` it writes into the entry of each position, and, for the calls made
while the entry of position `i` is scanned, the answers to `acceptNewClient` and to the
`handleClientIO` of the listener of index `j`. -/
structure LoopEnv where
  ready : Int
  revents : Nat → Nat
  accept : Nat → AcceptOutcome
  io : Nat → Nat → IoResult

/-- The variables of `handlePollEvents` while it scans: the listeners (reached through
pointers, so changed in place), the two output vectors, and the calls issued so far. -/
structure Scan (Config Request Response : Type) where
  servers : List (Server Config Request Response)
  newConnections : List PollFd
  toRemove : List Nat
  trace : List Sys

/-- The loop `for j: if (servers[j]->handleClientEvent(fd, revents)) { keep = true; break; }`
from listener index `j` on: the value of `keepConnection`, the listeners afterwards, the
calls issued. -/
def WebServer.tryServers {Config Request Response : Type}
    (K : Collaborators Config Request Response) (fd : Int) (revents : Nat)
    (io : Nat → IoResult) :
    Nat → List (Server Config Request Response) →
      Bool × List (Server Config Request Response) × List Sys
  | _, [] => (false, [], [])
  | j, s :: rest =>
    let r := s.handleClientEvent K fd revents (io j)
    if r.ret then (true, r.state :: rest, r.trace)
    else
      let r2 := WebServer.tryServers K fd revents io (j + 1) rest
      (r2.1, r.state :: r2.2.1, r.trace ++ r2.2.2)

/-- The body of the loop of `WebServer::handlePollEvents` for the entry `p` at position `i`.
`fdToServerIndex[fd]` reads 0 for an absent key. An index outside `servers` is outside
what the language defines; the step then leaves everything as it is. -/
def WebServer.scanEntry {Config Request Response : Type}
    (K : Collaborators Config Request Response) (w : WebServer Config Request Response)
    (env : LoopEnv) (st : Scan Config Request Response) (i : Nat) (p : PollFd) :
    Scan Config Request Response :=
  if p.revents = 0 then st
  else
    let fd := p.fd
    if fd ∈ w.serverFdsSet then
      let serverIndex := (mapFind w.fdToServerIndex fd).getD 0
      match st.servers[serverIndex]? with
      | none => st
      | some srv =>
        let r := srv.acceptNewConnection K fd (env.accept i)
        let clientFd := r.ret
        if clientFd > 0 then
          { servers := st.servers.set serverIndex r.state
            newConnections := st.newConnections ++
              [{ fd := clientFd, events := POLLIN ||| POLLOUT, revents := 0 }]
            toRemove := st.toRemove
            trace := st.trace ++ r.trace }
        else
          { servers := st.servers.set serverIndex r.state
            newConnections := st.newConnections
            toRemove := st.toRemove
            trace := st.trace ++ r.trace }
    else
      let r := WebServer.tryServers K fd p.revents (env.io i) 0 st.servers
      if !r.1 then
        { servers := r.2.1, newConnections := st.newConnections
          toRemove := st.toRemove ++ [i], trace := st.trace ++ r.2.2 }
      else
        { servers := r.2.1, newConnections := st.newConnections
          toRemove := st.toRemove, trace := st.trace ++ r.2.2 }

/-- The loop of `WebServer::handlePollEvents` from position `i` on. -/
def WebServer.scanLoop {Config Request Response : Type}
    (K : Collaborators Config Request Response) (w : WebServer Config Request Response)
    (env : LoopEnv) :
    Nat → List PollFd → Scan Config Request Response → Scan Config Request Response
  | _, [], st => st
  | i, p :: rest, st =>
    WebServer.scanLoop K w env (i + 1) rest (WebServer.scanEntry K w env st i p)

/-- `WebServer::handlePollEvents(newConnections, toRemove, pollFds)`, called with the two
vectors empty. -/
def WebServer.handlePollEvents {Config Request Response : Type}
    (K : Collaborators Config Request Response) (w : WebServer Config Request Response)
    (env : LoopEnv) : Scan Config Request Response :=
  WebServer.scanLoop K w env 0 w.pollFds
    { servers := w.servers, newConnections := [], toRemove := [], trace := [] }

/-- The loop `for k: servers[k]->removeClient(fd)` from listener index `k` on. -/
def WebServer.offerAll {Config Request Response : Type} (fd : Int) :
    Nat → List (Server Config Request Response) →
      List (Server Config Request Response) × List Sys
  | _, [] => ([], [])
  | k, s :: rest =>
    let r := s.removeClient fd
    let r2 := WebServer.offerAll fd (k + 1) rest
    (r.state :: r2.1, Sys.offerRemove k fd :: r.trace ++ r2.2)

/-- The removal loop of `WebServer::runEventLoop`; `order` lists the values of
`toRemove[j]` in the order the loop takes them, from the last to the first. A position
outside `pollFds` is outside what the language defines; the step is then skipped. -/
def WebServer.removeLoop {Config Request Response : Type} :
    List Nat → WebServer Config Request Response →
      WebServer Config Request Response × List Sys
  | [], w => (w, [])
  | index :: order, w =>
    match w.pollFds[index]? with
    | none => WebServer.removeLoop order w
    | some p =>
      let fd := p.fd
      let r := if fd ∈ w.serverFdsSet then (w.servers, []) else WebServer.offerAll fd 0 w.servers
      let r2 := WebServer.removeLoop order
        { w with servers := r.1, pollFds := w.pollFds.eraseIdx index }
      (r2.1, r.2 ++ r2.2)

/-- The body of the loop of `WebServer::runEventLoop` after a `poll` that did not fail:
scan, append the new connections, remove the queued positions in reverse order. -/
def WebServer.afterPoll {Config Request Response : Type}
    (K : Collaborators Config Request Response) (w : WebServer Config Request Response)
    (env : LoopEnv) : Out (WebServer Config Request Response) Unit :=
  let sc := WebServer.handlePollEvents K w env
  let r := WebServer.removeLoop sc.toRemove.reverse
    { w with servers := sc.servers, pollFds := w.pollFds ++ sc.newConnections }
  { ret := (), state := r.1, trace := sc.trace ++ r.2 }

/-- The entries after `poll` has written `revents` into each of them. -/
def setRevents (revents : Nat → Nat) : Nat → List PollFd → List PollFd
  | _, [] => []
  | i, p :: rest => { p with revents := revents i } :: setRevents revents (i + 1) rest

/-- One iteration of the loop of `WebServer::runEventLoop`: a negative `poll` result is
skipped with `continue`. -/
def WebServer.iteration {Config Request Response : Type}
    (K : Collaborators Config Request Response) (w : WebServer Config Request Response)
    (env : LoopEnv) : Out (WebServer Config Request Response) Unit :=
  if env.ready < 0 then { ret := (), state := w, trace := [] }
  else WebServer.afterPoll K { w with pollFds := setRevents env.revents 0 w.pollFds } env

/-- `WebServer::runEventLoop` for as many iterations as `envs` has entries: the iterations
made before the stop flag is seen. -/
def WebServer.runEventLoop {Config Request Response : Type}
    (K : Collaborators Config Request Response) :
    WebServer Config Request Response → List LoopEnv → WebServer Config Request Response
  | w, [] => w
  | w, env :: envs => WebServer.runEventLoop K (WebServer.iteration K w env).state envs

/-- The descriptors registered in the registry of the listener of index `k`. -/
def keysAt {Config Request Response : Type}
    (servers : List (Server Config Request Response)) (k : Nat) : List Int :=
  match servers[k]? with
  | some s => mapKeys s._clientManager._clients
  | none => []

/-- The entries of `l`, from position `i` on, whose position is not in `queued`, in their
order. -/
def keepUnqueued (queued : List Nat) : Nat → List PollFd → List PollFd
  | _, [] => []
  | i, p :: rest =>
    if i ∈ queued then keepUnqueued queued (i + 1) rest
    else p :: keepUnqueued queued (i + 1) rest

/-- The pairs (listener index, descriptor) of the `removeClient` calls of a trace. -/
def offersOf : List Sys → List (Nat × Int)
  | [] => []
  | Sys.offerRemove k fd :: t => (k, fd) :: offersOf t
  | _ :: t => offersOf t

/-- The descriptor of the entry at position `i` of an interest list. -/
def fdAt (l : List PollFd) (i : Nat) : Int :=
  match l[i]? with
  | some p => p.fd
  | none => -1

/-- The number of `accept` calls in a trace. -/
def acceptsOf (t : List Sys) (serverFd : Int) : Nat := t.count (Sys.accept serverFd)

/-- A reactor state with the given listeners and interest list, and the two indexes as
`initPollStructures` builds them from the listeners. -/
def sampleReactor (servers : List (Server Nat Bytes Bytes)) (pollFds : List PollFd) :
    WebServer Nat Bytes Bytes :=
  { (WebServer.initPollStructures
      { servers := servers, pollFds := [], fdToServerIndex := [], serverFdsSet := [] }) with
    pollFds := pollFds }

/-- Answers of an operating system during one iteration in which `poll` succeeds, the
entry of each position gets the `revents` listed for it (0 past the list), every `accept`
gives `accepted`, every `recv` gives `bytesRead` bytes of `received` and every `send`
accepts `bytesWritten` bytes. -/
def sampleEnv (revents : List Nat) (accepted : AcceptOutcome) (bytesRead : Int)
    (received : Bytes) (bytesWritten : Int) : LoopEnv where
  ready := 1
  revents := fun i => revents.getD i 0
  accept := fun _ => accepted
  io := fun _ _ => { bytesRead := bytesRead, buffer := received, bytesWritten := bytesWritten }

/-- Do the three calls of `acceptNewClient` succeed with these answers? -/
def acceptSucceeds (o : AcceptOutcome) : Bool :=
  decide (0 ≤ o.clientFd) && decide (0 ≤ o.getfl) && decide (0 ≤ o.setfl)

/-- The listener index that `handlePollEvents` reads from `fdToServerIndex[fd]`. -/
def routeOf {Config Request Response : Type} (w : WebServer Config Request Response)
    (fd : Int) : Nat :=
  (mapFind w.fdToServerIndex fd).getD 0

/-- While the entry `p` at position `i` is scanned, is a connection accepted? That is:
the entry has an event, its descriptor is a listening one, the index routes it to an
existing listener, and the calls of `acceptNewClient` succeed. -/
def acceptPerformed {Config Request Response : Type} (w : WebServer Config Request Response)
    (env : LoopEnv) (i : Nat) (p : PollFd) : Bool :=
  decide (p.revents ≠ 0) && decide (p.fd ∈ w.serverFdsSet) &&
    decide (routeOf w p.fd < w.servers.length) && acceptSucceeds (env.accept i)

/-- The interest entries for the connections accepted with a positive descriptor while
the entries `l`, which start at position `i`, are scanned. -/
def acceptedEntries {Config Request Response : Type} (w : WebServer Config Request Response)
    (env : LoopEnv) : Nat → List PollFd → List PollFd
  | _, [] => []
  | i, p :: rest =>
    (if acceptPerformed w env i p = true ∧ 0 < (env.accept i).clientFd then
      [{ fd := (env.accept i).clientFd, events := POLLIN ||| POLLOUT, revents := 0 }]
    else []) ++ acceptedEntries w env (i + 1) rest

/-- The reactor once `poll` has written the `revents` of the iteration into the entries. -/
def polled {Config Request Response : Type} (w : WebServer Config Request Response)
    (env : LoopEnv) : WebServer Config Request Response :=
  { w with pollFds := setRevents env.revents 0 w.pollFds }

/-- Is a connection accepted while position `i` of the interest list is scanned? -/
def performedAt {Config Request Response : Type} (w : WebServer Config Request Response)
    (env : LoopEnv) (i : Nat) : Bool :=
  match w.pollFds[i]? with
  | some p => acceptPerformed w env i p
  | none => false

/-- The descriptor `fd` is not open in the reactor: it is no entry of the interest list,
no listening descriptor and no key of a registry. -/
def notOpen {Config Request Response : Type} (w : WebServer Config Request Response)
    (fd : Int) : Prop :=
  fd ∉ w.pollFds.map (fun p => p.fd) ∧ fd ∉ w.serverFdsSet ∧
    ∀ k, k < w.servers.length → fd ∉ keysAt w.servers k

/-- The assumption on `accept` for one scan: every connection accepted gets a descriptor
that is not open when the scan begins, and two connections accepted in the scan get
different descriptors (the first is still open when the second is accepted). -/
def acceptFresh {Config Request Response : Type} (w : WebServer Config Request Response)
    (env : LoopEnv) : Prop :=
  (∀ i, i < w.pollFds.length → performedAt w env i = true →
    notOpen w (env.accept i).clientFd) ∧
  (∀ i, i < w.pollFds.length → ∀ j, j < w.pollFds.length → i ≠ j →
    performedAt w env i = true → performedAt w env j = true →
    (env.accept i).clientFd ≠ (env.accept j).clientFd)

/-- The assumption on `accept` along the iterations of a run of the event loop. -/
def freshRun {Config Request Response : Type} (K : Collaborators Config Request Response) :
    WebServer Config Request Response → List LoopEnv → Prop
  | _, [] => True
  | w, env :: envs =>
    (0 ≤ env.ready → acceptFresh (polled w env) env) ∧
      freshRun K (WebServer.iteration K w env).state envs

/-- The state invariant of the reactor: no descriptor occurs twice in the interest list,
and every descriptor of the interest list is either a listening descriptor registered in
no registry, or no listening descriptor and the key of a connection in the registry of
exactly one listener. -/
def reactorInvariant {Config Request Response : Type}
    (w : WebServer Config Request Response) : Prop :=
  (w.pollFds.map (fun p => p.fd)).Nodup ∧
  ∀ fd ∈ w.pollFds.map (fun p => p.fd),
    (fd ∈ w.serverFdsSet ∧ ∀ k, fd ∉ keysAt w.servers k) ∨
    (fd ∉ w.serverFdsSet ∧
      ∃ k, fd ∈ keysAt w.servers k ∧ ∀ k2, fd ∈ keysAt w.servers k2 → k2 = k)

/-! ## Teardown of the reactor -/

/-- The loop `servers[i]->cleanup(); delete servers[i];` of `WebServer::cleanup`: the
calls issued. `delete` runs `Server::~Server`, which calls `cleanup` once more, on the
listener as the first call left it. -/
def WebServer.cleanupServers {Config Request Response : Type} :
    List (Server Config Request Response) → List Sys
  | [] => []
  | s :: rest =>
    let r := s.cleanup
    let r2 := r.state.cleanup
    r.trace ++ r2.trace ++ WebServer.cleanupServers rest

/-- `WebServer::cleanup`. -/
def WebServer.cleanup {Config Request Response : Type}
    (w : WebServer Config Request Response) : Out (WebServer Config Request Response) Unit :=
  { ret := ()
    state := { servers := [], pollFds := [], fdToServerIndex := [], serverFdsSet := [] }
    trace := (w.pollFds.filter (fun p => decide (p.fd ≥ 0))).map (fun p => Sys.close p.fd)
      ++ WebServer.cleanupServers w.servers }

/-! ## The configuration of a location (`LocationConfig.cpp`) -/

/-- The `std::runtime_error`s thrown by `LocationConfig`, one per message. -/
inductive ConfigError where
  /-- Location path cannot be empty. -/
  | emptyPath
  /-- Location path must start with a slash. -/
  | pathWithoutSlash
  /-- Invalid HTTP method. -/
  | invalidMethod
  /-- CGI extension must start with a dot. -/
  | extensionWithoutDot
  /-- Invalid character in CGI extension. -/
  | invalidExtensionCharacter
  /-- Invalid redirect status code. -/
  | invalidStatusCode
  /-- Root path cannot be empty. -/
  | emptyRoot
  /-- Index file name cannot be empty. -/
  | emptyIndexName
  /-- Redirect target cannot be empty. -/
  | emptyRedirectTarget
  /-- CGI path cannot be empty. -/
  | emptyCgiPath
  /-- Index list cannot be empty. -/
  | emptyIndexList
  /-- Index file name in list cannot be empty. -/
  | emptyIndexNameInList
  deriving DecidableEq, Repr

/-- `m[k] = v` on a `std::map<std::string, V>`, kept as a list of pairs in ascending key
order. -/
def stringMapSet {V : Type} : List (Bytes × V) → Bytes → V → List (Bytes × V)
  | [], k, v => [(k, v)]
  | (k1, v1) :: rest, k, v =>
    if k < k1 then (k, v) :: (k1, v1) :: rest
    else if k = k1 then (k, v) :: rest
    else (k1, v1) :: stringMapSet rest k v

/-- The data members of `LocationConfig`. -/
structure LocationConfig where
  _path : Bytes
  _root : Bytes
  _indexes : List Bytes
  _autoindex : Bool
  _allowed_methods : List Bytes
  _redirects : List (Int × Bytes)
  _cgis : List (Bytes × Bytes)
  deriving DecidableEq, Repr

/-- `LocationConfig::LocationConfig()`. -/
def LocationConfig.fresh : LocationConfig where
  _path := []
  _root := []
  _indexes := []
  _autoindex := false
  _allowed_methods := []
  _redirects := []
  _cgis := []

/-- `LocationConfig::_validatePath`. -/
def LocationConfig._validatePath (path : Bytes) : Except ConfigError Unit :=
  if path.isEmpty then Except.error ConfigError.emptyPath
  else if path.head? ≠ some '/' then Except.error ConfigError.pathWithoutSlash
  else Except.ok ()

/-- `LocationConfig::_validateMethod`. -/
def LocationConfig._validateMethod (method : Bytes) : Except ConfigError Unit :=
  if ["GET".toList, "POST".toList, "DELETE".toList].any (fun m => decide (method = m)) then
    Except.ok ()
  else Except.error ConfigError.invalidMethod

/-- `std::isalnum` in the C locale. -/
def isalnum (c : Char) : Bool :=
  decide ((48 ≤ c.toNat ∧ c.toNat ≤ 57) ∨ (65 ≤ c.toNat ∧ c.toNat ≤ 90) ∨
    (97 ≤ c.toNat ∧ c.toNat ≤ 122))

/-- `LocationConfig::_validateExtension`. -/
def LocationConfig._validateExtension (ext : Bytes) : Except ConfigError Unit :=
  if ext.isEmpty ∨ ext.head? ≠ some '.' then Except.error ConfigError.extensionWithoutDot
  else if (ext.drop 1).all (fun c => isalnum c || decide (c = '_') || decide (c = '-')) then
    Except.ok ()
  else Except.error ConfigError.invalidExtensionCharacter

/-- `LocationConfig::_validateStatusCode`. -/
def LocationConfig._validateStatusCode (code : Int) : Except ConfigError Unit :=
  if code < 300 ∨ code > 599 then Except.error ConfigError.invalidStatusCode
  else Except.ok ()

/-- `LocationConfig::setPath`. -/
def LocationConfig.setPath (c : LocationConfig) (p : Bytes) : Except ConfigError LocationConfig :=
  match LocationConfig._validatePath p with
  | Except.error e => Except.error e
  | Except.ok _ => Except.ok { c with _path := p }

/-- `LocationConfig::setRoot`. -/
def LocationConfig.setRoot (c : LocationConfig) (r : Bytes) : Except ConfigError LocationConfig :=
  if r.isEmpty then Except.error ConfigError.emptyRoot
  else Except.ok { c with _root := r }

/-- `LocationConfig::addIndex`. -/
def LocationConfig.addIndex (c : LocationConfig) (idx : Bytes) :
    Except ConfigError LocationConfig :=
  if idx.isEmpty then Except.error ConfigError.emptyIndexName
  else if c._indexes.any (fun it => decide (it = idx)) then Except.ok c
  else Except.ok { c with _indexes := c._indexes ++ [idx] }

/-- `LocationConfig::setAutoIndex`. -/
def LocationConfig.setAutoIndex (c : LocationConfig) (a : Bool) :
    Except ConfigError LocationConfig :=
  Except.ok { c with _autoindex := a }

/-- `LocationConfig::addAllowedMethod`. -/
def LocationConfig.addAllowedMethod (c : LocationConfig) (m : Bytes) :
    Except ConfigError LocationConfig :=
  match LocationConfig._validateMethod m with
  | Except.error e => Except.error e
  | Except.ok _ =>
    if c._allowed_methods.any (fun it => decide (it = m)) then Except.ok c
    else Except.ok { c with _allowed_methods := c._allowed_methods ++ [m] }

/-- `LocationConfig::addRedirect`. -/
def LocationConfig.addRedirect (c : LocationConfig) (code : Int) (target : Bytes) :
    Except ConfigError LocationConfig :=
  match LocationConfig._validateStatusCode code with
  | Except.error e => Except.error e
  | Except.ok _ =>
    if target.isEmpty then Except.error ConfigError.emptyRedirectTarget
    else Except.ok { c with _redirects := mapSet c._redirects code target }

/-- `LocationConfig::addCgi`. -/
def LocationConfig.addCgi (c : LocationConfig) (ext cgi_path : Bytes) :
    Except ConfigError LocationConfig :=
  match LocationConfig._validateExtension ext with
  | Except.error e => Except.error e
  | Except.ok _ =>
    if cgi_path.isEmpty then Except.error ConfigError.emptyCgiPath
    else Except.ok { c with _cgis := stringMapSet c._cgis ext cgi_path }

/-- `LocationConfig::setIndexes`. -/
def LocationConfig.setIndexes (c : LocationConfig) (indexes : List Bytes) :
    Except ConfigError LocationConfig :=
  if indexes.isEmpty then Except.error ConfigError.emptyIndexList
  else if indexes.any (fun it => it.isEmpty) then Except.error ConfigError.emptyIndexNameInList
  else Except.ok { c with _indexes := indexes }

/-- `LocationConfig::inheritFromServer`; `serverRoot` and `serverIndexes` are what
`server.getServerRoot()` and `server.getServerIndexes()` return. The method is `const`:
it works on the copy `result` and returns it. -/
def LocationConfig.inheritFromServer (c : LocationConfig) (serverRoot : Bytes)
    (serverIndexes : List Bytes) : Except ConfigError LocationConfig :=
  let result := c
  match (if result._root.isEmpty then result.setRoot serverRoot else Except.ok result) with
  | Except.error e => Except.error e
  | Except.ok result =>
    match (if result._indexes.isEmpty then result.setIndexes serverIndexes
           else Except.ok result) with
    | Except.error e => Except.error e
    | Except.ok result => Except.ok result

/-- A call of a public method of `LocationConfig` that yields a configuration. -/
inductive ConfigCall where
  | setPath (p : Bytes)
  | setRoot (r : Bytes)
  | addIndex (idx : Bytes)
  | setAutoIndex (a : Bool)
  | addAllowedMethod (m : Bytes)
  | addRedirect (code : Int) (target : Bytes)
  | addCgi (ext cgi_path : Bytes)
  | setIndexes (indexes : List Bytes)
  | inheritFromServer (serverRoot : Bytes) (serverIndexes : List Bytes)
  deriving DecidableEq, Repr

/-- The configuration after one call, or the exception it throws. -/
def LocationConfig.call (c : LocationConfig) : ConfigCall → Except ConfigError LocationConfig
  | ConfigCall.setPath p => c.setPath p
  | ConfigCall.setRoot r => c.setRoot r
  | ConfigCall.addIndex idx => c.addIndex idx
  | ConfigCall.setAutoIndex a => c.setAutoIndex a
  | ConfigCall.addAllowedMethod m => c.addAllowedMethod m
  | ConfigCall.addRedirect code target => c.addRedirect code target
  | ConfigCall.addCgi ext cgi_path => c.addCgi ext cgi_path
  | ConfigCall.setIndexes indexes => c.setIndexes indexes
  | ConfigCall.inheritFromServer serverRoot serverIndexes =>
    c.inheritFromServer serverRoot serverIndexes

/-- The configuration after a sequence of calls none of which throws; the first exception
ends the sequence. -/
def LocationConfig.calls (c : LocationConfig) : List ConfigCall → Except ConfigError LocationConfig
  | [] => Except.ok c
  | op :: rest =>
    match c.call op with
    | Except.error e => Except.error e
    | Except.ok c1 => LocationConfig.calls c1 rest

/-- The index lists that a sequence of calls hands over whole: the arguments of
`setIndexes` and the server index lists of `inheritFromServer`. -/
def givenIndexLists : List ConfigCall → List (List Bytes)
  | [] => []
  | ConfigCall.setIndexes indexes :: rest => indexes :: givenIndexLists rest
  | ConfigCall.inheritFromServer _ serverIndexes :: rest => serverIndexes :: givenIndexLists rest
  | _ :: rest => givenIndexLists rest

/-! ## Facts about `find` -/

theorem matchAt_iff (s needle : Bytes) (i : Nat) :
    matchAt s needle i = true ↔ (s.drop i).take needle.length = needle := by
  simp [matchAt]

theorem findLoop_some (s needle : Bytes) (fuel : Nat) : ∀ (i k : Nat),
    findLoop s needle i fuel = some k ↔
      i ≤ k ∧ k < i + fuel ∧ matchAt s needle k = true ∧
        ∀ j, i ≤ j → j < k → matchAt s needle j = false := by
  induction fuel with
  | zero =>
    intro i k
    simp only [findLoop]
    constructor
    · intro h; cases h
    · rintro ⟨h1, h2, -⟩; omega
  | succ fuel ih =>
    intro i k
    simp only [findLoop]
    by_cases hm : matchAt s needle i = true
    · rw [if_pos hm]
      constructor
      · intro h
        cases h
        exact ⟨le_rfl, by omega, hm, fun j h1 h2 => by omega⟩
      · rintro ⟨h1, -, -, h4⟩
        rcases Nat.eq_or_lt_of_le h1 with h | h
        · rw [h]
        · have := h4 i le_rfl h
          rw [hm] at this; cases this
    · rw [if_neg hm, ih]
      have hm' : matchAt s needle i = false := by simpa using hm
      constructor
      · rintro ⟨h1, h2, h3, h4⟩
        refine ⟨by omega, by omega, h3, fun j hj1 hj2 => ?_⟩
        rcases Nat.eq_or_lt_of_le hj1 with h | h
        · rw [← h]; exact hm'
        · exact h4 j h hj2
      · rintro ⟨h1, h2, h3, h4⟩
        have hik : i ≠ k := by
          intro h; rw [← h, hm'] at h3; cases h3
        exact ⟨by omega, by omega, h3, fun j hj1 hj2 => h4 j (by omega) hj2⟩

theorem findLoop_none (s needle : Bytes) (fuel : Nat) : ∀ (i : Nat),
    findLoop s needle i fuel = none ↔
      ∀ j, i ≤ j → j < i + fuel → matchAt s needle j = false := by
  induction fuel with
  | zero =>
    intro i
    simp only [findLoop, true_iff]
    intro j h1 h2; omega
  | succ fuel ih =>
    intro i
    simp only [findLoop]
    by_cases hm : matchAt s needle i = true
    · rw [if_pos hm]
      constructor
      · intro h; cases h
      · intro h
        have := h i le_rfl (by omega)
        rw [hm] at this; cases this
    · rw [if_neg hm, ih]
      have hm' : matchAt s needle i = false := by simpa using hm
      constructor
      · intro h j hj1 hj2
        rcases Nat.eq_or_lt_of_le hj1 with e | e
        · rw [← e]; exact hm'
        · exact h j e (by omega)
      · intro h j hj1 hj2
        exact h j (by omega) (by omega)

/-- Specification of `find`: the answer is the first match at or after `pos`. -/
theorem find_some_iff (s needle : Bytes) (pos k : Nat) :
    find s needle pos = some k ↔
      pos ≤ k ∧ k ≤ s.length ∧ matchAt s needle k = true ∧
        ∀ j, pos ≤ j → j < k → matchAt s needle j = false := by
  unfold find
  split
  · rw [findLoop_some]
    constructor
    · rintro ⟨h1, h2, h3, h4⟩; exact ⟨h1, by omega, h3, h4⟩
    · rintro ⟨h1, h2, h3, h4⟩; exact ⟨h1, by omega, h3, h4⟩
  · constructor
    · intro h; cases h
    · rintro ⟨h1, h2, -⟩; omega

theorem find_none_iff (s needle : Bytes) (pos : Nat) :
    find s needle pos = none ↔
      ∀ j, pos ≤ j → j ≤ s.length → matchAt s needle j = false := by
  unfold find
  split
  · rw [findLoop_none]
    constructor
    · intro h j h1 h2; exact h j h1 (by omega)
    · intro h j h1 h2; exact h j h1 (by omega)
  · simp only [true_iff]
    intro j h1 h2; omega

/-- A match of a non-empty needle lies inside the string. -/
theorem matchAt_bound (s needle : Bytes) (i : Nat) (hn : needle ≠ [])
    (h : matchAt s needle i = true) : i + needle.length ≤ s.length := by
  rw [matchAt_iff] at h
  have hl := congrArg List.length h
  simp only [List.length_take, List.length_drop] at hl
  have : 0 < needle.length := List.length_pos.mpr hn
  omega

theorem matchAt_take (s needle : Bytes) (i n : Nat) (h : i + needle.length ≤ n) :
    matchAt (s.take n) needle i = matchAt s needle i := by
  unfold matchAt
  rw [List.drop_take, List.take_take]
  have : min needle.length (n - i) = needle.length := by omega
  rw [this]

theorem matchAt_take_true (s needle : Bytes) (i n : Nat) (hn : needle ≠ [])
    (h : matchAt (s.take n) needle i = true) :
    i + needle.length ≤ n ∧ matchAt s needle i = true := by
  have hb := matchAt_bound _ _ _ hn h
  simp only [List.length_take] at hb
  have h1 : i + needle.length ≤ n := by omega
  exact ⟨h1, by rw [← matchAt_take s needle i n h1]; exact h⟩

theorem find_take_some (s needle : Bytes) (pos k n : Nat) (hn : needle ≠ [])
    (h : find s needle pos = some k) (hk : k + needle.length ≤ n) :
    find (s.take n) needle pos = some k := by
  rw [find_some_iff] at h ⊢
  obtain ⟨h1, h2, h3, h4⟩ := h
  have hb := matchAt_bound _ _ _ hn h3
  refine ⟨h1, ?_, ?_, ?_⟩
  · simp only [List.length_take]; omega
  · rw [matchAt_take _ _ _ _ hk]; exact h3
  · intro j hj1 hj2
    have : 0 < needle.length := List.length_pos.mpr hn
    rw [matchAt_take _ _ _ _ (by omega)]
    exact h4 j hj1 hj2

theorem find_take_none (s needle : Bytes) (pos n : Nat) (hn : needle ≠ [])
    (h : find s needle pos = none) : find (s.take n) needle pos = none := by
  rw [find_none_iff] at h ⊢
  intro j hj1 hj2
  by_contra hc
  have hc' : matchAt (s.take n) needle j = true := by simpa using hc
  obtain ⟨-, h2⟩ := matchAt_take_true _ _ _ _ hn hc'
  have hb := matchAt_bound _ _ _ hn h2
  rw [h j hj1 (by omega)] at h2
  cases h2

theorem find_of_take (s needle : Bytes) (pos k n : Nat) (hn : needle ≠ [])
    (h : find (s.take n) needle pos = some k) :
    find s needle pos = some k ∧ k + needle.length ≤ n := by
  rw [find_some_iff] at h
  obtain ⟨h1, h2, h3, h4⟩ := h
  obtain ⟨hk, h3'⟩ := matchAt_take_true _ _ _ _ hn h3
  refine ⟨?_, hk⟩
  rw [find_some_iff]
  have hb := matchAt_bound _ _ _ hn h3'
  refine ⟨h1, by omega, h3', ?_⟩
  intro j hj1 hj2
  rw [← matchAt_take s needle j n (by omega)]
  exact h4 j hj1 hj2


/-! ## Characters of the header name and of numbers -/

theorem isdigit_not_cr (x : Char) (h : isdigit x = true) : x ≠ '\r' := by
  intro e; subst e; revert h; decide

theorem contentLengthName_not_cr : ∀ x ∈ contentLengthName, x ≠ '\r' := by decide

theorem contentLengthName_length : contentLengthName.length = 15 := by decide

theorem getElem?_of_matchAt (s needle : Bytes) (i j : Nat) (h : matchAt s needle i = true)
    (hj : j < needle.length) : s[i + j]? = needle[j]? := by
  rw [matchAt_iff] at h
  have := congrArg (fun l => l[j]?) h
  simp only [List.getElem?_take, hj, List.getElem?_drop, if_true] at this
  exact this

/-- Past a stretch `mid` free of carriage returns, the next line terminator is the one
that follows `mid`. -/
theorem find_crlf_skip (pre mid rest : Bytes) (h : ∀ x ∈ mid, x ≠ '\r') :
    find (pre ++ mid ++ crlf ++ rest) crlf pre.length = some (pre.length + mid.length) := by
  rw [find_some_iff]
  refine ⟨by omega, by simp, ?_, ?_⟩
  · rw [matchAt_iff]
    have : pre ++ mid ++ crlf ++ rest = (pre ++ mid) ++ (crlf ++ rest) := by simp
    rw [this, List.drop_append_of_le_length (by simp), List.drop_of_length_le (by simp)]
    simp
  · intro j hj1 hj2
    by_contra hc
    have hc' : matchAt (pre ++ mid ++ crlf ++ rest) crlf j = true := by simpa using hc
    have h0 := getElem?_of_matchAt _ _ j 0 hc' (by decide)
    have e : pre ++ mid ++ crlf ++ rest = pre ++ (mid ++ (crlf ++ rest)) := by simp
    rw [Nat.add_zero, e, List.getElem?_append_right hj1, List.getElem?_append_left (by omega)] at h0
    have hm : '\r' ∈ mid := by
      rw [List.mem_iff_getElem?]
      exact ⟨j - pre.length, h0⟩
    exact h _ hm rfl

theorem decimalValue_nonneg_atoi (d : Bytes) (hd : d.all isdigit = true)
    (hv : decimalValue d ≤ 2 ^ 31 - 1) : toSizeT (atoi d) = decimalValue d := by
  have hall : ∀ x ∈ d, isdigit x = true := by simpa using hd
  have h1 : d.dropWhile isspace = d := by
    cases d with
    | nil => rfl
    | cons x xs =>
      have hx := hall x (List.mem_cons_self _ _)
      have : isspace x = false := by
        simp only [isdigit, decide_eq_true_eq] at hx
        simp only [isspace, decide_eq_false_iff_not]
        omega
      simp [List.dropWhile, this]
  have h2 : d.head? ≠ some '-' ∧ d.head? ≠ some '+' := by
    cases d with
    | nil => simp
    | cons x xs =>
      have hx := hall x (List.mem_cons_self _ _)
      simp only [List.head?_cons, ne_eq, Option.some.injEq]
      constructor <;> (intro e; subst e; revert hx; decide)
  have h3 : d.takeWhile isdigit = d := by
    rw [List.takeWhile_eq_self_iff]; exact hall
  unfold atoi strtol
  simp only [h1, h2.1, h2.2, or_self, if_false, h3, decide_False, Bool.false_eq_true]
  unfold toInt32 toSizeT
  have hv' : ((decimalValue d : Nat) : Int) ≤ 2 ^ 31 - 1 := by
    have : ((decimalValue d : Nat) : Int) ≤ ((2 ^ 31 - 1 : Nat) : Int) := Int.ofNat_le.mpr hv
    simpa using this
  omega


/-- Whatever `strtol` yields, a value that has passed through `int` and then `size_t`
is below `2 ^ 31` or at least `2 ^ 64 - 2 ^ 31`. -/
theorem toSizeT_toInt32_range (x : Int) :
    toSizeT (toInt32 x) < 2 ^ 31 ∨ 2 ^ 64 - 2 ^ 31 ≤ toSizeT (toInt32 x) := by
  unfold toSizeT toInt32
  omega

/-- A carriage return at or after the start of the header name lies past the name. -/
theorem name_before_cr (r : Bytes) (p q : Nat)
    (hq : matchAt r contentLengthName q = true) (hp : r[p]? = some '\r')
    (hle : q ≤ p) : q + 15 ≤ p := by
  by_contra hc
  have h1 := getElem?_of_matchAt r contentLengthName q (p - q) hq
    (by rw [contentLengthName_length]; omega)
  have e : q + (p - q) = p := by omega
  rw [e, hp] at h1
  have hm : '\r' ∈ contentLengthName := by
    rw [List.mem_iff_getElem?]
    exact ⟨p - q, h1.symm⟩
  exact contentLengthName_not_cr _ hm rfl

/-- In `_getContentLength` a line end that is found lies at or past `clPos + 15`, so
the subtraction `lineEnd - (clPos + 15)` does not wrap. -/
theorem lineEnd_ge (buf : Bytes) (clPos lineEnd : Nat)
    (hcl : find buf contentLengthName 0 = some clPos)
    (hle : find buf crlf clPos = some lineEnd) : clPos + 15 ≤ lineEnd := by
  have hq := ((find_some_iff _ _ _ _).mp hcl).2.2.1
  obtain ⟨h1, -, h3, -⟩ := (find_some_iff _ _ _ _).mp hle
  have h0 := getElem?_of_matchAt buf crlf lineEnd 0 h3 (by decide)
  exact name_before_cr buf lineEnd clPos hq (by simpa using h0) h1

/-! ## The declared body length -/

/-- C2: when the text between the first `Content-Length:` and the line terminator that
follows it holds a character that is not a decimal digit, `_getContentLength` returns 0. -/
theorem getContentLength_nondigit (buf : Bytes) (clPos lineEnd i : Nat) (ch : Char)
    (hcl : find buf contentLengthName 0 = some clPos)
    (hle : find buf crlf clPos = some lineEnd)
    (hi1 : clPos + 15 ≤ i) (hi2 : i < lineEnd)
    (hch : buf[i]? = some ch) (hnd : isdigit ch = false) :
    _getContentLength buf = 0 := by
  unfold _getContentLength
  simp only [hcl, hle, Option.getD_some]
  have hmem : ch ∈ substr buf (clPos + 15) (lineEnd - (clPos + 15)) := by
    rw [List.mem_iff_getElem?]
    refine ⟨i - (clPos + 15), ?_⟩
    unfold substr
    rw [List.getElem?_take, if_pos (by omega), List.getElem?_drop]
    have : clPos + 15 + (i - (clPos + 15)) = i := by omega
    rw [this]; exact hch
  have hall : (substr buf (clPos + 15) (lineEnd - (clPos + 15))).all isdigit = false := by
    rw [List.all_eq_false]
    exact ⟨ch, hmem, by simp [hnd]⟩
  simp [hall]

/-- The header line `Content-Length: 12a` gives the declared length 0. -/
theorem getContentLength_nondigit_witness :
    find "GET / HTTP/1.1\r\nContent-Length: 12a\r\n\r\n".toList contentLengthName 0 = some 16 ∧
    find "GET / HTTP/1.1\r\nContent-Length: 12a\r\n\r\n".toList crlf 16 = some 35 ∧
    "GET / HTTP/1.1\r\nContent-Length: 12a\r\n\r\n".toList[34]? = some 'a' ∧
    isdigit 'a' = false ∧
    _getContentLength "GET / HTTP/1.1\r\nContent-Length: 12a\r\n\r\n".toList = 0 :=
  ⟨by decide, by decide, by decide, by decide,
   getContentLength_nondigit _ 16 35 34 'a' (by decide) (by decide) (by decide) (by decide)
     (by decide) (by decide)⟩

/-- C3: on the usual header form `Content-Length: 20`, with one space after the colon,
`_getContentLength` returns 0 and not 20, and the buffer that ends with the blank line
already passes `_hasCompleteRequest`, before any of the 20 body bytes. -/
theorem getContentLength_usual_form_is_zero :
    _getContentLength "POST /upload HTTP/1.1\r\nContent-Length: 20\r\n\r\n".toList = 0 ∧
    _hasCompleteRequest "POST /upload HTTP/1.1\r\nContent-Length: 20\r\n\r\n".toList = true ∧
    find "POST /upload HTTP/1.1\r\nContent-Length: 20\r\n\r\n".toList headerTerminator 0
      = some 41 ∧
    "POST /upload HTTP/1.1\r\nContent-Length: 20\r\n\r\n".toList.length = 41 + 4 := by
  decide

/-- C4, as stated, fails: the digits `4294967296` directly after the header name give the
declared length 0, not 4294967296. -/
theorem getContentLength_large_value_counterexample :
    find "Content-Length:4294967296\r\n\r\n".toList contentLengthName 0 = some 0 ∧
    "Content-Length:4294967296\r\n\r\n".toList
      = contentLengthName ++ "4294967296".toList ++ crlf ++ crlf ∧
    "4294967296".toList.all isdigit = true ∧
    decimalValue "4294967296".toList = 4294967296 ∧
    _getContentLength "Content-Length:4294967296\r\n\r\n".toList = 0 := by
  decide

theorem getContentLength_of_digits (pre d rest : Bytes)
    (hfirst : find (pre ++ contentLengthName ++ d ++ crlf ++ rest) contentLengthName 0
      = some pre.length)
    (hd : d.all isdigit = true) (hv : decimalValue d ≤ 2 ^ 31 - 1) :
    _getContentLength (pre ++ contentLengthName ++ d ++ crlf ++ rest) = decimalValue d := by
  have hskip := find_crlf_skip pre (contentLengthName ++ d) rest (by
    intro x hx
    rcases List.mem_append.mp hx with h | h
    · exact contentLengthName_not_cr x h
    · exact isdigit_not_cr x ((List.all_eq_true.mp hd) x h))
  have e : pre ++ (contentLengthName ++ d) ++ crlf ++ rest
      = pre ++ contentLengthName ++ d ++ crlf ++ rest := by simp
  rw [e] at hskip
  unfold _getContentLength
  simp only [hfirst, hskip, Option.getD_some]
  have hsub : substr (pre ++ contentLengthName ++ d ++ crlf ++ rest) (pre.length + 15)
      (pre.length + (contentLengthName ++ d).length - (pre.length + 15)) = d := by
    unfold substr
    have e2 : pre ++ contentLengthName ++ d ++ crlf ++ rest
        = (pre ++ contentLengthName) ++ (d ++ (crlf ++ rest)) := by simp
    rw [e2, List.drop_append_of_le_length (by simp [contentLengthName_length]),
      List.drop_of_length_le (by simp [contentLengthName_length])]
    have e3 : pre.length + (contentLengthName ++ d).length - (pre.length + 15) = d.length := by
      simp only [List.length_append, contentLengthName_length]; omega
    rw [e3]
    simp
  rw [hsub, if_pos hd]
  exact decimalValue_nonneg_atoi d hd hv

/-- C4 (amended): when the first `Content-Length:` is directly followed by a string `d` of
decimal digits whose value fits a 32-bit signed `int`, and then by the line terminator,
`_getContentLength` returns the decimal value of `d`. -/
theorem getContentLength_digits (pre d rest : Bytes)
    (hfirst : find (pre ++ contentLengthName ++ d ++ crlf ++ rest) contentLengthName 0
      = some pre.length)
    (hd : d.all isdigit = true) (hv : decimalValue d ≤ 2 ^ 31 - 1) :
    _getContentLength (pre ++ contentLengthName ++ d ++ crlf ++ rest) = decimalValue d :=
  getContentLength_of_digits pre d rest hfirst hd hv

/-- A request with `Content-Length:20` has declared length 20. -/
theorem getContentLength_digits_witness :
    find ("POST / HTTP/1.1\r\n".toList ++ contentLengthName ++ "20".toList ++ crlf
      ++ "\r\n".toList) contentLengthName 0 = some "POST / HTTP/1.1\r\n".toList.length ∧
    "20".toList.all isdigit = true ∧ decimalValue "20".toList ≤ 2 ^ 31 - 1 ∧
    _getContentLength ("POST / HTTP/1.1\r\n".toList ++ contentLengthName ++ "20".toList ++ crlf
      ++ "\r\n".toList) = 20 :=
  ⟨by decide, by decide, by decide,
   getContentLength_digits "POST / HTTP/1.1\r\n".toList "20".toList "\r\n".toList
     (by decide) (by decide) (by decide)⟩




/-! ## Framing of a request that arrives in pieces -/

theorem headerTerminator_crlf (s : Bytes) (p : Nat)
    (h : matchAt s headerTerminator p = true) : matchAt s crlf p = true := by
  rw [matchAt_iff] at h ⊢
  have := congrArg (List.take 2) h
  rw [List.take_take] at this
  exact this

/-- A header name that starts before the header terminator ends before it. -/
theorem name_before_terminator (r : Bytes) (p q : Nat)
    (hq : matchAt r contentLengthName q = true) (hp : matchAt r headerTerminator p = true)
    (hlt : q < p) : q + 15 ≤ p := by
  have h2 := getElem?_of_matchAt r headerTerminator p 0 hp (by decide)
  exact name_before_cr r p q hq (by simpa using h2) (by omega)

theorem substr_take (s : Bytes) (pos e n : Nat) (h : e ≤ n) :
    substr (s.take n) pos (e - pos) = substr s pos (e - pos) := by
  unfold substr
  rw [List.drop_take, List.take_take]
  have : min (e - pos) (n - pos) = e - pos := by omega
  rw [this]

/-- Once the header block is buffered whole, the declared length no longer changes,
provided the first `Content-Length:` of the request lies in the header block. -/
theorem getContentLength_take (r : Bytes) (p n : Nat)
    (hp : find r headerTerminator 0 = some p)
    (hhdr : ∀ q, find r contentLengthName 0 = some q → q < p)
    (hn : p + 4 ≤ n) :
    _getContentLength (r.take n) = _getContentLength r := by
  have hne : contentLengthName ≠ [] := by decide
  have hne2 : crlf ≠ [] := by decide
  unfold _getContentLength
  cases hq : find r contentLengthName 0 with
  | none => rw [find_take_none _ _ _ _ hne hq]
  | some q =>
    have hqp := hhdr q hq
    have hpm := ((find_some_iff _ _ _ _).mp hp).2.2.1
    have hqm := ((find_some_iff _ _ _ _).mp hq).2.2.1
    have hq15 := name_before_terminator r p q hqm hpm hqp
    have hcr := headerTerminator_crlf r p hpm
    have hpb := matchAt_bound _ _ _ (by decide) hpm
    rw [find_take_some _ _ _ _ _ hne hq (by rw [contentLengthName_length]; omega)]
    cases he : find r crlf q with
    | none =>
      have := (find_none_iff _ _ _).mp he p (by omega)
        (by have : headerTerminator.length = 4 := by decide
            omega)
      rw [hcr] at this; cases this
    | some e =>
      have hep : e ≤ p := by
        by_contra hc
        have := ((find_some_iff _ _ _ _).mp he).2.2.2 p (by omega) (by omega)
        rw [hcr] at this; cases this
      have hcl : crlf.length = 2 := by decide
      have het := find_take_some r crlf q e n hne2 he (by omega)
      simp only [het, he, Option.getD_some]
      rw [substr_take r (q + 15) e n (by omega)]

theorem hasCompleteRequest_whole (r : Bytes) (p : Nat)
    (hp : find r headerTerminator 0 = some p)
    (hlen : r.length = p + 4 + _getContentLength r) (hsz : r.length < 2 ^ 64) :
    _hasCompleteRequest r = true := by
  unfold _hasCompleteRequest
  simp only [hp, ge_iff_le, decide_eq_true_eq]
  rw [← hlen, Nat.mod_eq_of_lt hsz]

theorem hasCompleteRequest_take (r : Bytes) (p n : Nat)
    (hp : find r headerTerminator 0 = some p)
    (hlen : r.length = p + 4 + _getContentLength r) (hsz : r.length < 2 ^ 64)
    (hhdr : ∀ q, find r contentLengthName 0 = some q → q < p)
    (hn : n < r.length) :
    _hasCompleteRequest (r.take n) = false := by
  have hne : headerTerminator ≠ [] := by decide
  have hl4 : headerTerminator.length = 4 := by decide
  unfold _hasCompleteRequest
  by_cases h4 : p + 4 ≤ n
  · rw [find_take_some _ _ _ _ _ hne hp (by omega)]
    simp only [ge_iff_le, decide_eq_false_iff_not, not_le]
    rw [getContentLength_take r p n hp hhdr h4, ← hlen, Nat.mod_eq_of_lt hsz,
      List.length_take]
    omega
  · cases hf : find (r.take n) headerTerminator 0 with
    | none => rfl
    | some k =>
      obtain ⟨h1, h2⟩ := find_of_take _ _ _ _ _ hne hf
      rw [hp] at h1
      cases h1
      omega


theorem handleClientRequest_incomplete {Config Request Response : Type}
    (K : Collaborators Config Request Response) (c : Client Config Request Response)
    (ck : Bytes)
    (h1 : _getContentLength c._readBuffer ≤ K.getClientMaxBodySize c._config)
    (h2 : ck ≠ []) (h3 : _hasCompleteRequest (c._readBuffer ++ ck) = false) :
    handleClientRequest K c ck.length ck =
      { ret := true
        client := { c with _readBuffer := c._readBuffer ++ ck }
        trace := [Effect.recv c._fd 8192] } := by
  have hpos : 0 < ck.length := List.length_pos.mpr h2
  unfold handleClientRequest
  simp only [gt_iff_lt]
  rw [if_neg (by omega), if_neg (by omega)]
  simp [h3]

theorem handleClientRequest_complete {Config Request Response : Type}
    (K : Collaborators Config Request Response) (c : Client Config Request Response)
    (ck : Bytes)
    (h1 : _getContentLength c._readBuffer ≤ K.getClientMaxBodySize c._config)
    (h2 : ck ≠ []) (h3 : _hasCompleteRequest (c._readBuffer ++ ck) = true) :
    handleClientRequest K c ck.length ck =
      { ret := true
        client := { c with
          _response := K.handle (K.newRequest (c._readBuffer ++ ck)) c._config
          _writeBuffer := K.toString (K.handle (K.newRequest (c._readBuffer ++ ck)) c._config)
          _request := none
          _readBuffer := [] }
        trace := [Effect.recv c._fd 8192, Effect.parse (c._readBuffer ++ ck),
          Effect.handle (c._readBuffer ++ ck), Effect.release] } := by
  have hpos : 0 < ck.length := List.length_pos.mpr h2
  unfold handleClientRequest
  simp only [gt_iff_lt]
  rw [if_neg (by omega), if_neg (by omega)]
  simp [h3]

theorem flatten_ne_nil (chunks : List Bytes) (h0 : chunks ≠ [])
    (hne : ∀ ck ∈ chunks, ck ≠ []) : 0 < chunks.flatten.length := by
  cases chunks with
  | nil => exact absurd rfl h0
  | cons ck rest =>
    have := List.length_pos.mpr (hne ck (List.mem_cons_self _ _))
    simp only [List.flatten_cons, List.length_append]
    omega

theorem feed_pieces {Config Request Response : Type}
    (K : Collaborators Config Request Response) (r : Bytes) (p : Nat) (fd : Int) (M : Nat)
    (hp : find r headerTerminator 0 = some p)
    (hlen : r.length = p + 4 + _getContentLength r) (hsz : r.length < 2 ^ 64)
    (hhdr : ∀ q, find r contentLengthName 0 = some q → q < p)
    (hmax : ∀ n, n < r.length → _getContentLength (r.take n) ≤ M) :
    ∀ (chunks : List Bytes) (c : Client Config Request Response),
      c._fd = fd → K.getClientMaxBodySize c._config = M →
      chunks ≠ [] → (∀ ck ∈ chunks, ck ≠ []) → c._readBuffer ++ chunks.flatten = r →
      (feed K c chunks).map (fun s => s.trace) =
          List.replicate (chunks.length - 1) [Effect.recv fd 8192] ++
            [[Effect.recv fd 8192, Effect.parse r, Effect.handle r, Effect.release]] ∧
        ∀ s ∈ feed K c chunks, s.ret = true := by
  intro chunks
  induction chunks with
  | nil => intro c _ _ h0; exact absurd rfl h0
  | cons ck rest ih =>
    intro c hfd hM _ hne hcat
    subst hfd
    have hck : ck ≠ [] := hne ck (List.mem_cons_self _ _)
    have hckpos : 0 < ck.length := List.length_pos.mpr hck
    have hrest : ∀ x ∈ rest, x ≠ [] := fun x hx => hne x (List.mem_cons_of_mem _ hx)
    simp only [List.flatten_cons] at hcat
    have hrl : r.length = c._readBuffer.length + ck.length + rest.flatten.length := by
      rw [← hcat]; simp only [List.length_append]; omega
    have hb : r.take c._readBuffer.length = c._readBuffer := by
      rw [← hcat]; exact List.take_left _ _
    have hearly : _getContentLength c._readBuffer ≤ K.getClientMaxBodySize c._config := by
      rw [hM, ← hb]
      have := hmax c._readBuffer.length (by omega)
      rw [hb] at this ⊢
      exact this
    by_cases hr : rest = []
    · subst hr
      have hwhole : c._readBuffer ++ ck = r := by simpa using hcat
      have hcomp : _hasCompleteRequest (c._readBuffer ++ ck) = true := by
        rw [hwhole]; exact hasCompleteRequest_whole r p hp hlen hsz
      have hs := handleClientRequest_complete K c ck hearly hck hcomp
      simp only [feed, hs, List.head?_cons, if_true, hwhole]
      simp
    · have hrpos := flatten_ne_nil rest hr hrest
      have hrb : c._readBuffer ++ ck = r.take (c._readBuffer.length + ck.length) := by
        rw [← hcat, ← List.append_assoc]
        exact (List.take_left' (by simp)).symm
      have hinc : _hasCompleteRequest (c._readBuffer ++ ck) = false := by
        rw [hrb]
        exact hasCompleteRequest_take r p _ hp hlen hsz hhdr (by omega)
      have hs := handleClientRequest_incomplete K c ck hearly hck hinc
      have ih' := ih { c with _readBuffer := c._readBuffer ++ ck } rfl hM hr hrest
        (by simpa using hcat)
      have hlen1 : (ck :: rest).length - 1 = (rest.length - 1) + 1 := by
        have : 0 < rest.length := List.length_pos.mpr hr
        simp only [List.length_cons]; omega
      simp only [feed, hs, List.head?_cons, if_true, List.map_cons, hlen1,
        List.replicate_succ, List.cons_append, List.mem_cons, forall_eq_or_imp]
      exact ⟨by rw [ih'.1], trivial, ih'.2⟩

theorem flatten_take_eq (chunks : List Bytes) (k : Nat) :
    (chunks.take k).flatten = chunks.flatten.take (chunks.take k).flatten.length := by
  have h : chunks.flatten = (chunks.take k).flatten ++ (chunks.drop k).flatten := by
    rw [← List.flatten_append, List.take_append_drop]
  have h2 : chunks.flatten.take (chunks.take k).flatten.length
      = ((chunks.take k).flatten ++ (chunks.drop k).flatten).take
          (chunks.take k).flatten.length := by rw [← h]
  rw [h2]
  exact (List.take_left _ _).symm


/-- C1, as stated, fails in two ways. (a) The request `X\r\n\r\nContent-Length:17` has its
header terminator at 1, declared length 17 (read from its body) and length 1 + 4 + 17,
yet split after the blank line it passes the completeness test after the first chunk
and is handed to the handler there, not at the last call. (b) The request
`GET / HTTP/1.1\r\nContent-Length:20x\r\n\r\n` has declared length 0, within the maximum 10,
and length 34 + 4 + 0, yet split before the `x` its first chunk declares 20, so the second
call answers 413 without receiving and the request never reaches the handler. -/
theorem feed_fragmented_request_counterexample :
    (find "X\r\n\r\nContent-Length:17".toList headerTerminator 0 = some 1 ∧
      "X\r\n\r\nContent-Length:17".toList.length
        = 1 + 4 + _getContentLength "X\r\n\r\nContent-Length:17".toList ∧
      _getContentLength "X\r\n\r\nContent-Length:17".toList ≤ 100 ∧
      ["X\r\n\r\n".toList, "Content-Length:17".toList].flatten
        = "X\r\n\r\nContent-Length:17".toList ∧
      _hasCompleteRequest "X\r\n\r\n".toList = true ∧
      (feed sampleCollaborators (sampleClient 100 [] [])
          ["X\r\n\r\n".toList, "Content-Length:17".toList]).map (fun s => s.trace)
        = [[Effect.recv 4 8192, Effect.parse "X\r\n\r\n".toList,
              Effect.handle "X\r\n\r\n".toList, Effect.release],
           [Effect.recv 4 8192]]) ∧
    (find "GET / HTTP/1.1\r\nContent-Length:20x\r\n\r\n".toList headerTerminator 0 = some 34 ∧
      "GET / HTTP/1.1\r\nContent-Length:20x\r\n\r\n".toList.length
        = 34 + 4 + _getContentLength "GET / HTTP/1.1\r\nContent-Length:20x\r\n\r\n".toList ∧
      _getContentLength "GET / HTTP/1.1\r\nContent-Length:20x\r\n\r\n".toList ≤ 10 ∧
      ["GET / HTTP/1.1\r\nContent-Length:20".toList, "x\r\n\r\n".toList].flatten
        = "GET / HTTP/1.1\r\nContent-Length:20x\r\n\r\n".toList ∧
      (feed sampleCollaborators (sampleClient 10 [] [])
          ["GET / HTTP/1.1\r\nContent-Length:20".toList, "x\r\n\r\n".toList]).map
            (fun s => s.trace)
        = [[Effect.recv 4 8192],
           [Effect.buildStatus 413],
           [Effect.recv 4 8192, Effect.parse "x\r\n\r\n".toList,
              Effect.handle "x\r\n\r\n".toList, Effect.release]]) := by
  decide

/-- C1 (amended): let `r` be a request whose first header terminator is at `p`, whose
length is `p + 4 +` its declared length (below `2 ^ 64`), whose first `Content-Length:`,
if any, starts before `p`, and none of whose proper initial segments declares a length
above the configured maximum. For every split of `r` into non-empty chunks received one
per call on a connection with empty pending input: the completeness test is false after
every chunk but the last and true after the last, every call receives and returns
"keep open", and the handler is invoked exactly once, at the last call, on exactly `r`. -/
theorem feed_fragmented_request {Config Request Response : Type}
    (K : Collaborators Config Request Response) (c : Client Config Request Response)
    (r : Bytes) (p : Nat) (chunks : List Bytes)
    (hc : c._readBuffer = [])
    (hp : find r headerTerminator 0 = some p)
    (hlen : r.length = p + 4 + _getContentLength r) (hsz : r.length < 2 ^ 64)
    (hhdr : ∀ q, find r contentLengthName 0 = some q → q < p)
    (hmax : ∀ n, n < r.length →
      _getContentLength (r.take n) ≤ K.getClientMaxBodySize c._config)
    (hne : ∀ ck ∈ chunks, ck ≠ [])
    (hsplit : chunks.flatten = r) :
    (∀ k, k < chunks.length →
      _hasCompleteRequest (chunks.take (k + 1)).flatten = decide (k + 1 = chunks.length)) ∧
    (feed K c chunks).map (fun s => s.trace) =
      List.replicate (chunks.length - 1) [Effect.recv c._fd 8192] ++
        [[Effect.recv c._fd 8192, Effect.parse r, Effect.handle r, Effect.release]] ∧
    (∀ s ∈ feed K c chunks, s.ret = true) := by
  have h0 : chunks ≠ [] := by
    intro h
    rw [h] at hsplit
    rw [← hsplit] at hlen
    simp only [List.flatten_nil, List.length_nil] at hlen
    omega
  refine ⟨?_, feed_pieces K r p c._fd (K.getClientMaxBodySize c._config) hp hlen hsz hhdr hmax
    chunks c rfl rfl h0 hne (by rw [hc]; simpa using hsplit)⟩
  intro k hk
  by_cases hlast : k + 1 = chunks.length
  · rw [hlast, List.take_length, hsplit]
    simp only [decide_True]
    exact hasCompleteRequest_whole r p hp hlen hsz
  · simp only [hlast, decide_False]
    rw [flatten_take_eq, hsplit]
    apply hasCompleteRequest_take r p _ hp hlen hsz hhdr
    have hd : chunks.drop (k + 1) ≠ [] := by
      intro h
      have := congrArg List.length h
      simp only [List.length_drop, List.length_nil] at this
      omega
    have hpos := flatten_ne_nil (chunks.drop (k + 1)) hd
      (fun x hx => hne x (List.mem_of_mem_drop hx))
    have hl : r.length = (chunks.take (k + 1)).flatten.length
        + (chunks.drop (k + 1)).flatten.length := by
      rw [← hsplit, ← List.length_append, ← List.flatten_append, List.take_append_drop]
    omega

/-- The request `Content-Length:2\r\n\r\nhi` received in three pieces is handled once, at
the third call. -/
theorem feed_fragmented_request_witness :
    find "Content-Length:2\r\n\r\nhi".toList headerTerminator 0 = some 16 ∧
    "Content-Length:2\r\n\r\nhi".toList.length
      = 16 + 4 + _getContentLength "Content-Length:2\r\n\r\nhi".toList ∧
    (feed sampleCollaborators (sampleClient 5 [] [])
        ["Content-Length:2\r".toList, "\n\r\nh".toList, "i".toList]).map (fun s => s.trace)
      = [[Effect.recv 4 8192], [Effect.recv 4 8192],
         [Effect.recv 4 8192, Effect.parse "Content-Length:2\r\n\r\nhi".toList,
          Effect.handle "Content-Length:2\r\n\r\nhi".toList, Effect.release]] :=
  ⟨by decide, by decide,
   (feed_fragmented_request sampleCollaborators (sampleClient 5 [] [])
      "Content-Length:2\r\n\r\nhi".toList 16
      ["Content-Length:2\r".toList, "\n\r\nh".toList, "i".toList]
      rfl (by decide) (by decide) (by decide)
      (by
        intro q hq
        have h : find "Content-Length:2\r\n\r\nhi".toList contentLengthName 0 = some 0 := by
          decide
        rw [h] at hq
        cases hq
        decide)
      (by decide) (by decide) (by decide)).2.1⟩


/-! ## The oversized-body check and the receive -/

theorem handleClientRequest_early {Config Request Response : Type}
    (K : Collaborators Config Request Response) (c : Client Config Request Response)
    (bytesRead : Int) (buffer : Bytes)
    (h : K.getClientMaxBodySize c._config < _getContentLength c._readBuffer) :
    handleClientRequest K c bytesRead buffer =
      { ret := true
        client := { c with
          _writeBuffer := K.toString (K.buildResponse c._config K.emptyResponse 413)
          _readBuffer := [] }
        trace := [Effect.buildStatus 413] } := by
  unfold handleClientRequest
  simp only [gt_iff_lt]
  rw [if_pos ⟨by omega, h⟩]

/-- C5, as stated, fails: with the maximum 10 and the pending input
`Content-Length:4294967296\r\n\r\n`, a complete all-digit length far above the maximum,
`handleClientRequest` builds no 413 response: it receives, and hands the buffer to the
handler. -/
theorem handleClientRequest_oversized_counterexample :
    "Content-Length:4294967296\r\n\r\n".toList
      = contentLengthName ++ "4294967296".toList ++ crlf ++ crlf ∧
    "4294967296".toList.all isdigit = true ∧
    sampleCollaborators.getClientMaxBodySize
        (sampleClient 10 "Content-Length:4294967296\r\n\r\n".toList [])._config
      < decimalValue "4294967296".toList ∧
    (handleClientRequest sampleCollaborators
        (sampleClient 10 "Content-Length:4294967296\r\n\r\n".toList []) 5 "hello".toList).trace
      = [Effect.recv 4 8192,
         Effect.parse "Content-Length:4294967296\r\n\r\nhello".toList,
         Effect.handle "Content-Length:4294967296\r\n\r\nhello".toList,
         Effect.release] ∧
    (handleClientRequest sampleCollaborators
        (sampleClient 10 "Content-Length:4294967296\r\n\r\n".toList []) 5
          "hello".toList).client._writeBuffer
      = "200:Content-Length:4294967296\r\n\r\nhello".toList := by
  decide

/-- C5 (amended): when the pending input holds, directly after its first
`Content-Length:` and up to the line terminator, a string of digits whose value fits a
32-bit signed `int` and exceeds the configured maximum, `handleClientRequest` performs
no receive, empties the pending input, sets the pending output to the serialized
response of the status builder for (config, 413), changes no other member (the closed
flag included) and returns "keep open". -/
theorem handleClientRequest_oversized {Config Request Response : Type}
    (K : Collaborators Config Request Response) (c : Client Config Request Response)
    (pre d rest : Bytes) (bytesRead : Int) (buffer : Bytes)
    (hbuf : c._readBuffer = pre ++ contentLengthName ++ d ++ crlf ++ rest)
    (hfirst : find c._readBuffer contentLengthName 0 = some pre.length)
    (hd : d.all isdigit = true) (hfit : decimalValue d ≤ 2 ^ 31 - 1)
    (hmax : K.getClientMaxBodySize c._config < decimalValue d) :
    handleClientRequest K c bytesRead buffer =
      { ret := true
        client := { c with
          _writeBuffer := K.toString (K.buildResponse c._config K.emptyResponse 413)
          _readBuffer := [] }
        trace := [Effect.buildStatus 413] } := by
  apply handleClientRequest_early
  rw [hbuf] at hfirst ⊢
  rw [getContentLength_of_digits pre d rest hfirst hd hfit]
  exact hmax

/-- With the maximum 10, the pending input `Content-Length:20\r\n\r\n` is answered by the
413 response without a receive. -/
theorem handleClientRequest_oversized_witness :
    handleClientRequest sampleCollaborators
        (sampleClient 10 "Content-Length:20\r\n\r\n".toList "old".toList) 5 "hello".toList =
      { ret := true
        client := sampleClient 10 [] "413!".toList
        trace := [Effect.buildStatus 413] } :=
  handleClientRequest_oversized sampleCollaborators
    (sampleClient 10 "Content-Length:20\r\n\r\n".toList "old".toList)
    [] "20".toList "\r\n".toList 5 "hello".toList
    (by decide) (by decide) (by decide) (by decide) (by decide)

/-- C6, as stated, fails: with the maximum 10 and empty pending input, one receive of
the headers `Content-Length:20` and the whole 20-byte body leaves buffered bytes that
declare 20, yet the request is passed to the handler and the queued response is the
handler's, not the 413 response. -/
theorem handleClientRequest_one_receive_counterexample :
    sampleCollaborators.getClientMaxBodySize (sampleClient 10 [] [])._config
      < _getContentLength "Content-Length:20\r\n\r\n01234567890123456789".toList ∧
    (handleClientRequest sampleCollaborators (sampleClient 10 [] []) 41
        "Content-Length:20\r\n\r\n01234567890123456789".toList).trace
      = [Effect.recv 4 8192,
         Effect.parse "Content-Length:20\r\n\r\n01234567890123456789".toList,
         Effect.handle "Content-Length:20\r\n\r\n01234567890123456789".toList,
         Effect.release] ∧
    (handleClientRequest sampleCollaborators (sampleClient 10 [] []) 41
        "Content-Length:20\r\n\r\n01234567890123456789".toList).client._writeBuffer
      = "200:Content-Length:20\r\n\r\n01234567890123456789".toList ∧
    sampleCollaborators.toString
        (sampleCollaborators.buildResponse 10 sampleCollaborators.emptyResponse 413)
      = "413!".toList := by
  decide

/-- C6 (amended): the size check looks at the bytes pending before the receive. If
they declare a length above the configured maximum, the call queues the 413 response
and the handler is not invoked in it. If they do not and the receive completes a
frame, the frame is passed to the handler and the handler's response is queued,
whatever length the frame declares. -/
theorem handleClientRequest_size_check_before_receive {Config Request Response : Type}
    (K : Collaborators Config Request Response) (c : Client Config Request Response)
    (bytesRead : Int) (buffer : Bytes) :
    (K.getClientMaxBodySize c._config < _getContentLength c._readBuffer →
      (handleClientRequest K c bytesRead buffer).trace = [Effect.buildStatus 413] ∧
      (handleClientRequest K c bytesRead buffer).client._writeBuffer
        = K.toString (K.buildResponse c._config K.emptyResponse 413)) ∧
    (_getContentLength c._readBuffer ≤ K.getClientMaxBodySize c._config →
      0 < bytesRead →
      _hasCompleteRequest (c._readBuffer ++ buffer.take bytesRead.toNat) = true →
      (handleClientRequest K c bytesRead buffer).trace
        = [Effect.recv c._fd 8192,
           Effect.parse (c._readBuffer ++ buffer.take bytesRead.toNat),
           Effect.handle (c._readBuffer ++ buffer.take bytesRead.toNat),
           Effect.release] ∧
      (handleClientRequest K c bytesRead buffer).client._writeBuffer
        = K.toString
            (K.handle (K.newRequest (c._readBuffer ++ buffer.take bytesRead.toNat))
              c._config)) := by
  constructor
  · intro h
    rw [handleClientRequest_early K c bytesRead buffer h]
    exact ⟨rfl, rfl⟩
  · intro h1 h2 h3
    unfold handleClientRequest
    simp only [gt_iff_lt]
    rw [if_neg (by omega), if_neg (by omega)]
    simp [h3]

/-- Both halves on concrete input: pending `Content-Length:20\r\n\r\n` with maximum 10 is
answered 413; the same bytes and their body received at once on empty pending input go
to the handler. -/
theorem handleClientRequest_size_check_before_receive_witness :
    ((handleClientRequest sampleCollaborators
        (sampleClient 10 "Content-Length:20\r\n\r\n".toList []) 1 "0".toList).trace
      = [Effect.buildStatus 413]) ∧
    ((handleClientRequest sampleCollaborators (sampleClient 10 [] []) 41
        "Content-Length:20\r\n\r\n01234567890123456789".toList).trace
      = [Effect.recv 4 8192,
         Effect.parse "Content-Length:20\r\n\r\n01234567890123456789".toList,
         Effect.handle "Content-Length:20\r\n\r\n01234567890123456789".toList,
         Effect.release]) :=
  ⟨((handleClientRequest_size_check_before_receive sampleCollaborators
      (sampleClient 10 "Content-Length:20\r\n\r\n".toList []) 1 "0".toList).1
      (by decide)).1,
   ((handleClientRequest_size_check_before_receive sampleCollaborators
      (sampleClient 10 [] []) 41 "Content-Length:20\r\n\r\n01234567890123456789".toList).2
      (by decide) (by decide) (by decide)).1⟩


/-- C7: when the size check does not fire and `recv` returns zero or a negative value,
`handleClientRequest` sets the closed flag, returns "drop connection", leaves pending
input and pending output as they were, and issues the one `recv` and nothing else: no
parser, no handler. -/
theorem handleClientRequest_recv_failed {Config Request Response : Type}
    (K : Collaborators Config Request Response) (c : Client Config Request Response)
    (bytesRead : Int) (buffer : Bytes)
    (hcheck : ¬ (_getContentLength c._readBuffer > 0 ∧
      _getContentLength c._readBuffer > K.getClientMaxBodySize c._config))
    (hrecv : bytesRead ≤ 0) :
    (handleClientRequest K c bytesRead buffer).ret = false ∧
    (handleClientRequest K c bytesRead buffer).client._closed = true ∧
    (handleClientRequest K c bytesRead buffer).client._readBuffer = c._readBuffer ∧
    (handleClientRequest K c bytesRead buffer).client._writeBuffer = c._writeBuffer ∧
    (handleClientRequest K c bytesRead buffer).trace = [Effect.recv c._fd 8192] ∧
    handleClientRequest K c bytesRead buffer =
      { ret := false, client := { c with _closed := true },
        trace := [Effect.recv c._fd 8192] } := by
  have h : handleClientRequest K c bytesRead buffer =
      { ret := false, client := { c with _closed := true },
        trace := [Effect.recv c._fd 8192] } := by
    unfold handleClientRequest
    simp only []
    rw [if_neg hcheck, if_pos hrecv]
  rw [h]
  exact ⟨rfl, rfl, rfl, rfl, rfl, rfl⟩

/-- A connection with a partial request pending whose peer closes (`recv` returns 0). -/
theorem handleClientRequest_recv_failed_witness :
    handleClientRequest sampleCollaborators
        (sampleClient 10 "GET / HT".toList "rest".toList) 0 [] =
      { ret := false
        client := { sampleClient 10 "GET / HT".toList "rest".toList with _closed := true }
        trace := [Effect.recv 4 8192] } :=
  (handleClientRequest_recv_failed sampleCollaborators
    (sampleClient 10 "GET / HT".toList "rest".toList) 0 [] (by decide) (by decide)).2.2.2.2.2

/-- C8: when the size check does not fire, `recv` succeeds and the buffered bytes pass
the completeness test, then afterwards pending input is empty, pending output is the
serialization of `handle(Request(buffered bytes), config)`, the parsed request is
released (`_request` is null), and the call returns "keep open". A following call that
receives frames its own bytes alone: the completeness test and the parser see exactly
the bytes of that receive. -/
theorem handleClientRequest_complete_frame {Config Request Response : Type}
    (K : Collaborators Config Request Response) (c : Client Config Request Response)
    (bytesRead : Int) (buffer : Bytes)
    (hcheck : ¬ (_getContentLength c._readBuffer > 0 ∧
      _getContentLength c._readBuffer > K.getClientMaxBodySize c._config))
    (hrecv : 0 < bytesRead)
    (hcomplete : _hasCompleteRequest (c._readBuffer ++ buffer.take bytesRead.toNat) = true) :
    (handleClientRequest K c bytesRead buffer).ret = true ∧
    (handleClientRequest K c bytesRead buffer).client._readBuffer = [] ∧
    (handleClientRequest K c bytesRead buffer).client._writeBuffer
      = K.toString
          (K.handle (K.newRequest (c._readBuffer ++ buffer.take bytesRead.toNat)) c._config) ∧
    (handleClientRequest K c bytesRead buffer).client._request = none ∧
    (handleClientRequest K c bytesRead buffer).trace
      = [Effect.recv c._fd 8192,
         Effect.parse (c._readBuffer ++ buffer.take bytesRead.toNat),
         Effect.handle (c._readBuffer ++ buffer.take bytesRead.toNat),
         Effect.release] ∧
    ∀ (bytesRead2 : Int) (buffer2 : Bytes), 0 < bytesRead2 →
      (handleClientRequest K (handleClientRequest K c bytesRead buffer).client
          bytesRead2 buffer2).trace
        = (if _hasCompleteRequest (buffer2.take bytesRead2.toNat) then
            [Effect.recv c._fd 8192, Effect.parse (buffer2.take bytesRead2.toNat),
             Effect.handle (buffer2.take bytesRead2.toNat), Effect.release]
          else [Effect.recv c._fd 8192]) ∧
      (handleClientRequest K (handleClientRequest K c bytesRead buffer).client
          bytesRead2 buffer2).client._readBuffer
        = (if _hasCompleteRequest (buffer2.take bytesRead2.toNat) then []
          else buffer2.take bytesRead2.toNat) := by
  have h : handleClientRequest K c bytesRead buffer =
      { ret := true
        client := { c with
          _response := K.handle (K.newRequest (c._readBuffer ++ buffer.take bytesRead.toNat))
            c._config
          _writeBuffer := K.toString
            (K.handle (K.newRequest (c._readBuffer ++ buffer.take bytesRead.toNat)) c._config)
          _request := none
          _readBuffer := [] }
        trace := [Effect.recv c._fd 8192,
          Effect.parse (c._readBuffer ++ buffer.take bytesRead.toNat),
          Effect.handle (c._readBuffer ++ buffer.take bytesRead.toNat), Effect.release] } := by
    unfold handleClientRequest
    simp only []
    rw [if_neg hcheck, if_neg (by omega), if_pos hcomplete]
  rw [h]
  refine ⟨rfl, rfl, rfl, rfl, rfl, ?_⟩
  intro bytesRead2 buffer2 h2
  have h0 : _getContentLength ([] : Bytes) = 0 := by decide
  unfold handleClientRequest
  simp only [h0, gt_iff_lt, lt_self_iff_false, false_and, if_false, List.nil_append]
  rw [if_neg (by omega)]
  by_cases hc2 : _hasCompleteRequest (buffer2.take bytesRead2.toNat) = true
  · simp [hc2]
  · simp [hc2]

/-- Two requests, each received whole, on one connection: the second is parsed alone. -/
theorem handleClientRequest_complete_frame_witness :
    (handleClientRequest sampleCollaborators (sampleClient 10 [] []) 5
        "A\r\n\r\n".toList).client._writeBuffer = "200:A\r\n\r\n".toList ∧
    (handleClientRequest sampleCollaborators
        (handleClientRequest sampleCollaborators (sampleClient 10 [] []) 5
          "A\r\n\r\n".toList).client 5 "B\r\n\r\n".toList).trace
      = [Effect.recv 4 8192, Effect.parse "B\r\n\r\n".toList,
         Effect.handle "B\r\n\r\n".toList, Effect.release] :=
  ⟨(handleClientRequest_complete_frame sampleCollaborators (sampleClient 10 [] []) 5
      "A\r\n\r\n".toList (by decide) (by decide) (by decide)).2.2.1,
   ((handleClientRequest_complete_frame sampleCollaborators (sampleClient 10 [] []) 5
      "A\r\n\r\n".toList (by decide) (by decide) (by decide)).2.2.2.2.2
      5 "B\r\n\r\n".toList (by decide)).1⟩


/-! ## Draining the response buffer -/

theorem handleClientResponse_sent {Config Request Response : Type}
    (c : Client Config Request Response) (n : Int)
    (h1 : 0 < n) (h2 : n ≤ (c._writeBuffer.length : Int)) :
    handleClientResponse c n =
      { ret := true
        client := { c with _writeBuffer := c._writeBuffer.drop n.toNat }
        trace := [Effect.send c._fd c._writeBuffer] } := by
  have hne : c._writeBuffer.isEmpty = false := by
    cases hw : c._writeBuffer with
    | nil => rw [hw] at h2; simp at h2; omega
    | cons x xs => rfl
  unfold handleClientResponse
  simp only [hne, Bool.false_eq_true, if_false]
  rw [if_neg (by omega)]

theorem drain_bundle {Config Request Response : Type} :
    ∀ (ns : List Int) (c : Client Config Request Response),
      validSends c._writeBuffer.length ns = true →
      (∀ s ∈ drain c ns, s.1.ret = true) ∧
      ((drain c ns).map (fun s => s.2)).flatten ++ (drainEnd c ns)._writeBuffer
        = c._writeBuffer ∧
      (drain c ns).map (fun s => (s.2.length : Int)) = ns ∧
      ((((drain c ns).map (fun s => s.2)).flatten.length : Nat) : Int) = ns.sum ∧
      List.Chain' (fun a b => a ≥ b)
        (c._writeBuffer.length :: (drain c ns).map (fun s => s.1.client._writeBuffer.length)) := by
  intro ns
  induction ns with
  | nil =>
    intro c _
    simp [drain, drainEnd]
  | cons n ns ih =>
    intro c hv
    simp only [validSends, Bool.and_eq_true, decide_eq_true_eq] at hv
    obtain ⟨⟨h1, h2⟩, h3⟩ := hv
    have hs := handleClientResponse_sent c n h1 h2
    have hlen : (c._writeBuffer.drop n.toNat).length = c._writeBuffer.length - n.toNat := by
      simp
    have ih' := ih { c with _writeBuffer := c._writeBuffer.drop n.toNat }
      (by simpa only [hlen] using h3)
    obtain ⟨i1, i2, i3, i4, i5⟩ := ih'
    have htk : ((c._writeBuffer.take n.toNat).length : Int) = n := by
      rw [List.length_take]; omega
    simp only [drain, drainEnd, hs, accepted, List.map_cons, List.flatten_cons,
      List.mem_cons, forall_eq_or_imp, List.sum_cons, List.length_append, Nat.cast_add,
      List.chain'_cons, List.append_assoc]
    refine ⟨⟨trivial, i1⟩, ?_, ?_, ?_, ?_, i5⟩
    · rw [i2]; exact List.take_append_drop _ _
    · rw [htk, i3]
    · rw [htk, i4]
    · rw [hlen]; omega

/-- C9: for send results `ns` that are each positive and at most the length of the
pending output remaining at their step, every `handleClientResponse` call succeeds,
removes from the front of the pending output exactly the `ns[i]` bytes its send
accepted, the bytes accepted, in order,
followed by the bytes still pending rebuild the initial pending output, the
pending-output length never increases from one call to the next, and when the results
add up to the initial length the bytes delivered are the whole output and nothing
remains pending. -/
theorem drain_delivers_in_order {Config Request Response : Type}
    (c : Client Config Request Response) (ns : List Int)
    (hvalid : validSends c._writeBuffer.length ns = true) :
    (∀ (c1 : Client Config Request Response) (n : Int),
      0 < n → n ≤ (c1._writeBuffer.length : Int) →
      (handleClientResponse c1 n).ret = true ∧
      (handleClientResponse c1 n).client._writeBuffer = c1._writeBuffer.drop n.toNat ∧
      accepted n (handleClientResponse c1 n).trace = c1._writeBuffer.take n.toNat) ∧
    (∀ s ∈ drain c ns, s.1.ret = true) ∧
    (drain c ns).map (fun s => (s.2.length : Int)) = ns ∧
    ((drain c ns).map (fun s => s.2)).flatten ++ (drainEnd c ns)._writeBuffer
      = c._writeBuffer ∧
    ((drain c ns).map (fun s => s.2)).flatten
      = c._writeBuffer.take ns.sum.toNat ∧
    (drainEnd c ns)._writeBuffer = c._writeBuffer.drop ns.sum.toNat ∧
    List.Chain' (fun a b => a ≥ b)
      (c._writeBuffer.length :: (drain c ns).map (fun s => s.1.client._writeBuffer.length)) ∧
    (ns.sum = (c._writeBuffer.length : Int) →
      ((drain c ns).map (fun s => s.2)).flatten = c._writeBuffer ∧
      (drainEnd c ns)._writeBuffer = []) := by
  obtain ⟨b1, b2, b3, b4, b5⟩ := drain_bundle ns c hvalid
  have hlenD : ((drain c ns).map (fun s => s.2)).flatten.length = ns.sum.toNat := by omega
  have htake : ((drain c ns).map (fun s => s.2)).flatten = c._writeBuffer.take ns.sum.toNat := by
    conv_rhs => rw [← b2]
    rw [← hlenD, List.take_left]
  have hdrop : (drainEnd c ns)._writeBuffer = c._writeBuffer.drop ns.sum.toNat := by
    conv_rhs => rw [← b2]
    rw [← hlenD, List.drop_left]
  refine ⟨?_, b1, b3, b2, htake, hdrop, b5, ?_⟩
  · intro c1 n h1 h2
    rw [handleClientResponse_sent c1 n h1 h2]
    exact ⟨rfl, rfl, rfl⟩
  intro hsum
  have hl := congrArg List.length b2
  rw [List.length_append] at hl
  have hz : (drainEnd c ns)._writeBuffer.length = 0 := by omega
  have hnil : (drainEnd c ns)._writeBuffer = [] := List.length_eq_zero.mp hz
  refine ⟨?_, hnil⟩
  rw [hnil, List.append_nil] at b2
  exact b2

/-- The response `hello world` sent in pieces of 3, 5 and 3 bytes. -/
theorem drain_delivers_in_order_witness :
    validSends (sampleClient 10 [] "hello world".toList)._writeBuffer.length [3, 5, 3] = true ∧
    (drain (sampleClient 10 [] "hello world".toList) [3, 5, 3]).map (fun s => s.2)
      = ["hel".toList, "lo wo".toList, "rld".toList] ∧
    (drainEnd (sampleClient 10 [] "hello world".toList) [3, 5, 3])._writeBuffer = [] :=
  ⟨by decide, by decide,
   ((drain_delivers_in_order (sampleClient 10 [] "hello world".toList) [3, 5, 3]
      (by decide)).2.2.2.2.2.2.2 (by decide)).2⟩

/-- C10: with non-empty pending output and a `send` that returns zero or a negative
value, `handleClientResponse` sets the closed flag, signals failure and changes nothing
else, the pending output included; with empty pending output it succeeds, issues no
`send` and changes no member. -/
theorem handleClientResponse_failed_or_idle {Config Request Response : Type}
    (c : Client Config Request Response) (bytesWritten : Int) :
    (c._writeBuffer ≠ [] → bytesWritten ≤ 0 →
      handleClientResponse c bytesWritten =
        { ret := false
          client := { c with _closed := true }
          trace := [Effect.send c._fd c._writeBuffer] } ∧
      (handleClientResponse c bytesWritten).client._writeBuffer = c._writeBuffer) ∧
    (c._writeBuffer = [] →
      handleClientResponse c bytesWritten = { ret := true, client := c, trace := [] }) := by
  constructor
  · intro hne hle
    have he : c._writeBuffer.isEmpty = false := by
      cases hw : c._writeBuffer with
      | nil => exact absurd hw hne
      | cons x xs => rfl
    have h : handleClientResponse c bytesWritten =
        { ret := false
          client := { c with _closed := true }
          trace := [Effect.send c._fd c._writeBuffer] } := by
      unfold handleClientResponse
      simp only [he, Bool.false_eq_true, if_false]
      rw [if_pos hle]
    rw [h]
    exact ⟨rfl, rfl⟩
  · intro hnil
    unfold handleClientResponse
    simp [hnil]

/-- A failed send on `abc`, and a writable event with nothing to send. -/
theorem handleClientResponse_failed_or_idle_witness :
    handleClientResponse (sampleClient 10 [] "abc".toList) (-1) =
      { ret := false
        client := { sampleClient 10 [] "abc".toList with _closed := true }
        trace := [Effect.send 4 "abc".toList] } ∧
    handleClientResponse (sampleClient 10 [] []) 7 =
      { ret := true, client := sampleClient 10 [] [], trace := [] } :=
  ⟨((handleClientResponse_failed_or_idle (sampleClient 10 [] "abc".toList) (-1)).1
      (by decide) (by decide)).1,
   (handleClientResponse_failed_or_idle (sampleClient 10 [] []) 7).2 rfl⟩


/-! ## Dispatch of the events of one descriptor -/

/-- C11: for a descriptor registered in the registry, `handleClientIO` reports "keep"
exactly when (read-ready is unset or `handleClientRequest` returned true) and
(write-ready is unset or `handleClientResponse`, run on the connection as the read step
left it, returned true) and hang-up is unset and error is unset; so a hang-up or error
bit gives "drop" whatever the read and write steps returned. -/
theorem handleClientIO_keep_iff {Config Request Response : Type}
    (K : Collaborators Config Request Response) (m : ClientManager Config Request Response)
    (fd : Int) (revents : Nat) (io : IoResult) (client : Client Config Request Response)
    (hreg : mapFind m._clients fd = some client) :
    ((ClientManager.handleClientIO K m fd revents io).ret = true ↔
      ((revents &&& POLLIN = 0 ∨
          (handleClientRequest K client io.bytesRead io.buffer).ret = true) ∧
        (revents &&& POLLOUT = 0 ∨
          (handleClientResponse
            (if revents &&& POLLIN ≠ 0 then
              (handleClientRequest K client io.bytesRead io.buffer).client
            else client) io.bytesWritten).ret = true) ∧
        revents &&& POLLHUP = 0 ∧ revents &&& POLLERR = 0)) ∧
    ((revents &&& POLLHUP ≠ 0 ∨ revents &&& POLLERR ≠ 0) →
      (ClientManager.handleClientIO K m fd revents io).ret = false) := by
  simp only [ClientManager.handleClientIO, hreg]
  by_cases h1 : revents &&& POLLIN = 0 <;> by_cases h2 : revents &&& POLLOUT = 0 <;>
    by_cases h3 : revents &&& POLLHUP = 0 <;> by_cases h4 : revents &&& POLLERR = 0 <;>
    (simp [h1, h2, h3, h4]; try exact and_comm)

/-- A connection with pending output `abc`: read-ready with a failed `recv` gives "drop";
write-ready with a successful `send` gives "keep"; the same with the hang-up bit gives
"drop". -/
theorem handleClientIO_keep_iff_witness :
    (ClientManager.handleClientIO sampleCollaborators
        (sampleManager [sampleClient 10 [] "abc".toList]) 4 POLLIN ⟨0, [], 3⟩).ret = false ∧
    (ClientManager.handleClientIO sampleCollaborators
        (sampleManager [sampleClient 10 [] "abc".toList]) 4 POLLOUT ⟨0, [], 3⟩).ret = true ∧
    (ClientManager.handleClientIO sampleCollaborators
        (sampleManager [sampleClient 10 [] "abc".toList]) 4 (POLLOUT + POLLHUP)
          ⟨0, [], 3⟩).ret = false :=
  ⟨by decide, by decide,
   (handleClientIO_keep_iff sampleCollaborators
      (sampleManager [sampleClient 10 [] "abc".toList]) 4 (POLLOUT + POLLHUP) ⟨0, [], 3⟩
      (sampleClient 10 [] "abc".toList) rfl).2 (Or.inl (by decide))⟩


/-! ## The closed flag, the response buffer and the parsed bytes -/

theorem mapFind_mapSet_self {V : Type} (m : List (Int × V)) (k : Int) (v : V) :
    mapFind (mapSet m k v) k = some v := by
  induction m with
  | nil => simp [mapSet, mapFind]
  | cons p rest ih =>
    obtain ⟨k1, v1⟩ := p
    simp only [mapSet]
    by_cases h1 : k < k1
    · simp [h1, mapFind]
    · by_cases h2 : k = k1
      · simp [h2, mapFind]
      · have h3 : ¬ k1 = k := fun e => h2 e.symm
        simp [h1, h2, h3, mapFind, ih]

theorem handleClientRequest_closed {Config Request Response : Type}
    (K : Collaborators Config Request Response) (c : Client Config Request Response)
    (bytesRead : Int) (buffer : Bytes)
    (h : (handleClientRequest K c bytesRead buffer).client._closed = true) :
    c._closed = true ∨ (handleClientRequest K c bytesRead buffer).ret = false := by
  unfold handleClientRequest at h ⊢
  simp only [] at h ⊢
  split_ifs at h ⊢
  · exact Or.inl h
  · exact Or.inr rfl
  · exact Or.inl h
  · exact Or.inl h

theorem handleClientResponse_closed {Config Request Response : Type}
    (c : Client Config Request Response) (bytesWritten : Int)
    (h : (handleClientResponse c bytesWritten).client._closed = true) :
    c._closed = true ∨ (handleClientResponse c bytesWritten).ret = false := by
  unfold handleClientResponse at h ⊢
  split_ifs at h ⊢
  · exact Or.inl h
  · exact Or.inr rfl
  · exact Or.inl h

theorem handleClientResponse_trace {Config Request Response : Type}
    (c : Client Config Request Response) (bytesWritten : Int) :
    (handleClientResponse c bytesWritten).trace = [] ∨
      (handleClientResponse c bytesWritten).trace = [Effect.send c._fd c._writeBuffer] := by
  unfold handleClientResponse
  split_ifs
  · exact Or.inl rfl
  · exact Or.inr rfl
  · exact Or.inr rfl

/-- C15, as stated, fails: one dispatch with read-ready and write-ready on a connection
with pending output `abc`, whose `recv` returns 0, sets the closed flag in the read step
and then still issues `send` on the same descriptor. -/
theorem handleClientIO_send_after_close_counterexample :
    (sampleClient 10 [] "abc".toList)._closed = false ∧
    (handleClientRequest sampleCollaborators (sampleClient 10 [] "abc".toList) 0
      []).client._closed = true ∧
    (ClientManager.handleClientIO sampleCollaborators
        (sampleManager [sampleClient 10 [] "abc".toList]) 4 (POLLIN + POLLOUT)
          ⟨0, [], 3⟩).trace
      = [Sys.client 4 (Effect.recv 4 8192), Sys.client 4 (Effect.send 4 "abc".toList)] := by
  decide

/-- C15 (amended): in one dispatch on a registered connection whose closed flag is unset
on entry, the calls issued are those of the read step, all made while the flag is still
unset on entry to that step, followed by at most one `send` (that of the write-ready
step, issued whether or not the read step has just set the flag); and if the flag is set
when the dispatch returns, the dispatch reports "drop". -/
theorem handleClientIO_closed_reports_drop {Config Request Response : Type}
    (K : Collaborators Config Request Response) (m : ClientManager Config Request Response)
    (fd : Int) (revents : Nat) (io : IoResult) (client : Client Config Request Response)
    (hreg : mapFind m._clients fd = some client) (hopen : client._closed = false) :
    (∀ c1, mapFind (ClientManager.handleClientIO K m fd revents io).state._clients fd = some c1 →
      c1._closed = true → (ClientManager.handleClientIO K m fd revents io).ret = false) ∧
    (∃ tw, (ClientManager.handleClientIO K m fd revents io).trace
        = ((if revents &&& POLLIN ≠ 0 then
              (handleClientRequest K client io.bytesRead io.buffer).trace else []) ++ tw).map
            (Sys.client fd) ∧
      (tw = [] ∨ ∃ fd1 data, tw = [Effect.send fd1 data])) := by
  simp only [ClientManager.handleClientIO, hreg]
  constructor
  · intro c1 hc1 hcl
    rw [mapFind_mapSet_self] at hc1
    cases hc1
    by_cases h1 : revents &&& POLLIN = 0 <;> by_cases h2 : revents &&& POLLOUT = 0
    · simp [h1, h2] at hcl; rw [hopen] at hcl; cases hcl
    · simp only [h1, h2, ne_eq, not_true_eq_false, not_false_eq_true, if_false, if_true] at hcl
      rcases handleClientResponse_closed _ _ hcl with h | h
      · rw [hopen] at h; cases h
      · simp [h1, h2, h]
    · simp only [h1, h2, ne_eq, not_true_eq_false, not_false_eq_true, if_false, if_true] at hcl
      rcases handleClientRequest_closed _ _ _ _ hcl with h | h
      · rw [hopen] at h; cases h
      · simp [h1, h2, h]
    · simp only [h1, h2, ne_eq, not_true_eq_false, not_false_eq_true, if_false, if_true] at hcl
      rcases handleClientResponse_closed _ _ hcl with h | h
      · rcases handleClientRequest_closed _ _ _ _ h with h | h
        · rw [hopen] at h; cases h
        · simp [h1, h2, h]
      · simp [h1, h2, h]
  · by_cases h1 : revents &&& POLLIN = 0 <;> by_cases h2 : revents &&& POLLOUT = 0
    · exact ⟨[], by simp [h1, h2], Or.inl rfl⟩
    · refine ⟨(handleClientResponse client io.bytesWritten).trace, by simp [h1, h2], ?_⟩
      rcases handleClientResponse_trace client io.bytesWritten with h | h
      · exact Or.inl h
      · exact Or.inr ⟨_, _, h⟩
    · exact ⟨[], by simp [h1, h2], Or.inl rfl⟩
    · refine ⟨(handleClientResponse (handleClientRequest K client io.bytesRead io.buffer).client
        io.bytesWritten).trace, by simp [h1, h2], ?_⟩
      rcases handleClientResponse_trace
        (handleClientRequest K client io.bytesRead io.buffer).client io.bytesWritten with h | h
      · exact Or.inl h
      · exact Or.inr ⟨_, _, h⟩

/-- A dispatch whose `recv` fails sets the flag and reports "drop". -/
theorem handleClientIO_closed_reports_drop_witness :
    (ClientManager.handleClientIO sampleCollaborators
        (sampleManager [sampleClient 10 [] "abc".toList]) 4 (POLLIN + POLLOUT)
          ⟨0, [], 3⟩).ret = false :=
  (handleClientIO_closed_reports_drop sampleCollaborators
    (sampleManager [sampleClient 10 [] "abc".toList]) 4 (POLLIN + POLLOUT) ⟨0, [], 3⟩
    (sampleClient 10 [] "abc".toList) rfl rfl).1 _ rfl rfl

/-- C16, as stated, fails: a connection holding the unsent output `old` loses it on both
paths. With pending input `Content-Length:20\r\n\r\n` and maximum 10 the pending output
becomes `413!`; with empty pending input and a receive of `A\r\n\r\n` it becomes the
handler's `200:A\r\n\r\n`. In neither case is `old` an initial segment of the result. -/
theorem handleClientRequest_replaces_output_counterexample :
    (handleClientRequest sampleCollaborators
        (sampleClient 10 "Content-Length:20\r\n\r\n".toList "old".toList) 1
          "x".toList).client._writeBuffer = "413!".toList ∧
    ¬ ("old".toList <+: "413!".toList) ∧
    (handleClientRequest sampleCollaborators (sampleClient 10 [] "old".toList) 5
        "A\r\n\r\n".toList).client._writeBuffer = "200:A\r\n\r\n".toList ∧
    ¬ ("old".toList <+: "200:A\r\n\r\n".toList) := by
  decide

/-- C16 (amended): a `handleClientRequest` call that builds a response (the 413 path and
the complete-request path alike) assigns it to the pending output, so that afterwards
the pending output is exactly the new serialized response and what was pending before
is gone; a call that builds no response leaves the pending output as it was. Hence the
pending output before the call is an initial segment of the one after it whenever it
was empty or no response was built. -/
theorem handleClientRequest_assigns_output {Config Request Response : Type}
    (K : Collaborators Config Request Response) (c : Client Config Request Response)
    (bytesRead : Int) (buffer : Bytes) :
    ((handleClientRequest K c bytesRead buffer).client._writeBuffer
        = K.toString (K.buildResponse c._config K.emptyResponse 413) ∧
      (handleClientRequest K c bytesRead buffer).trace = [Effect.buildStatus 413]
    ∨ (handleClientRequest K c bytesRead buffer).client._writeBuffer
        = K.toString
            (K.handle (K.newRequest (c._readBuffer ++ buffer.take bytesRead.toNat)) c._config) ∧
      Effect.handle (c._readBuffer ++ buffer.take bytesRead.toNat)
        ∈ (handleClientRequest K c bytesRead buffer).trace
    ∨ (handleClientRequest K c bytesRead buffer).client._writeBuffer = c._writeBuffer ∧
      (handleClientRequest K c bytesRead buffer).trace = [Effect.recv c._fd 8192]) ∧
    (c._writeBuffer = [] →
      c._writeBuffer <+: (handleClientRequest K c bytesRead buffer).client._writeBuffer) ∧
    ((handleClientRequest K c bytesRead buffer).trace = [Effect.recv c._fd 8192] →
      c._writeBuffer <+: (handleClientRequest K c bytesRead buffer).client._writeBuffer) := by
  refine ⟨?_, ?_, ?_⟩
  · unfold handleClientRequest
    simp only []
    split_ifs
    · exact Or.inl ⟨rfl, rfl⟩
    · exact Or.inr (Or.inr ⟨rfl, rfl⟩)
    · exact Or.inr (Or.inl ⟨rfl, by simp⟩)
    · exact Or.inr (Or.inr ⟨rfl, rfl⟩)
  · intro h
    rw [h]
    exact ⟨_, rfl⟩
  · unfold handleClientRequest
    simp only []
    split_ifs
    · intro h; simp at h
    · intro _; exact ⟨[], by simp⟩
    · intro h; simp at h
    · intro _; exact ⟨[], by simp⟩

/-- C17, as stated, fails: on empty pending input one receive of `A\r\n\r\nB\r\n\r\n` hands
all 10 bytes to the parser, although the header terminator is at 1 and the declared
length is 0 (a frame of 5 bytes), and pending input is empty afterwards: the bytes of the
second request are parsed with the first and not kept. -/
theorem handleClientRequest_parses_whole_buffer_counterexample :
    (handleClientRequest sampleCollaborators (sampleClient 10 [] []) 10
        "A\r\n\r\nB\r\n\r\n".toList).trace
      = [Effect.recv 4 8192, Effect.parse "A\r\n\r\nB\r\n\r\n".toList,
         Effect.handle "A\r\n\r\nB\r\n\r\n".toList, Effect.release] ∧
    find "A\r\n\r\nB\r\n\r\n".toList headerTerminator 0 = some 1 ∧
    _getContentLength "A\r\n\r\nB\r\n\r\n".toList = 0 ∧
    "A\r\n\r\nB\r\n\r\n".toList.length ≠ 1 + 4 + 0 ∧
    (handleClientRequest sampleCollaborators (sampleClient 10 [] []) 10
        "A\r\n\r\nB\r\n\r\n".toList).client._readBuffer = [] := by
  decide

/-- C17 (amended): whenever `handleClientRequest` hands bytes to the request parser, they
are the whole buffered input (what was pending followed by what was just received);
that input holds a header terminator at some position `p` and its length is at least
`p + 4 +` its declared length (modulo `2 ^ 64`), not necessarily equal to it; and pending
input is empty afterwards, so bytes received beyond the first frame go to the parser with
it and are not kept for a following request. -/
theorem handleClientRequest_parses_whole_buffer {Config Request Response : Type}
    (K : Collaborators Config Request Response) (c : Client Config Request Response)
    (bytesRead : Int) (buffer raw : Bytes)
    (hparse : Effect.parse raw ∈ (handleClientRequest K c bytesRead buffer).trace) :
    raw = c._readBuffer ++ buffer.take bytesRead.toNat ∧
    (∃ p, find raw headerTerminator 0 = some p ∧
      raw.length ≥ (p + 4 + _getContentLength raw) % 2 ^ 64) ∧
    (handleClientRequest K c bytesRead buffer).client._readBuffer = [] := by
  unfold handleClientRequest at hparse ⊢
  simp only [] at hparse ⊢
  split_ifs at hparse ⊢ with h1 h2 h3
  · simp at hparse
  · simp at hparse
  · simp only [List.mem_cons, Effect.parse.injEq, List.mem_singleton, reduceCtorEq,
      or_false, false_or, List.not_mem_nil] at hparse
    subst hparse
    refine ⟨rfl, ?_, rfl⟩
    unfold _hasCompleteRequest at h3
    cases hf : find (c._readBuffer ++ buffer.take bytesRead.toNat) headerTerminator 0 with
    | none => rw [hf] at h3; simp at h3
    | some p =>
      rw [hf] at h3
      simp only [ge_iff_le, decide_eq_true_eq] at h3
      exact ⟨p, rfl, h3⟩
  · simp at hparse

/-- A request received whole on empty pending input is what the parser gets. -/
theorem handleClientRequest_parses_whole_buffer_witness :
    "A\r\n\r\n".toList = (sampleClient 10 [] [])._readBuffer ++ "A\r\n\r\n".toList.take 5 ∧
    (handleClientRequest sampleCollaborators (sampleClient 10 [] []) 5
        "A\r\n\r\n".toList).client._readBuffer = [] :=
  ⟨(handleClientRequest_parses_whole_buffer sampleCollaborators (sampleClient 10 [] []) 5
      "A\r\n\r\n".toList "A\r\n\r\n".toList (by decide)).1,
   (handleClientRequest_parses_whole_buffer sampleCollaborators (sampleClient 10 [] []) 5
      "A\r\n\r\n".toList "A\r\n\r\n".toList (by decide)).2.2⟩

theorem closeClient_trace_after {Config Request Response : Type}
    (c : Client Config Request Response) :
    (closeClient (closeClient c).client).trace = [] ∧
    (closeClient (closeClient c).client).client = (closeClient c).client := by
  unfold closeClient
  by_cases h : c._fd > 0
  · simp [h]
  · simp [h]

theorem closeTimes_closed {Config Request Response : Type} :
    ∀ (n : Nat) (c : Client Config Request Response), (closeClient c).trace = [] →
      (closeClient c).client = c → closeTimes c n = (c, []) := by
  intro n
  induction n with
  | zero => intro c _ _; rfl
  | succ n ih =>
    intro c h1 h2
    simp only [closeTimes, h1, h2, List.nil_append]
    rw [ih c h1 h2]

/-- C18: `closeClient` is idempotent: a second call leaves the state the first call left
and issues nothing; the closed flag is set after a call; and over any number `n` of calls
the calls issued are one `close` of the connection's descriptor when `n > 0` and the
descriptor is positive, and none otherwise, so `close` is issued at most once. -/
theorem closeClient_idempotent {Config Request Response : Type}
    (c : Client Config Request Response) :
    (closeClient (closeClient c).client).client = (closeClient c).client ∧
    (closeClient (closeClient c).client).trace = [] ∧
    (closeClient c).client._closed = true ∧
    (∀ n, (closeTimes c n).2 = (if 0 < n ∧ c._fd > 0 then [Effect.close c._fd] else [])) ∧
    (∀ n, (closeTimes c n).2.length ≤ 1) ∧
    (∀ n, (closeTimes c (n + 1)).1 = (closeClient c).client) := by
  have hafter := closeClient_trace_after c
  have hn : ∀ n, closeTimes c (n + 1) = ((closeClient c).client, (closeClient c).trace) := by
    intro n
    simp only [closeTimes]
    rw [closeTimes_closed n _ hafter.1 hafter.2]
    simp
  have htr : (closeClient c).trace = (if c._fd > 0 then [Effect.close c._fd] else []) := by
    unfold closeClient
    by_cases h : c._fd > 0
    · simp [h]
    · simp [h]
  have hall : ∀ n, (closeTimes c n).2
      = (if 0 < n ∧ c._fd > 0 then [Effect.close c._fd] else []) := by
    intro n
    cases n with
    | zero => simp [closeTimes]
    | succ n =>
      rw [hn n]
      simp only [htr, Nat.succ_pos, true_and]
  refine ⟨hafter.2, hafter.1, ?_, hall, ?_, ?_⟩
  · unfold closeClient
    by_cases h : c._fd > 0
    · simp [h]
    · simp [h]
  · intro n
    rw [hall n]
    split_ifs <;> simp
  · intro n
    rw [hn n]

/-! ## Setup of a listener -/

theorem setupSocketForListen_ok {Config Request Response : Type}
    (srv : Server Config Request Response) (l : ListenConfig) (o : SocketOutcome)
    (h : entryOk (l, o) = true) :
    (Server.setupSocketForListen srv l.ip l.port o).ret = true ∧
    (Server.setupSocketForListen srv l.ip l.port o).state
      = { srv with serverFds := srv.serverFds ++ [o.socket] } ∧
    ∀ fd, Sys.close fd ∉ (Server.setupSocketForListen srv l.ip l.port o).trace := by
  simp only [entryOk, Bool.and_eq_true, Bool.or_eq_true, decide_eq_true_eq] at h
  obtain ⟨⟨⟨⟨⟨⟨h1, h2⟩, h3⟩, h4⟩, h5⟩, h6⟩, h7⟩ := h
  have n1 : ¬ o.socket < 0 := by omega
  have n2 : ¬ o.setsockopt < 0 := by omega
  have n4 : ¬ o.bind < 0 := by omega
  have n5 : ¬ o.getfl < 0 := by omega
  have n6 : ¬ o.setfl < 0 := by omega
  have n7 : ¬ o.listen < 0 := by omega
  by_cases hip : l.ip = "0.0.0.0"
  · simp [Server.setupSocketForListen, Server.createSocket, Server.setSocketOptions,
      Server.bindSocket, Server.makeSocketNonBlocking, Server.startListening,
      n1, n2, n4, n5, n6, n7, hip]
  · have n3 : ¬ o.inetPton ≤ 0 := by
      rcases h3 with h3 | h3
      · exact absurd h3 hip
      · omega
    simp [Server.setupSocketForListen, Server.createSocket, Server.setSocketOptions,
      Server.bindSocket, Server.makeSocketNonBlocking, Server.startListening,
      n1, n2, n3, n4, n5, n6, n7, hip]

theorem setupSocketForListen_fail {Config Request Response : Type}
    (srv : Server Config Request Response) (l : ListenConfig) (o : SocketOutcome)
    (h : entryOk (l, o) = false) :
    (Server.setupSocketForListen srv l.ip l.port o).ret = false ∧
    (Server.setupSocketForListen srv l.ip l.port o).state = srv ∧
    ∀ fd, Sys.close fd ∈ (Server.setupSocketForListen srv l.ip l.port o).trace →
      fd = o.socket := by
  simp only [Server.setupSocketForListen, Server.createSocket, Server.setSocketOptions,
    Server.bindSocket, Server.makeSocketNonBlocking, Server.startListening]
  by_cases c1 : o.socket < 0
  · simp [c1]
  by_cases c2 : o.setsockopt < 0
  · simp [c1, c2]
  by_cases hip : l.ip = "0.0.0.0"
  · by_cases c4 : o.bind < 0
    · simp [c1, c2, hip, c4]
    by_cases c5 : o.getfl < 0
    · simp [c1, c2, hip, c4, c5]
    by_cases c6 : o.setfl < 0
    · simp [c1, c2, hip, c4, c5, c6]
    by_cases c7 : o.listen < 0
    · simp [c1, c2, hip, c4, c5, c6, c7]
    · exfalso
      have : entryOk (l, o) = true := by
        simp only [entryOk, Bool.and_eq_true, Bool.or_eq_true, decide_eq_true_eq]
        refine ⟨⟨⟨⟨⟨⟨?_, ?_⟩, Or.inl hip⟩, ?_⟩, ?_⟩, ?_⟩, ?_⟩ <;> omega
      rw [h] at this; cases this
  · by_cases c3 : o.inetPton ≤ 0
    · simp [c1, c2, hip, c3]
    by_cases c4 : o.bind < 0
    · simp [c1, c2, hip, c3, c4]
    by_cases c5 : o.getfl < 0
    · simp [c1, c2, hip, c3, c4, c5]
    by_cases c6 : o.setfl < 0
    · simp [c1, c2, hip, c3, c4, c5, c6]
    by_cases c7 : o.listen < 0
    · simp [c1, c2, hip, c3, c4, c5, c6, c7]
    · exfalso
      have : entryOk (l, o) = true := by
        simp only [entryOk, Bool.and_eq_true, Bool.or_eq_true, decide_eq_true_eq]
        refine ⟨⟨⟨⟨⟨⟨?_, ?_⟩, Or.inr ?_⟩, ?_⟩, ?_⟩, ?_⟩, ?_⟩ <;> omega
      rw [h] at this; cases this

theorem setupLoop_success {Config Request Response : Type} :
    ∀ (listens : List (ListenConfig × SocketOutcome)) (srv : Server Config Request Response),
      (∀ e ∈ listens, entryOk e = true) →
      (Server.setupLoop srv listens).ret = true ∧
      (Server.setupLoop srv listens).state
        = { srv with serverFds := srv.serverFds ++ listens.map (fun e => e.2.socket) } ∧
      ∀ fd, Sys.close fd ∉ (Server.setupLoop srv listens).trace := by
  intro listens
  induction listens with
  | nil => intro srv _; simp [Server.setupLoop]
  | cons e rest ih =>
    intro srv h
    obtain ⟨l, o⟩ := e
    obtain ⟨a1, a2, a3⟩ := setupSocketForListen_ok srv l o (h _ (List.mem_cons_self _ _))
    obtain ⟨b1, b2, b3⟩ := ih (Server.setupSocketForListen srv l.ip l.port o).state
      (fun e he => h e (List.mem_cons_of_mem _ he))
    simp only [Server.setupLoop, a1, Bool.not_true, Bool.false_eq_true, if_false]
    refine ⟨b1, ?_, ?_⟩
    · rw [b2, a2]; simp
    · intro fd hfd
      rcases List.mem_append.mp hfd with h1 | h1
      · exact a3 fd h1
      · exact b3 fd h1

theorem setupLoop_failure {Config Request Response : Type} :
    ∀ (good : List (ListenConfig × SocketOutcome)) (srv : Server Config Request Response)
      (bad : ListenConfig × SocketOutcome) (rest : List (ListenConfig × SocketOutcome)),
      (∀ e ∈ good, entryOk e = true) → entryOk bad = false →
      (Server.setupLoop srv (good ++ bad :: rest)).ret = false ∧
      (Server.setupLoop srv (good ++ bad :: rest)).state
        = { srv with serverFds := srv.serverFds ++ good.map (fun e => e.2.socket) } ∧
      ∀ fd, Sys.close fd ∈ (Server.setupLoop srv (good ++ bad :: rest)).trace →
        fd = bad.2.socket := by
  intro good
  induction good with
  | nil =>
    intro srv bad rest _ hb
    obtain ⟨l, o⟩ := bad
    obtain ⟨a1, a2, a3⟩ := setupSocketForListen_fail srv l o hb
    simp only [List.nil_append, Server.setupLoop, a1, Bool.not_false, if_true, a2,
      List.map_nil, List.append_nil]
    exact ⟨trivial, trivial, a3⟩
  | cons e good ih =>
    intro srv bad rest hg hb
    obtain ⟨l, o⟩ := e
    obtain ⟨a1, a2, a3⟩ := setupSocketForListen_ok srv l o (hg _ (List.mem_cons_self _ _))
    obtain ⟨b1, b2, b3⟩ := ih (Server.setupSocketForListen srv l.ip l.port o).state bad rest
      (fun e he => hg e (List.mem_cons_of_mem _ he)) hb
    have e : (l, o) :: good ++ bad :: rest = (l, o) :: (good ++ bad :: rest) := rfl
    rw [e]
    simp only [Server.setupLoop, a1, Bool.not_true, Bool.false_eq_true, if_false]
    refine ⟨b1, ?_, ?_⟩
    · rw [b2, a2]; simp
    · intro fd hfd
      rcases List.mem_append.mp hfd with h1 | h1
      · exact absurd h1 (a3 fd)
      · exact b3 fd h1

/-- C19, as stated, fails in its last part: with a first entry whose socket 3 is set up
and a second entry whose `bind` fails, `setup` returns false while descriptor 3 is still
in the listener's socket set and has not been closed (the only `close` is that of the
failed socket 5). -/
theorem setup_failure_keeps_earlier_sockets_counterexample :
    (Server.setup (sampleServer 10 [] [])
        [(⟨"0.0.0.0", 8080⟩, goodSocket 3),
         (⟨"127.0.0.1", 8081⟩, { goodSocket 5 with bind := -1 })]).ret = false ∧
    (Server.setup (sampleServer 10 [] [])
        [(⟨"0.0.0.0", 8080⟩, goodSocket 3),
         (⟨"127.0.0.1", 8081⟩, { goodSocket 5 with bind := -1 })]).state.serverFds = [3] ∧
    (Server.setup (sampleServer 10 [] [])
        [(⟨"0.0.0.0", 8080⟩, goodSocket 3),
         (⟨"127.0.0.1", 8081⟩, { goodSocket 5 with bind := -1 })]).trace
      = [Sys.socket, Sys.setsockopt 3, Sys.bind 3 "0.0.0.0" 8080, Sys.fcntlGet 3,
         Sys.fcntlSet 3, Sys.listen 3,
         Sys.socket, Sys.setsockopt 5, Sys.inetPton "127.0.0.1",
         Sys.bind 5 "127.0.0.1" 8081, Sys.close 5] := by
  decide

/-- C19 (amended): `setup` reports success exactly when there is at least one listen entry
and every step succeeds for every entry, and then the socket set has gained the socket of
every entry, in order; with zero listen entries it reports failure without issuing any
call; and when it reports failure because a step failed on the entry `bad` after the
entries `good` succeeded, the sockets of `good` are still in the socket set and have not
been closed when `setup` returns (the only descriptor closed is the one of `bad`): they
are closed by `Server::cleanup`, which the destructor of the listener runs, and which
closes every non-negative descriptor of the socket set and empties it. -/
theorem setup_all_or_nothing {Config Request Response : Type}
    (srv : Server Config Request Response) (listens : List (ListenConfig × SocketOutcome)) :
    ((Server.setup srv listens).ret = true ↔
      listens ≠ [] ∧ ∀ e ∈ listens, entryOk e = true) ∧
    ((Server.setup srv listens).ret = true →
      (Server.setup srv listens).state.serverFds
        = srv.serverFds ++ listens.map (fun e => e.2.socket)) ∧
    (listens = [] →
      (Server.setup srv listens).ret = false ∧ (Server.setup srv listens).trace = [] ∧
      (Server.setup srv listens).state = srv) ∧
    (∀ good bad rest, listens = good ++ bad :: rest →
      (∀ e ∈ good, entryOk e = true) → entryOk bad = false →
      (Server.setup srv listens).ret = false ∧
      (Server.setup srv listens).state.serverFds
        = srv.serverFds ++ good.map (fun e => e.2.socket) ∧
      (∀ fd, Sys.close fd ∈ (Server.setup srv listens).trace → fd = bad.2.socket) ∧
      (Server.cleanup (Server.setup srv listens).state).state.serverFds = [] ∧
      (Server.cleanup (Server.setup srv listens).state).trace
        = ((srv.serverFds ++ good.map (fun e => e.2.socket)).filter
              (fun fd => decide (fd ≥ 0))).map Sys.close
            ++ (srv._clientManager.cleanup).trace) := by
  have hfail : ∀ good bad rest, listens = good ++ bad :: rest →
      (∀ e ∈ good, entryOk e = true) → entryOk bad = false →
      (Server.setup srv listens).ret = false ∧
      (Server.setup srv listens).state
        = { srv with serverFds := srv.serverFds ++ good.map (fun e => e.2.socket) } ∧
      (∀ fd, Sys.close fd ∈ (Server.setup srv listens).trace → fd = bad.2.socket) := by
    intro good bad rest hl hg hb
    subst hl
    have hne : (good ++ bad :: rest).isEmpty = false := by
      cases good <;> rfl
    simp only [Server.setup, hne, Bool.false_eq_true, if_false]
    exact setupLoop_failure good srv bad rest hg hb
  have hsucc : listens ≠ [] → (∀ e ∈ listens, entryOk e = true) →
      (Server.setup srv listens).ret = true ∧
      (Server.setup srv listens).state
        = { srv with serverFds := srv.serverFds ++ listens.map (fun e => e.2.socket) } := by
    intro hne hall
    have hne2 : listens.isEmpty = false := by
      cases listens with
      | nil => exact absurd rfl hne
      | cons _ _ => rfl
    simp only [Server.setup, hne2, Bool.false_eq_true, if_false]
    exact ⟨(setupLoop_success listens srv hall).1, (setupLoop_success listens srv hall).2.1⟩
  have hsplit : (∀ e ∈ listens, entryOk e = true) ∨
      ∃ good bad rest, listens = good ++ bad :: rest ∧
        (∀ e ∈ good, entryOk e = true) ∧ entryOk bad = false := by
    clear hfail hsucc
    induction listens with
    | nil => exact Or.inl (fun e he => absurd he (List.not_mem_nil e))
    | cons e rest ih =>
      by_cases he : entryOk e = true
      · rcases ih with h | ⟨g, b, r, h1, h2, h3⟩
        · left
          intro x hx
          rcases List.mem_cons.mp hx with hx | hx
          · rw [hx]; exact he
          · exact h x hx
        · right
          refine ⟨e :: g, b, r, by rw [h1]; rfl, ?_, h3⟩
          intro x hx
          rcases List.mem_cons.mp hx with hx | hx
          · rw [hx]; exact he
          · exact h2 x hx
      · right
        exact ⟨[], e, rest, rfl, fun x hx => absurd hx (List.not_mem_nil x),
          by simpa using he⟩
  refine ⟨?_, ?_, ?_, ?_⟩
  · constructor
    · intro hret
      constructor
      · intro hnil
        subst hnil
        simp [Server.setup] at hret
      · rcases hsplit with h | ⟨g, b, r, h1, h2, h3⟩
        · exact h
        · have := (hfail g b r h1 h2 h3).1
          rw [hret] at this; cases this
    · rintro ⟨hne, hall⟩
      exact (hsucc hne hall).1
  · intro hret
    have hne : listens ≠ [] := by
      intro hnil
      subst hnil
      simp [Server.setup] at hret
    rcases hsplit with h | ⟨g, b, r, h1, h2, h3⟩
    · rw [(hsucc hne h).2]
    · have := (hfail g b r h1 h2 h3).1
      rw [hret] at this; cases this
  · intro hnil
    subst hnil
    simp [Server.setup]
  · intro good bad rest hl hg hb
    obtain ⟨f1, f2, f3⟩ := hfail good bad rest hl hg hb
    refine ⟨f1, by rw [f2], f3, rfl, ?_⟩
    rw [f2]
    rfl

/-- A listener with two entries whose second `bind` fails: `setup` reports failure with
socket 3 still in the set, and the cleanup that follows closes it. -/
theorem setup_all_or_nothing_witness :
    (Server.setup (sampleServer 10 [] [])
        [(⟨"0.0.0.0", 8080⟩, goodSocket 3),
         (⟨"127.0.0.1", 8081⟩, { goodSocket 5 with bind := -1 })]).state.serverFds = [] ++ [3] ∧
    (Server.cleanup (Server.setup (sampleServer 10 [] [])
        [(⟨"0.0.0.0", 8080⟩, goodSocket 3),
         (⟨"127.0.0.1", 8081⟩, { goodSocket 5 with bind := -1 })]).state).trace
      = [Sys.close 3] :=
  ⟨((setup_all_or_nothing (sampleServer 10 [] [])
      [(⟨"0.0.0.0", 8080⟩, goodSocket 3),
       (⟨"127.0.0.1", 8081⟩, { goodSocket 5 with bind := -1 })]).2.2.2
      [(⟨"0.0.0.0", 8080⟩, goodSocket 3)]
      (⟨"127.0.0.1", 8081⟩, { goodSocket 5 with bind := -1 }) [] rfl
      (by decide) (by decide)).2.1,
   ((setup_all_or_nothing (sampleServer 10 [] [])
      [(⟨"0.0.0.0", 8080⟩, goodSocket 3),
       (⟨"127.0.0.1", 8081⟩, { goodSocket 5 with bind := -1 })]).2.2.2
      [(⟨"0.0.0.0", 8080⟩, goodSocket 3)]
      (⟨"127.0.0.1", 8081⟩, { goodSocket 5 with bind := -1 }) [] rfl
      (by decide) (by decide)).2.2.2.2⟩

/-! ## The interest list and its indexes -/

theorem mapFind_mapSet {V : Type} (m : List (Int × V)) (k : Int) (v : V) (k2 : Int) :
    mapFind (mapSet m k v) k2 = if k2 = k then some v else mapFind m k2 := by
  induction m with
  | nil =>
    by_cases h : k2 = k
    · simp [mapSet, mapFind, h]
    · have h2 : ¬ k = k2 := fun e => h e.symm
      simp [mapSet, mapFind, h, h2]
  | cons p rest ih =>
    obtain ⟨k1, v1⟩ := p
    simp only [mapSet]
    by_cases h1 : k < k1
    · by_cases h : k2 = k
      · simp [h1, mapFind, h]
      · have h2 : ¬ k = k2 := fun e => h e.symm
        simp [h1, mapFind, h, h2]
    · by_cases h2 : k = k1
      · subst h2
        by_cases h : k2 = k
        · simp [mapFind, h]
        · have h3 : ¬ k = k2 := fun e => h e.symm
          simp [mapFind, h, h3]
      · simp only [h1, h2, if_false, mapFind, ih]
        by_cases h : k2 = k
        · have h3 : ¬ k1 = k := fun e => h2 e.symm
          subst h
          simp [h3]
        · simp [h]

theorem mem_setInsert (s : List Int) (x a : Int) :
    a ∈ setInsert s x ↔ a = x ∨ a ∈ s := by
  induction s with
  | nil => simp [setInsert]
  | cons y rest ih =>
    simp only [setInsert]
    by_cases h1 : x < y
    · simp [h1]
    · by_cases h2 : x = y
      · subst h2; simp
      · simp only [h1, h2, if_false, List.mem_cons, ih]
        tauto

theorem initInner_spec {Config Request Response : Type} (i : Nat) :
    ∀ (fds : List Int) (w : WebServer Config Request Response),
      (WebServer.initInner i fds w).pollFds
          = w.pollFds ++ fds.map (fun fd => { fd := fd, events := POLLIN, revents := 0 }) ∧
      (WebServer.initInner i fds w).servers = w.servers ∧
      (∀ a, a ∈ (WebServer.initInner i fds w).serverFdsSet ↔ a ∈ w.serverFdsSet ∨ a ∈ fds) ∧
      (∀ a, mapFind (WebServer.initInner i fds w).fdToServerIndex a
          = if a ∈ fds then some i else mapFind w.fdToServerIndex a) := by
  intro fds
  induction fds with
  | nil => intro w; simp [WebServer.initInner]
  | cons fd rest ih =>
    intro w
    obtain ⟨h1, h2, h3, h4⟩ := ih
      { w with
        pollFds := w.pollFds ++ [{ fd := fd, events := POLLIN, revents := 0 }]
        fdToServerIndex := mapSet w.fdToServerIndex fd i
        serverFdsSet := setInsert w.serverFdsSet fd }
    simp only [WebServer.initInner]
    refine ⟨by rw [h1]; simp, h2, ?_, ?_⟩
    · intro a
      rw [h3 a]
      simp only [mem_setInsert, List.mem_cons]
      tauto
    · intro a
      rw [h4 a]
      simp only [mapFind_mapSet, List.mem_cons]
      by_cases ha : a ∈ rest
      · simp [ha]
      · by_cases hb : a = fd
        · simp [hb]
        · simp [ha, hb]

theorem initOuter_spec {Config Request Response : Type} :
    ∀ (ss : List (Server Config Request Response)) (i : Nat)
      (w : WebServer Config Request Response),
      (WebServer.initOuter i ss w).pollFds
          = w.pollFds ++ ((ss.map (fun s => s.serverFds)).flatten).map
              (fun fd => { fd := fd, events := POLLIN, revents := 0 }) ∧
      (WebServer.initOuter i ss w).servers = w.servers ∧
      (∀ a, a ∈ (WebServer.initOuter i ss w).serverFdsSet ↔
          a ∈ w.serverFdsSet ∨ a ∈ (ss.map (fun s => s.serverFds)).flatten) ∧
      (∀ a, a ∉ (ss.map (fun s => s.serverFds)).flatten →
          mapFind (WebServer.initOuter i ss w).fdToServerIndex a
            = mapFind w.fdToServerIndex a) ∧
      (((ss.map (fun s => s.serverFds)).flatten).Nodup →
        ∀ j s, ss[j]? = some s → ∀ a ∈ s.serverFds,
          mapFind (WebServer.initOuter i ss w).fdToServerIndex a = some (i + j)) := by
  intro ss
  induction ss with
  | nil => intro i w; simp [WebServer.initOuter]
  | cons s rest ih =>
    intro i w
    obtain ⟨a1, a2, a3, a4⟩ := initInner_spec i s.serverFds w
    obtain ⟨b1, b2, b3, b4, b5⟩ := ih (i + 1) (WebServer.initInner i s.serverFds w)
    simp only [WebServer.initOuter, List.map_cons, List.flatten_cons]
    refine ⟨by rw [b1, a1]; simp, by rw [b2, a2], ?_, ?_, ?_⟩
    · intro a
      rw [b3 a, a3 a]
      simp only [List.mem_append]
      tauto
    · intro a ha
      simp only [List.mem_append, not_or] at ha
      rw [b4 a ha.2, a4 a, if_neg ha.1]
    · intro hnd j s1 hj a ha
      rw [List.nodup_append] at hnd
      obtain ⟨-, hnd2, hdis⟩ := hnd
      cases j with
      | zero =>
        simp only [List.getElem?_cons_zero, Option.some.injEq] at hj
        subst hj
        have hnot : a ∉ (rest.map (fun s => s.serverFds)).flatten := fun h => hdis ha h
        rw [b4 a hnot, a4 a, if_pos ha]
        rfl
      | succ j =>
        simp only [List.getElem?_cons_succ] at hj
        rw [b5 hnd2 j s1 hj a ha]
        congr 1
        omega

/-- C20: `initPollStructures`, run on a reactor whose interest list and indexes are still
empty and whose listening descriptors are all distinct, leaves as interest list the
concatenation, in listener order, of every listener's listening descriptors, each once
and with interest `POLLIN`; the listening-descriptor set holds exactly those descriptors;
and the index maps each of them to the index of the listener that owns it. -/
theorem initPollStructures_builds_indexes {Config Request Response : Type}
    (servers : List (Server Config Request Response))
    (hdistinct : ((servers.map (fun s => s.serverFds)).flatten).Nodup) :
    (WebServer.initPollStructures
        { servers := servers, pollFds := [], fdToServerIndex := [], serverFdsSet := [] }).pollFds
      = ((servers.map (fun s => s.serverFds)).flatten).map
          (fun fd => { fd := fd, events := POLLIN, revents := 0 }) ∧
    ((WebServer.initPollStructures
        { servers := servers, pollFds := [], fdToServerIndex := [],
          serverFdsSet := [] }).pollFds.map (fun p => p.fd)).Nodup ∧
    (∀ fd, fd ∈ (WebServer.initPollStructures
        { servers := servers, pollFds := [], fdToServerIndex := [],
          serverFdsSet := [] }).serverFdsSet ↔
      fd ∈ (servers.map (fun s => s.serverFds)).flatten) ∧
    (∀ i s, servers[i]? = some s → ∀ fd ∈ s.serverFds,
      mapFind (WebServer.initPollStructures
        { servers := servers, pollFds := [], fdToServerIndex := [],
          serverFdsSet := [] }).fdToServerIndex fd = some i) ∧
    (WebServer.initPollStructures
        { servers := servers, pollFds := [], fdToServerIndex := [],
          serverFdsSet := [] }).servers = servers := by
  obtain ⟨h1, h2, h3, -, h5⟩ := initOuter_spec servers 0
    { servers := servers, pollFds := [], fdToServerIndex := [], serverFdsSet := [] }
  simp only [WebServer.initPollStructures]
  refine ⟨by rw [h1]; simp, ?_, ?_, ?_, h2⟩
  · rw [h1]
    simp only [List.nil_append, List.map_map]
    have : ((fun p : PollFd => p.fd) ∘ fun fd => { fd := fd, events := POLLIN, revents := 0 })
        = id := by
      funext x; rfl
    rw [this, List.map_id]
    exact hdistinct
  · intro fd
    rw [h3 fd]
    simp
  · intro i s hs fd hfd
    rw [h5 hdistinct i s hs fd hfd]
    simp

/-- Two listeners, on descriptors 3 and 4 and on descriptor 5. -/
theorem initPollStructures_builds_indexes_witness :
    (WebServer.initPollStructures
        { servers := [sampleServer 10 [3, 4] [], sampleServer 20 [5] []], pollFds := [],
          fdToServerIndex := [], serverFdsSet := [] }).pollFds
      = [{ fd := 3, events := 1, revents := 0 }, { fd := 4, events := 1, revents := 0 },
         { fd := 5, events := 1, revents := 0 }] ∧
    mapFind (WebServer.initPollStructures
        { servers := [sampleServer 10 [3, 4] [], sampleServer 20 [5] []], pollFds := [],
          fdToServerIndex := [], serverFdsSet := [] }).fdToServerIndex 5 = some 1 :=
  ⟨(initPollStructures_builds_indexes [sampleServer 10 [3, 4] [], sampleServer 20 [5] []]
      (by decide)).1,
   (initPollStructures_builds_indexes [sampleServer 10 [3, 4] [], sampleServer 20 [5] []]
      (by decide)).2.2.2.1 1 (sampleServer 20 [5] []) rfl 5 (by decide)⟩

/-! ## Removal of the queued positions -/

theorem keepUnqueued_all (qs : List Nat) :
    ∀ (l : List PollFd) (off : Nat), (∀ q ∈ qs, q < off) → keepUnqueued qs off l = l := by
  intro l
  induction l with
  | nil => intro off _; rfl
  | cons p rest ih =>
    intro off h
    have hno : off ∉ qs := fun hm => Nat.lt_irrefl _ (h off hm)
    simp only [keepUnqueued, hno, if_false]
    rw [ih (off + 1) (fun q hq => Nat.lt_succ_of_lt (h q hq))]

theorem keepUnqueued_eraseIdx (qs : List Nat) :
    ∀ (l : List PollFd) (off d : Nat), (∀ q ∈ qs, q < off + d) →
      keepUnqueued qs off (l.eraseIdx d) = keepUnqueued ((off + d) :: qs) off l := by
  intro l
  induction l with
  | nil => intro off d _; rfl
  | cons p rest ih =>
    intro off d h
    cases d with
    | zero =>
      simp only [List.eraseIdx_cons_zero, Nat.add_zero, keepUnqueued, List.mem_cons, true_or,
        if_true]
      rw [keepUnqueued_all qs rest off (by simpa using h)]
      rw [keepUnqueued_all (off :: qs) rest (off + 1)]
      intro q hq
      rcases List.mem_cons.mp hq with e | e
      · omega
      · have := h q e; omega
    | succ d =>
      simp only [List.eraseIdx_cons_succ, keepUnqueued, List.mem_cons]
      have hne : ¬ off = off + (d + 1) := by omega
      have e : off + (d + 1) = off + 1 + d := by omega
      simp only [hne, false_or]
      rw [ih (off + 1) d (by intro q hq; have := h q hq; omega), e]

theorem keepUnqueued_congr (qs qs2 : List Nat) (h : ∀ i, i ∈ qs ↔ i ∈ qs2) :
    ∀ (l : List PollFd) (off : Nat), keepUnqueued qs off l = keepUnqueued qs2 off l := by
  intro l
  induction l with
  | nil => intro off; rfl
  | cons p rest ih =>
    intro off
    simp only [keepUnqueued, h off, ih (off + 1)]

theorem keepUnqueued_append (qs : List Nat) (extra : List PollFd) :
    ∀ (l : List PollFd) (off : Nat), (∀ q ∈ qs, q < off + l.length) →
      keepUnqueued qs off (l ++ extra) = keepUnqueued qs off l ++ extra := by
  intro l
  induction l with
  | nil =>
    intro off h
    simp only [List.nil_append, keepUnqueued]
    exact keepUnqueued_all qs extra off (by simpa using h)
  | cons p rest ih =>
    intro off h
    have h2 : ∀ q ∈ qs, q < off + 1 + rest.length := by
      intro q hq
      have := h q hq
      simp only [List.length_cons] at this
      omega
    rw [List.cons_append]
    simp only [keepUnqueued, ih (off + 1) h2]
    split_ifs <;> rfl

theorem offersOf_append (a b : List Sys) : offersOf (a ++ b) = offersOf a ++ offersOf b := by
  induction a with
  | nil => rfl
  | cons x rest ih =>
    cases x <;> simp [offersOf, ih]

theorem offersOf_removeClient {Config Request Response : Type}
    (s : Server Config Request Response) (fd : Int) :
    offersOf (s.removeClient fd).trace = [] := by
  simp only [Server.removeClient, ClientManager.removeClient]
  cases mapFind s._clientManager._clients fd <;> rfl

theorem offerAll_spec {Config Request Response : Type} (fd : Int) :
    ∀ (servers : List (Server Config Request Response)) (k : Nat),
      (WebServer.offerAll fd k servers).1.length = servers.length ∧
      offersOf (WebServer.offerAll fd k servers).2
        = (List.range' k servers.length).map (fun j => (j, fd)) := by
  intro servers
  induction servers with
  | nil => intro k; simp [WebServer.offerAll, offersOf]
  | cons s rest ih =>
    intro k
    obtain ⟨h1, h2⟩ := ih (k + 1)
    simp only [WebServer.offerAll, List.length_cons, h1, true_and]
    rw [List.range'_succ]
    simp only [List.map_cons, offersOf, List.cons.injEq, true_and, List.append_eq]
    rw [offersOf_append, offersOf_removeClient, h2]
    rfl

theorem fdAt_eraseIdx (l : List PollFd) (d i : Nat) (h : i < d) :
    fdAt (l.eraseIdx d) i = fdAt l i := by
  simp only [fdAt, List.getElem?_eraseIdx, h, if_true]

theorem removeLoop_spec {Config Request Response : Type} :
    ∀ (order : List Nat) (w : WebServer Config Request Response),
      List.Pairwise (fun a b => a > b) order → (∀ i ∈ order, i < w.pollFds.length) →
      (WebServer.removeLoop order w).1.pollFds = keepUnqueued order 0 w.pollFds ∧
      (WebServer.removeLoop order w).1.serverFdsSet = w.serverFdsSet ∧
      (WebServer.removeLoop order w).1.fdToServerIndex = w.fdToServerIndex ∧
      (WebServer.removeLoop order w).1.servers.length = w.servers.length ∧
      offersOf (WebServer.removeLoop order w).2
        = order.flatMap (fun i =>
            if fdAt w.pollFds i ∈ w.serverFdsSet then []
            else (List.range' 0 w.servers.length).map (fun k => (k, fdAt w.pollFds i))) := by
  intro order
  induction order with
  | nil =>
    intro w _ _
    simp [WebServer.removeLoop, keepUnqueued_all, offersOf]
  | cons d ds ih =>
    intro w hp hr
    rw [List.pairwise_cons] at hp
    obtain ⟨hd, hp2⟩ := hp
    have hdl : d < w.pollFds.length := hr d (List.mem_cons_self _ _)
    obtain ⟨p, hpd⟩ : ∃ p, w.pollFds[d]? = some p := ⟨_, List.getElem?_eq_getElem hdl⟩
    have hfd : fdAt w.pollFds d = p.fd := by simp [fdAt, hpd]
    have hlen : (w.pollFds.eraseIdx d).length = w.pollFds.length - 1 := by
      rw [List.length_eraseIdx, if_pos hdl]
    by_cases hs : p.fd ∈ w.serverFdsSet
    · obtain ⟨a1, a2, a3, a4, a5⟩ := ih
        { w with servers := w.servers, pollFds := w.pollFds.eraseIdx d } hp2
        (by intro i hi; have := hd i hi; simp only [hlen]; omega)
      simp only [WebServer.removeLoop, hpd, hs, if_true, List.nil_append, List.flatMap_cons, hfd]
      refine ⟨?_, a2, a3, a4, ?_⟩
      · rw [a1, keepUnqueued_eraseIdx ds w.pollFds 0 d
          (by intro q hq; have := hd q hq; omega)]
        simp
      · rw [a5]
        apply List.flatMap_congr
        intro i hi
        simp only [fdAt_eraseIdx w.pollFds d i (hd i hi)]
    · obtain ⟨o1, o2⟩ := offerAll_spec p.fd w.servers 0
      obtain ⟨a1, a2, a3, a4, a5⟩ := ih
        { w with servers := (WebServer.offerAll p.fd 0 w.servers).1,
                 pollFds := w.pollFds.eraseIdx d } hp2
        (by intro i hi; have := hd i hi; simp only [hlen]; omega)
      simp only [WebServer.removeLoop, hpd, hs, if_false, List.flatMap_cons, hfd]
      refine ⟨?_, a2, a3, by rw [a4, o1], ?_⟩
      · rw [a1, keepUnqueued_eraseIdx ds w.pollFds 0 d
          (by intro q hq; have := hd q hq; omega)]
        simp
      · rw [offersOf_append, a5, o2, o1]
        congr 1
        apply List.flatMap_congr
        intro i hi
        simp only [fdAt_eraseIdx w.pollFds d i (hd i hi)]

/-! ## One scan of the interest list -/

theorem mem_mapKeys_mapSet {V : Type} (m : List (Int × V)) (k : Int) (v : V) (a : Int) :
    a ∈ mapKeys (mapSet m k v) ↔ a = k ∨ a ∈ mapKeys m := by
  induction m with
  | nil => simp [mapSet, mapKeys]
  | cons p rest ih =>
    obtain ⟨k1, v1⟩ := p
    simp only [mapSet]
    by_cases h1 : k < k1
    · simp [h1, mapKeys]
    · by_cases h2 : k = k1
      · subst h2; simp [mapKeys]
      · simp only [mapKeys] at ih
        simp only [h1, h2, if_false, mapKeys, List.map_cons, List.mem_cons, ih]
        tauto

theorem mem_mapKeys_mapErase {V : Type} (m : List (Int × V)) (k a : Int) :
    a ∈ mapKeys (mapErase m k) ↔ a ∈ mapKeys m ∧ a ≠ k := by
  simp only [mapKeys, mapErase, List.mem_map, List.mem_filter, decide_eq_true_eq]
  constructor
  · rintro ⟨p, ⟨hp, hne⟩, rfl⟩
    exact ⟨⟨p, hp, rfl⟩, hne⟩
  · rintro ⟨⟨p, hp, rfl⟩, hne⟩
    exact ⟨p, ⟨hp, hne⟩, rfl⟩

theorem mapFind_some_mem {V : Type} (m : List (Int × V)) (k : Int) (v : V)
    (h : mapFind m k = some v) : k ∈ mapKeys m := by
  induction m with
  | nil => simp [mapFind] at h
  | cons p rest ih =>
    obtain ⟨k1, v1⟩ := p
    simp only [mapFind] at h
    by_cases h1 : k1 = k
    · simp [mapKeys, h1]
    · rw [if_neg h1] at h
      simp only [mapKeys, List.map_cons, List.mem_cons]
      exact Or.inr (ih h)

theorem mapFind_none_not_mem {V : Type} (m : List (Int × V)) (k : Int)
    (h : mapFind m k = none) : k ∉ mapKeys m := by
  induction m with
  | nil => simp [mapKeys]
  | cons p rest ih =>
    obtain ⟨k1, v1⟩ := p
    simp only [mapFind] at h
    by_cases h1 : k1 = k
    · rw [if_pos h1] at h; cases h
    · rw [if_neg h1] at h
      simp only [mapKeys, List.map_cons, List.mem_cons, not_or]
      exact ⟨fun e => h1 e.symm, ih h⟩

theorem keysAt_cons_zero {Config Request Response : Type}
    (s : Server Config Request Response) (rest : List (Server Config Request Response)) :
    keysAt (s :: rest) 0 = mapKeys s._clientManager._clients := by
  simp [keysAt]

theorem keysAt_cons_succ {Config Request Response : Type}
    (s : Server Config Request Response) (rest : List (Server Config Request Response))
    (k : Nat) : keysAt (s :: rest) (k + 1) = keysAt rest k := by
  simp [keysAt]

theorem handleClientEvent_keys {Config Request Response : Type}
    (K : Collaborators Config Request Response) (s : Server Config Request Response)
    (fd : Int) (revents : Nat) (io : IoResult) (a : Int) :
    (a ∈ mapKeys (s.handleClientEvent K fd revents io).state._clientManager._clients ↔
      a ∈ mapKeys s._clientManager._clients) ∧
    offersOf (s.handleClientEvent K fd revents io).trace = [] := by
  simp only [Server.handleClientEvent, ClientManager.handleClientIO]
  cases hf : mapFind s._clientManager._clients fd with
  | none => simp [offersOf]
  | some c =>
    have hmem := mapFind_some_mem _ _ _ hf
    simp only [mem_mapKeys_mapSet]
    constructor
    · constructor
      · rintro (h | h)
        · rw [h]; exact hmem
        · exact h
      · exact fun h => Or.inr h
    · generalize ((if revents &&& POLLIN ≠ 0 then handleClientRequest K c io.bytesRead io.buffer
          else { ret := true, client := c, trace := [] }).trace ++ _) = t
      induction t with
      | nil => rfl
      | cons x rest ih => simpa [offersOf] using ih

theorem tryServers_spec {Config Request Response : Type}
    (K : Collaborators Config Request Response) (fd : Int) (revents : Nat)
    (io : Nat → IoResult) :
    ∀ (servers : List (Server Config Request Response)) (j : Nat),
      (WebServer.tryServers K fd revents io j servers).2.1.length = servers.length ∧
      (∀ k a, a ∈ keysAt (WebServer.tryServers K fd revents io j servers).2.1 k ↔
        a ∈ keysAt servers k) ∧
      offersOf (WebServer.tryServers K fd revents io j servers).2.2 = [] := by
  intro servers
  induction servers with
  | nil => intro j; simp [WebServer.tryServers, offersOf]
  | cons s rest ih =>
    intro j
    obtain ⟨h1, h2, h3⟩ := ih (j + 1)
    have hk := fun a => (handleClientEvent_keys K s fd revents (io j) a).1
    have ho := (handleClientEvent_keys K s fd revents (io j) 0).2
    simp only [WebServer.tryServers]
    by_cases hr : (s.handleClientEvent K fd revents (io j)).ret = true
    · simp only [hr, if_true, List.length_cons, true_and, ho, and_true]
      intro k a
      cases k with
      | zero => simp only [keysAt_cons_zero]; exact hk a
      | succ k => simp only [keysAt_cons_succ]
    · simp only [hr, Bool.false_eq_true, if_false, List.length_cons, h1, true_and,
        offersOf_append, ho, h3, List.append_nil, and_true]
      intro k a
      cases k with
      | zero => simp only [keysAt_cons_zero]; exact hk a
      | succ k => simp only [keysAt_cons_succ]; exact h2 k a

theorem acceptNewConnection_spec {Config Request Response : Type}
    (K : Collaborators Config Request Response) (s : Server Config Request Response)
    (serverFd : Int) (o : AcceptOutcome) :
    (∀ a, a ∈ mapKeys (s.acceptNewConnection K serverFd o).state._clientManager._clients ↔
      a ∈ mapKeys s._clientManager._clients ∨ (acceptSucceeds o = true ∧ a = o.clientFd)) ∧
    ((s.acceptNewConnection K serverFd o).ret
      = if acceptSucceeds o = true then o.clientFd else -1) ∧
    offersOf (s.acceptNewConnection K serverFd o).trace = [] ∧
    (s.acceptNewConnection K serverFd o).trace.count (Sys.accept serverFd) = 1 ∧
    (s.acceptNewConnection K serverFd o).state.config = s.config ∧
    (s.acceptNewConnection K serverFd o).state.serverFds = s.serverFds := by
  simp only [Server.acceptNewConnection, ClientManager.acceptNewClient, acceptSucceeds]
  by_cases h1 : o.clientFd < 0
  · have n1 : ¬ 0 ≤ o.clientFd := by omega
    simp [h1, n1, offersOf]
  by_cases h2 : o.getfl < 0
  · have n1 : 0 ≤ o.clientFd := by omega
    have n2 : ¬ 0 ≤ o.getfl := by omega
    simp [h1, h2, n1, n2, offersOf]
  by_cases h3 : o.setfl < 0
  · have n1 : 0 ≤ o.clientFd := by omega
    have n2 : 0 ≤ o.getfl := by omega
    have n3 : ¬ 0 ≤ o.setfl := by omega
    simp [h1, h2, h3, n1, n2, n3, offersOf]
  · have n1 : 0 ≤ o.clientFd := by omega
    have n2 : 0 ≤ o.getfl := by omega
    have n3 : 0 ≤ o.setfl := by omega
    simp only [h1, h2, h3, n1, n2, n3, if_false, mem_mapKeys_mapSet, decide_True,
      Bool.and_self, true_and, if_true, offersOf, and_true]
    refine ⟨fun a => by tauto, by simp [List.count_cons]⟩

theorem keysAt_set {Config Request Response : Type}
    (l : List (Server Config Request Response)) (i : Nat) (x : Server Config Request Response)
    (k : Nat) (hi : i < l.length) :
    keysAt (l.set i x) k = if i = k then mapKeys x._clientManager._clients else keysAt l k := by
  simp only [keysAt, List.getElem?_set, hi, if_true]
  by_cases h : i = k
  · simp [h]
  · simp [h]

theorem scanEntry_spec {Config Request Response : Type}
    (K : Collaborators Config Request Response) (w : WebServer Config Request Response)
    (env : LoopEnv) (st : Scan Config Request Response) (i : Nat) (p : PollFd)
    (hlen : st.servers.length = w.servers.length) :
    (WebServer.scanEntry K w env st i p).servers.length = w.servers.length ∧
    (∀ k a, a ∈ keysAt (WebServer.scanEntry K w env st i p).servers k ↔
      a ∈ keysAt st.servers k ∨
        (acceptPerformed w env i p = true ∧ k = routeOf w p.fd ∧
          a = (env.accept i).clientFd)) ∧
    (WebServer.scanEntry K w env st i p).newConnections
      = st.newConnections ++
          (if acceptPerformed w env i p = true ∧ 0 < (env.accept i).clientFd then
            [{ fd := (env.accept i).clientFd, events := POLLIN ||| POLLOUT, revents := 0 }]
          else []) ∧
    ((WebServer.scanEntry K w env st i p).toRemove = st.toRemove ∨
      ((WebServer.scanEntry K w env st i p).toRemove = st.toRemove ++ [i] ∧
        p.fd ∉ w.serverFdsSet ∧ p.revents ≠ 0)) ∧
    offersOf (WebServer.scanEntry K w env st i p).trace = offersOf st.trace := by
  unfold WebServer.scanEntry
  by_cases h0 : p.revents = 0
  · simp [h0, acceptPerformed, hlen]
  simp only [h0, if_false]
  by_cases hs : p.fd ∈ w.serverFdsSet
  · simp only [hs, if_true]
    cases hsrv : st.servers[(mapFind w.fdToServerIndex p.fd).getD 0]? with
    | none =>
      have hge : ¬ routeOf w p.fd < w.servers.length := by
        rw [← hlen]
        intro hlt
        rw [List.getElem?_eq_getElem (by exact hlt)] at hsrv
        cases hsrv
      simp [acceptPerformed, hge, hlen]
    | some srv =>
      have hlt : routeOf w p.fd < st.servers.length := by
        by_contra hc
        have : st.servers[(mapFind w.fdToServerIndex p.fd).getD 0]? = none :=
          List.getElem?_eq_none (by simpa [routeOf] using hc)
        rw [this] at hsrv; cases hsrv
      have hlt2 : routeOf w p.fd < w.servers.length := by rw [← hlen]; exact hlt
      obtain ⟨a1, a2, a3, -, -, -⟩ := acceptNewConnection_spec K srv p.fd (env.accept i)
      have hperf : acceptPerformed w env i p = acceptSucceeds (env.accept i) := by
        simp [acceptPerformed, h0, hs, hlt2]
      have hkeys : keysAt st.servers (routeOf w p.fd) = mapKeys srv._clientManager._clients := by
        simp only [keysAt, routeOf, hsrv]
      simp only []
      by_cases hpos : (srv.acceptNewConnection K p.fd (env.accept i)).ret > 0
      · have hsucc : acceptSucceeds (env.accept i) = true := by
          by_contra hc
          rw [a2, if_neg hc] at hpos
          omega
        have hret : (srv.acceptNewConnection K p.fd (env.accept i)).ret
            = (env.accept i).clientFd := by rw [a2, if_pos hsucc]
        have hpos2 : 0 < (env.accept i).clientFd := by rw [← hret]; exact hpos
        simp only [hpos, if_true]
        refine ⟨by rw [List.length_set, hlen], ?_, ?_, Or.inl trivial, ?_⟩
        · intro k a
          rw [show (mapFind w.fdToServerIndex p.fd).getD 0 = routeOf w p.fd from rfl,
            keysAt_set _ _ _ _ hlt, hperf]
          by_cases hk : routeOf w p.fd = k
          · subst hk
            simp only [if_true, a1, hsucc, true_and, hkeys]
          · have hk2 : ¬ k = routeOf w p.fd := fun e => hk e.symm
            simp only [hk, if_false, hk2, false_and, and_false, or_false]
        · rw [hperf, if_pos ⟨hsucc, hpos2⟩, hret]
        · rw [offersOf_append, a3, List.append_nil]
      · have hnp : ¬ (acceptSucceeds (env.accept i) = true ∧ 0 < (env.accept i).clientFd) := by
          rintro ⟨h1, h2⟩
          rw [a2, if_pos h1] at hpos
          exact hpos h2
        simp only [hpos, if_false]
        refine ⟨by rw [List.length_set, hlen], ?_, ?_, Or.inl trivial, ?_⟩
        · intro k a
          rw [show (mapFind w.fdToServerIndex p.fd).getD 0 = routeOf w p.fd from rfl,
            keysAt_set _ _ _ _ hlt, hperf]
          by_cases hk : routeOf w p.fd = k
          · subst hk
            simp only [if_true, a1, true_and, hkeys]
          · have hk2 : ¬ k = routeOf w p.fd := fun e => hk e.symm
            simp only [hk, if_false, hk2, false_and, and_false, or_false]
        · rw [hperf, if_neg hnp, List.append_nil]
        · rw [offersOf_append, a3, List.append_nil]
  · obtain ⟨t1, t2, t3⟩ := tryServers_spec K p.fd p.revents (env.io i) st.servers 0
    have hperf : acceptPerformed w env i p = false := by
      simp [acceptPerformed, hs]
    simp only [hs, if_false]
    by_cases hk : (WebServer.tryServers K p.fd p.revents (env.io i) 0 st.servers).1 = true
    · simp only [hk, Bool.not_true, Bool.false_eq_true, if_false]
      refine ⟨by rw [t1, hlen], ?_, ?_, Or.inl trivial, ?_⟩
      · intro k a
        rw [t2 k a, hperf]
        simp
      · rw [hperf]; simp
      · rw [offersOf_append, t3, List.append_nil]
    · simp only [Bool.not_eq_true] at hk
      simp only [hk, Bool.not_false, if_true]
      refine ⟨by rw [t1, hlen], ?_, ?_, Or.inr ⟨trivial, not_false, h0⟩, ?_⟩
      · intro k a
        rw [t2 k a, hperf]
        simp
      · rw [hperf]; simp
      · rw [offersOf_append, t3, List.append_nil]

theorem scanLoop_spec {Config Request Response : Type}
    (K : Collaborators Config Request Response) (w : WebServer Config Request Response)
    (env : LoopEnv) :
    ∀ (rest : List PollFd) (i : Nat) (st : Scan Config Request Response),
      st.servers.length = w.servers.length →
      (WebServer.scanLoop K w env i rest st).servers.length = w.servers.length ∧
      (∀ k a, a ∈ keysAt (WebServer.scanLoop K w env i rest st).servers k ↔
        a ∈ keysAt st.servers k ∨
          ∃ j p, rest[j]? = some p ∧ acceptPerformed w env (i + j) p = true ∧
            k = routeOf w p.fd ∧ a = (env.accept (i + j)).clientFd) ∧
      (WebServer.scanLoop K w env i rest st).newConnections
        = st.newConnections ++ acceptedEntries w env i rest ∧
      (∃ extra, (WebServer.scanLoop K w env i rest st).toRemove = st.toRemove ++ extra ∧
        List.Pairwise (fun a b => a < b) extra ∧
        ∀ r ∈ extra, i ≤ r ∧ ∃ p, rest[r - i]? = some p ∧ p.fd ∉ w.serverFdsSet ∧
          p.revents ≠ 0) ∧
      offersOf (WebServer.scanLoop K w env i rest st).trace = offersOf st.trace := by
  intro rest
  induction rest with
  | nil =>
    intro i st hlen
    simp only [WebServer.scanLoop, acceptedEntries, List.append_nil]
    refine ⟨hlen, ?_, trivial, ⟨[], by simp, List.Pairwise.nil, ?_⟩, trivial⟩
    · intro k a
      simp
    · intro r hr
      exact absurd hr (List.not_mem_nil r)
  | cons p tl ih =>
    intro i st hlen
    obtain ⟨e1, e2, e3, e4, e5⟩ := scanEntry_spec K w env st i p hlen
    obtain ⟨l1, l2, l3, ⟨extra, x1, x2, x3⟩, l5⟩ :=
      ih (i + 1) (WebServer.scanEntry K w env st i p) e1
    simp only [WebServer.scanLoop]
    refine ⟨l1, ?_, ?_, ?_, by rw [l5, e5]⟩
    · intro k a
      rw [l2 k a, e2 k a]
      constructor
      · rintro ((h | ⟨h1, h2, h3⟩) | ⟨j, q, h1, h2, h3, h4⟩)
        · exact Or.inl h
        · exact Or.inr ⟨0, p, by simp, by simpa using h1, h2, by simpa using h3⟩
        · refine Or.inr ⟨j + 1, q, by simpa using h1, ?_, h3, ?_⟩
          · have e : i + (j + 1) = i + 1 + j := by omega
            rw [e]; exact h2
          · have e : i + (j + 1) = i + 1 + j := by omega
            rw [e]; exact h4
      · rintro (h | ⟨j, q, h1, h2, h3, h4⟩)
        · exact Or.inl (Or.inl h)
        · cases j with
          | zero =>
            simp only [List.getElem?_cons_zero, Option.some.injEq] at h1
            subst h1
            exact Or.inl (Or.inr ⟨by simpa using h2, h3, by simpa using h4⟩)
          | succ j =>
            simp only [List.getElem?_cons_succ] at h1
            have e : i + (j + 1) = i + 1 + j := by omega
            rw [e] at h2 h4
            exact Or.inr ⟨j, q, h1, h2, h3, h4⟩
    · rw [l3, e3]
      simp only [acceptedEntries, List.append_assoc]
    · rcases e4 with h | ⟨h, hs, h0⟩
      · refine ⟨extra, by rw [x1, h], x2, ?_⟩
        intro r hr
        obtain ⟨r1, q, r2, r3, r4⟩ := x3 r hr
        refine ⟨by omega, q, ?_, r3, r4⟩
        have e : r - i = (r - (i + 1)) + 1 := by omega
        rw [e, List.getElem?_cons_succ]
        exact r2
      · refine ⟨i :: extra, by rw [x1, h]; simp, ?_, ?_⟩
        · rw [List.pairwise_cons]
          refine ⟨?_, x2⟩
          intro r hr
          have := (x3 r hr).1
          omega
        · intro r hr
          rcases List.mem_cons.mp hr with hr | hr
          · subst hr
            exact ⟨le_rfl, p, by simp, hs, h0⟩
          · obtain ⟨r1, q, r2, r3, r4⟩ := x3 r hr
            refine ⟨by omega, q, ?_, r3, r4⟩
            have e : r - i = (r - (i + 1)) + 1 := by omega
            rw [e, List.getElem?_cons_succ]
            exact r2

theorem handlePollEvents_spec {Config Request Response : Type}
    (K : Collaborators Config Request Response) (w : WebServer Config Request Response)
    (env : LoopEnv) :
    (WebServer.handlePollEvents K w env).servers.length = w.servers.length ∧
    (∀ k a, a ∈ keysAt (WebServer.handlePollEvents K w env).servers k ↔
      a ∈ keysAt w.servers k ∨
        ∃ j p, w.pollFds[j]? = some p ∧ acceptPerformed w env j p = true ∧
          k = routeOf w p.fd ∧ a = (env.accept j).clientFd) ∧
    (WebServer.handlePollEvents K w env).newConnections = acceptedEntries w env 0 w.pollFds ∧
    List.Pairwise (fun a b => a < b) (WebServer.handlePollEvents K w env).toRemove ∧
    (∀ r ∈ (WebServer.handlePollEvents K w env).toRemove,
      ∃ p, w.pollFds[r]? = some p ∧ p.fd ∉ w.serverFdsSet ∧ p.revents ≠ 0) ∧
    offersOf (WebServer.handlePollEvents K w env).trace = [] := by
  obtain ⟨l1, l2, l3, ⟨extra, x1, x2, x3⟩, l5⟩ := scanLoop_spec K w env w.pollFds 0
    { servers := w.servers, newConnections := [], toRemove := [], trace := [] } rfl
  simp only [WebServer.handlePollEvents]
  refine ⟨l1, ?_, by rw [l3]; simp, by rw [x1]; simpa using x2, ?_, by rw [l5]; rfl⟩
  · intro k a
    rw [l2 k a]
    simp only [Nat.zero_add]
  · intro r hr
    rw [x1] at hr
    simp only [List.nil_append] at hr
    obtain ⟨-, q, r2, r3, r4⟩ := x3 r hr
    exact ⟨q, by simpa using r2, r3, r4⟩

theorem removeClient_keys {Config Request Response : Type}
    (s : Server Config Request Response) (fd a : Int) :
    a ∈ mapKeys (s.removeClient fd).state._clientManager._clients ↔
      a ∈ mapKeys s._clientManager._clients ∧ a ≠ fd := by
  simp only [Server.removeClient, ClientManager.removeClient]
  cases hf : mapFind s._clientManager._clients fd with
  | none =>
    have := mapFind_none_not_mem _ _ hf
    simp only []
    constructor
    · intro h
      exact ⟨h, fun e => this (e ▸ h)⟩
    · exact fun h => h.1
  | some c => simp only [mem_mapKeys_mapErase]

theorem offerAll_keys {Config Request Response : Type} (fd : Int) :
    ∀ (servers : List (Server Config Request Response)) (j k : Nat) (a : Int),
      a ∈ keysAt (WebServer.offerAll fd j servers).1 k ↔ a ∈ keysAt servers k ∧ a ≠ fd := by
  intro servers
  induction servers with
  | nil => intro j k a; simp [WebServer.offerAll, keysAt]
  | cons s rest ih =>
    intro j k a
    simp only [WebServer.offerAll]
    cases k with
    | zero => simp only [keysAt_cons_zero]; exact removeClient_keys s fd a
    | succ k => simp only [keysAt_cons_succ]; exact ih (j + 1) k a

theorem removeLoop_keys {Config Request Response : Type} :
    ∀ (order : List Nat) (w : WebServer Config Request Response),
      List.Pairwise (fun a b => a > b) order → (∀ i ∈ order, i < w.pollFds.length) →
      ∀ k a, a ∈ keysAt (WebServer.removeLoop order w).1.servers k ↔
        a ∈ keysAt w.servers k ∧
          ∀ i ∈ order, fdAt w.pollFds i ∉ w.serverFdsSet → a ≠ fdAt w.pollFds i := by
  intro order
  induction order with
  | nil =>
    intro w _ _ k a
    simp [WebServer.removeLoop]
  | cons d ds ih =>
    intro w hp hr k a
    rw [List.pairwise_cons] at hp
    obtain ⟨hd, hp2⟩ := hp
    have hdl : d < w.pollFds.length := hr d (List.mem_cons_self _ _)
    obtain ⟨p, hpd⟩ : ∃ p, w.pollFds[d]? = some p := ⟨_, List.getElem?_eq_getElem hdl⟩
    have hfd : fdAt w.pollFds d = p.fd := by simp [fdAt, hpd]
    have hlen : (w.pollFds.eraseIdx d).length = w.pollFds.length - 1 := by
      rw [List.length_eraseIdx, if_pos hdl]
    have hstable : ∀ i ∈ ds, fdAt (w.pollFds.eraseIdx d) i = fdAt w.pollFds i :=
      fun i hi => fdAt_eraseIdx w.pollFds d i (hd i hi)
    by_cases hs : p.fd ∈ w.serverFdsSet
    · have := ih { w with servers := w.servers, pollFds := w.pollFds.eraseIdx d } hp2
        (by intro i hi; have := hd i hi; simp only [hlen]; omega) k a
      simp only [WebServer.removeLoop, hpd, hs, if_true]
      rw [this]
      simp only [List.mem_cons, forall_eq_or_imp, hfd, hs, not_true_eq_false, false_implies,
        true_and]
      constructor
      · rintro ⟨h1, h2⟩
        exact ⟨h1, fun i hi => by rw [← hstable i hi]; exact h2 i hi⟩
      · rintro ⟨h1, h2⟩
        exact ⟨h1, fun i hi => by rw [hstable i hi]; exact h2 i hi⟩
    · have := ih { w with servers := (WebServer.offerAll p.fd 0 w.servers).1,
                          pollFds := w.pollFds.eraseIdx d } hp2
        (by intro i hi; have := hd i hi; simp only [hlen]; omega) k a
      simp only [WebServer.removeLoop, hpd, hs, if_false]
      rw [this, offerAll_keys]
      simp only [List.mem_cons, forall_eq_or_imp, hfd, hs, not_false_eq_true, true_implies]
      constructor
      · rintro ⟨⟨h1, h0⟩, h2⟩
        exact ⟨h1, h0, fun i hi => by rw [← hstable i hi]; exact h2 i hi⟩
      · rintro ⟨h1, h0, h2⟩
        exact ⟨⟨h1, h0⟩, fun i hi => by rw [hstable i hi]; exact h2 i hi⟩

theorem fdAt_append (l extra : List PollFd) (i : Nat) (h : i < l.length) :
    fdAt (l ++ extra) i = fdAt l i := by
  simp only [fdAt, List.getElem?_append_left h]

theorem afterPoll_spec {Config Request Response : Type}
    (K : Collaborators Config Request Response) (w : WebServer Config Request Response)
    (env : LoopEnv) :
    List.Pairwise (fun a b => a < b) (WebServer.handlePollEvents K w env).toRemove ∧
    (∀ i ∈ (WebServer.handlePollEvents K w env).toRemove,
      i < w.pollFds.length ∧ fdAt w.pollFds i ∉ w.serverFdsSet) ∧
    (WebServer.afterPoll K w env).state.pollFds
      = keepUnqueued (WebServer.handlePollEvents K w env).toRemove 0 w.pollFds
          ++ (WebServer.handlePollEvents K w env).newConnections ∧
    offersOf (WebServer.afterPoll K w env).trace
      = (WebServer.handlePollEvents K w env).toRemove.reverse.flatMap (fun i =>
          (List.range w.servers.length).map (fun k => (k, fdAt w.pollFds i))) ∧
    (WebServer.afterPoll K w env).state.serverFdsSet = w.serverFdsSet ∧
    (WebServer.afterPoll K w env).state.fdToServerIndex = w.fdToServerIndex ∧
    (WebServer.afterPoll K w env).state.servers.length = w.servers.length ∧
    (∀ k a, a ∈ keysAt (WebServer.afterPoll K w env).state.servers k ↔
      a ∈ keysAt (WebServer.handlePollEvents K w env).servers k ∧
        ∀ i ∈ (WebServer.handlePollEvents K w env).toRemove, a ≠ fdAt w.pollFds i) := by
  obtain ⟨s1, -, -, s4, s5, s6⟩ := handlePollEvents_spec K w env
  have hrange : ∀ i ∈ (WebServer.handlePollEvents K w env).toRemove,
      i < w.pollFds.length ∧ fdAt w.pollFds i ∉ w.serverFdsSet := by
    intro i hi
    obtain ⟨p, h1, h2, -⟩ := s5 i hi
    have hlt : i < w.pollFds.length := by
      by_contra hc
      rw [List.getElem?_eq_none (by omega)] at h1
      cases h1
    exact ⟨hlt, by simp only [fdAt, h1]; exact h2⟩
  have hpw : List.Pairwise (fun a b => a > b)
      (WebServer.handlePollEvents K w env).toRemove.reverse := by
    rw [List.pairwise_reverse]
    exact s4
  have hin : ∀ i ∈ (WebServer.handlePollEvents K w env).toRemove.reverse,
      i < (w.pollFds ++ (WebServer.handlePollEvents K w env).newConnections).length := by
    intro i hi
    have := (hrange i (List.mem_reverse.mp hi)).1
    rw [List.length_append]
    omega
  obtain ⟨r1, r2, r3, r4, r5⟩ := removeLoop_spec
    (WebServer.handlePollEvents K w env).toRemove.reverse
    { w with servers := (WebServer.handlePollEvents K w env).servers,
             pollFds := w.pollFds ++ (WebServer.handlePollEvents K w env).newConnections }
    hpw hin
  have r6 := removeLoop_keys
    (WebServer.handlePollEvents K w env).toRemove.reverse
    { w with servers := (WebServer.handlePollEvents K w env).servers,
             pollFds := w.pollFds ++ (WebServer.handlePollEvents K w env).newConnections }
    hpw hin
  refine ⟨s4, hrange, ?_, ?_, r2, r3, by rw [← s1]; exact r4, ?_⟩
  · simp only [WebServer.afterPoll]
    rw [r1]
    rw [keepUnqueued_congr _ (WebServer.handlePollEvents K w env).toRemove
      (fun i => List.mem_reverse)]
    exact keepUnqueued_append _ _ _ 0 (by intro q hq; have := (hrange q hq).1; omega)
  · simp only [WebServer.afterPoll]
    rw [offersOf_append, s6, List.nil_append, r5]
    apply List.flatMap_congr
    intro i hi
    have hi2 := hrange i (List.mem_reverse.mp hi)
    simp only [fdAt_append _ _ _ hi2.1, hi2.2, if_false, s1, List.range_eq_range']
  · intro k a
    simp only [WebServer.afterPoll]
    rw [r6 k a]
    constructor
    · rintro ⟨h1, h2⟩
      refine ⟨h1, fun i hi => ?_⟩
      have hi2 := hrange i hi
      have := h2 i (List.mem_reverse.mpr hi)
      simp only [fdAt_append _ _ _ hi2.1] at this
      exact this hi2.2
    · rintro ⟨h1, h2⟩
      refine ⟨h1, fun i hi _ => ?_⟩
      have hi2 := hrange i (List.mem_reverse.mp hi)
      simp only [fdAt_append _ _ _ hi2.1]
      exact h2 i (List.mem_reverse.mp hi)

/-- C12: in one iteration, with `toRemove` and `newConnections` as the scan
(`handlePollEvents`) leaves them: the queued positions are strictly increasing, lie inside
the interest list and are client positions; after the append-and-remove phase the
interest list is exactly the entries of the original list whose positions were not
queued, in their original order, followed by the new entries; and the `removeClient`
calls are, for each queued position taken from the last to the first, one call per
listener with the descriptor that stood at that position in the original list. -/
theorem afterPoll_removes_queued {Config Request Response : Type}
    (K : Collaborators Config Request Response) (w : WebServer Config Request Response)
    (env : LoopEnv) :
    List.Pairwise (fun a b => a < b) (WebServer.handlePollEvents K w env).toRemove ∧
    (∀ i ∈ (WebServer.handlePollEvents K w env).toRemove,
      i < w.pollFds.length ∧ fdAt w.pollFds i ∉ w.serverFdsSet) ∧
    (WebServer.afterPoll K w env).state.pollFds
      = keepUnqueued (WebServer.handlePollEvents K w env).toRemove 0 w.pollFds
          ++ (WebServer.handlePollEvents K w env).newConnections ∧
    offersOf (WebServer.afterPoll K w env).trace
      = (WebServer.handlePollEvents K w env).toRemove.reverse.flatMap (fun i =>
          (List.range w.servers.length).map (fun k => (k, fdAt w.pollFds i))) := by
  obtain ⟨h1, h2, h3, h4, -⟩ := afterPoll_spec K w env
  exact ⟨h1, h2, h3, h4⟩

/-- Four entries, the listening descriptors 3 and 5 and the connections 7 and 8; both
connections fail their `recv` and the listener on 5 accepts descriptor 9: positions 2 and
3 are queued, the entries of 3 and 5 stay in order, the entry of 9 follows, and descriptor
8 is offered to both listeners before descriptor 7. -/
theorem afterPoll_removes_queued_witness :
    (WebServer.handlePollEvents sampleCollaborators
        (sampleReactor
          [sampleServer 10 [3] [{ sampleClient 10 [] [] with _fd := 7 },
            { sampleClient 10 [] [] with _fd := 8 }], sampleServer 20 [5] []]
          [⟨3, 1, 0⟩, ⟨5, 1, 1⟩, ⟨7, 5, 1⟩, ⟨8, 5, 1⟩])
        (sampleEnv [0, 1, 1, 1] ⟨9, "10.0.0.9", 2, 0⟩ 0 [] 0)).toRemove = [2, 3] ∧
    (WebServer.afterPoll sampleCollaborators
        (sampleReactor
          [sampleServer 10 [3] [{ sampleClient 10 [] [] with _fd := 7 },
            { sampleClient 10 [] [] with _fd := 8 }], sampleServer 20 [5] []]
          [⟨3, 1, 0⟩, ⟨5, 1, 1⟩, ⟨7, 5, 1⟩, ⟨8, 5, 1⟩])
        (sampleEnv [0, 1, 1, 1] ⟨9, "10.0.0.9", 2, 0⟩ 0 [] 0)).state.pollFds
      = [⟨3, 1, 0⟩, ⟨5, 1, 1⟩, ⟨9, 5, 0⟩] ∧
    offersOf (WebServer.afterPoll sampleCollaborators
        (sampleReactor
          [sampleServer 10 [3] [{ sampleClient 10 [] [] with _fd := 7 },
            { sampleClient 10 [] [] with _fd := 8 }], sampleServer 20 [5] []]
          [⟨3, 1, 0⟩, ⟨5, 1, 1⟩, ⟨7, 5, 1⟩, ⟨8, 5, 1⟩])
        (sampleEnv [0, 1, 1, 1] ⟨9, "10.0.0.9", 2, 0⟩ 0 [] 0)).trace
      = [(0, 8), (1, 8), (0, 7), (1, 7)] :=
  ⟨by decide,
   (afterPoll_removes_queued sampleCollaborators
      (sampleReactor
        [sampleServer 10 [3] [{ sampleClient 10 [] [] with _fd := 7 },
          { sampleClient 10 [] [] with _fd := 8 }], sampleServer 20 [5] []]
        [⟨3, 1, 0⟩, ⟨5, 1, 1⟩, ⟨7, 5, 1⟩, ⟨8, 5, 1⟩])
      (sampleEnv [0, 1, 1, 1] ⟨9, "10.0.0.9", 2, 0⟩ 0 [] 0)).2.2.1.trans (by decide),
   (afterPoll_removes_queued sampleCollaborators
      (sampleReactor
        [sampleServer 10 [3] [{ sampleClient 10 [] [] with _fd := 7 },
          { sampleClient 10 [] [] with _fd := 8 }], sampleServer 20 [5] []]
        [⟨3, 1, 0⟩, ⟨5, 1, 1⟩, ⟨7, 5, 1⟩, ⟨8, 5, 1⟩])
      (sampleEnv [0, 1, 1, 1] ⟨9, "10.0.0.9", 2, 0⟩ 0 [] 0)).2.2.2.trans (by decide)⟩

theorem set_of_getElem? {α : Type} (l : List α) (i : Nat) (x : α) (h : l[i]? = some x) :
    l.set i x = l := by
  apply List.ext_getElem?
  intro j
  rw [List.getElem?_set]
  by_cases hij : i = j
  · subst hij
    have hlt : i < l.length := by
      by_contra hc
      rw [List.getElem?_eq_none (by omega)] at h
      cases h
    simp [hlt, h]
  · simp [hij]

/-- C14, as stated, fails when `accept` returns the descriptor 0: the event on the
listening descriptor 3 makes `acceptNewClient` register the connection under key 0 in the
listener's registry, yet `handlePollEvents`, which tests `clientFd > 0`, queues no interest
entry for it. -/
theorem handlePollEvents_accept_zero_counterexample :
    acceptSucceeds ⟨0, "10.0.0.9", 2, 0⟩ = true ∧
    (WebServer.handlePollEvents sampleCollaborators
        (sampleReactor [sampleServer 10 [3] []] [⟨3, 1, 1⟩])
        (sampleEnv [1] ⟨0, "10.0.0.9", 2, 0⟩ 0 [] 0)).trace
      = [Sys.accept 3, Sys.fcntlGet 0, Sys.fcntlSet 0] ∧
    keysAt (WebServer.handlePollEvents sampleCollaborators
        (sampleReactor [sampleServer 10 [3] []] [⟨3, 1, 1⟩])
        (sampleEnv [1] ⟨0, "10.0.0.9", 2, 0⟩ 0 [] 0)).servers 0 = [0] ∧
    (WebServer.handlePollEvents sampleCollaborators
        (sampleReactor [sampleServer 10 [3] []] [⟨3, 1, 1⟩])
        (sampleEnv [1] ⟨0, "10.0.0.9", 2, 0⟩ 0 [] 0)).newConnections = [] := by
  decide

/-- C14 (amended): for an entry with an event whose descriptor `L` is a listening one and
is routed by the index to the listener `srv`, the scan issues exactly one `accept`, on `L`.
When the calls of `acceptNewClient` succeed with a positive descriptor, the new connection
is registered under it in the registry of `srv` with the configuration of `srv`, every
other listener is left as it was, and one entry with interest `POLLIN | POLLOUT` is queued
for it. When one of the calls fails, no listener and no queued entry changes. No position
is queued for removal. -/
theorem scanEntry_listening {Config Request Response : Type}
    (K : Collaborators Config Request Response) (w : WebServer Config Request Response)
    (env : LoopEnv) (st : Scan Config Request Response) (i : Nat) (p : PollFd)
    (srv : Server Config Request Response)
    (hev : p.revents ≠ 0) (hl : p.fd ∈ w.serverFdsSet)
    (hsrv : st.servers[routeOf w p.fd]? = some srv) :
    (∃ t, (WebServer.scanEntry K w env st i p).trace = st.trace ++ t ∧
      t.count (Sys.accept p.fd) = 1 ∧ ∀ fd, Sys.accept fd ∈ t → fd = p.fd) ∧
    (WebServer.scanEntry K w env st i p).toRemove = st.toRemove ∧
    (acceptSucceeds (env.accept i) = true → 0 < (env.accept i).clientFd →
      (WebServer.scanEntry K w env st i p).servers
        = st.servers.set (routeOf w p.fd)
            { srv with _clientManager :=
                { _clients := mapSet srv._clientManager._clients (env.accept i).clientFd
                    (newClient K (env.accept i).clientFd (env.accept i).peer srv.config) } } ∧
      (WebServer.scanEntry K w env st i p).newConnections
        = st.newConnections ++
            [{ fd := (env.accept i).clientFd, events := POLLIN ||| POLLOUT, revents := 0 }]) ∧
    (acceptSucceeds (env.accept i) = false →
      (WebServer.scanEntry K w env st i p).servers = st.servers ∧
      (WebServer.scanEntry K w env st i p).newConnections = st.newConnections) := by
  have hsrv2 : st.servers[(mapFind w.fdToServerIndex p.fd).getD 0]? = some srv := hsrv
  unfold WebServer.scanEntry
  simp only [hev, if_false, hl, if_true, hsrv2]
  simp only [Server.acceptNewConnection, ClientManager.acceptNewClient, acceptSucceeds,
    Bool.and_eq_true, decide_eq_true_eq, Bool.and_eq_false_iff, decide_eq_false_iff_not]
  by_cases h1 : (env.accept i).clientFd < 0
  · have n1 : ¬ 0 ≤ (env.accept i).clientFd := by omega
    have n2 : ¬ 0 < (env.accept i).clientFd := by omega
    simp only [h1, if_true, gt_iff_lt, Int.reduceNeg, Int.reduceLT, if_false]
    refine ⟨⟨_, rfl, by simp [List.count_cons], by simp⟩, trivial, ?_, ?_⟩
    · rintro ⟨⟨h, -⟩, -⟩; exact absurd h n1
    · intro _
      exact ⟨set_of_getElem? _ _ _ hsrv, trivial⟩
  by_cases h2 : (env.accept i).getfl < 0
  · have n2 : ¬ 0 ≤ (env.accept i).getfl := by omega
    simp only [h1, h2, if_true, if_false, gt_iff_lt, Int.reduceNeg, Int.reduceLT]
    refine ⟨⟨_, rfl, by simp [List.count_cons], by simp⟩, trivial, ?_, ?_⟩
    · rintro ⟨⟨-, h⟩, -⟩; exact absurd h n2
    · intro _
      exact ⟨set_of_getElem? _ _ _ hsrv, trivial⟩
  by_cases h3 : (env.accept i).setfl < 0
  · have n3 : ¬ 0 ≤ (env.accept i).setfl := by omega
    simp only [h1, h2, h3, if_true, if_false, gt_iff_lt, Int.reduceNeg, Int.reduceLT]
    refine ⟨⟨_, rfl, by simp [List.count_cons], by simp⟩, trivial, ?_, ?_⟩
    · rintro ⟨-, h⟩; exact absurd h n3
    · intro _
      exact ⟨set_of_getElem? _ _ _ hsrv, trivial⟩
  · simp only [h1, h2, h3, if_false, gt_iff_lt]
    by_cases hpos : 0 < (env.accept i).clientFd
    · simp only [hpos, if_true]
      refine ⟨⟨_, rfl, by simp [List.count_cons], by simp⟩, trivial, ?_, ?_⟩
      · intro _ _
        exact ⟨rfl, trivial⟩
      · rintro ((h | h) | h) <;> omega
    · simp only [hpos, if_false]
      refine ⟨⟨_, rfl, by simp [List.count_cons], by simp⟩, trivial, ?_, ?_⟩
      · intro _ h
        first | exact absurd h hpos | exact h.elim
      · rintro ((h | h) | h) <;> omega

/-- An event on the listening descriptor 3 whose `accept` gives descriptor 7: one entry
for 7 is queued; and one whose `accept` fails: nothing is queued. -/
theorem scanEntry_listening_witness :
    (WebServer.scanEntry sampleCollaborators
        (sampleReactor [sampleServer 10 [3] []] [⟨3, 1, 1⟩])
        (sampleEnv [1] ⟨7, "10.0.0.9", 2, 0⟩ 0 [] 0)
        { servers := [sampleServer 10 [3] []], newConnections := [], toRemove := [],
          trace := [] } 0 ⟨3, 1, 1⟩).newConnections
      = [] ++ [{ fd := 7, events := POLLIN ||| POLLOUT, revents := 0 }] ∧
    (WebServer.scanEntry sampleCollaborators
        (sampleReactor [sampleServer 10 [3] []] [⟨3, 1, 1⟩])
        (sampleEnv [1] ⟨-1, "", 0, 0⟩ 0 [] 0)
        { servers := [sampleServer 10 [3] []], newConnections := [], toRemove := [],
          trace := [] } 0 ⟨3, 1, 1⟩).newConnections = [] :=
  ⟨((scanEntry_listening sampleCollaborators
      (sampleReactor [sampleServer 10 [3] []] [⟨3, 1, 1⟩])
      (sampleEnv [1] ⟨7, "10.0.0.9", 2, 0⟩ 0 [] 0)
      { servers := [sampleServer 10 [3] []], newConnections := [], toRemove := [],
        trace := [] } 0 ⟨3, 1, 1⟩ (sampleServer 10 [3] [])
      (by decide) (by decide) rfl).2.2.1 (by decide) (by decide)).2,
   ((scanEntry_listening sampleCollaborators
      (sampleReactor [sampleServer 10 [3] []] [⟨3, 1, 1⟩])
      (sampleEnv [1] ⟨-1, "", 0, 0⟩ 0 [] 0)
      { servers := [sampleServer 10 [3] []], newConnections := [], toRemove := [],
        trace := [] } 0 ⟨3, 1, 1⟩ (sampleServer 10 [3] [])
      (by decide) (by decide) rfl).2.2.2 (by decide)).2⟩

/-! ## The invariant of the event loop -/

theorem setRevents_fds (revents : Nat → Nat) :
    ∀ (l : List PollFd) (i : Nat),
      (setRevents revents i l).map (fun p => p.fd) = l.map (fun p => p.fd) := by
  intro l
  induction l with
  | nil => intro i; rfl
  | cons p rest ih => intro i; simp [setRevents, ih (i + 1)]

theorem reactorInvariant_polled {Config Request Response : Type}
    (w : WebServer Config Request Response) (env : LoopEnv) (h : reactorInvariant w) :
    reactorInvariant (polled w env) := by
  unfold reactorInvariant polled at *
  simp only [setRevents_fds]
  exact h

theorem keepUnqueued_mem (qs : List Nat) :
    ∀ (l : List PollFd) (off : Nat) (p : PollFd), p ∈ keepUnqueued qs off l →
      ∃ j, l[j]? = some p ∧ off + j ∉ qs := by
  intro l
  induction l with
  | nil => intro off p h; simp [keepUnqueued] at h
  | cons x rest ih =>
    intro off p h
    simp only [keepUnqueued] at h
    by_cases hq : off ∈ qs
    · rw [if_pos hq] at h
      obtain ⟨j, h1, h2⟩ := ih (off + 1) p h
      exact ⟨j + 1, by simpa using h1, by
        have e : off + (j + 1) = off + 1 + j := by omega
        rw [e]; exact h2⟩
    · rw [if_neg hq] at h
      rcases List.mem_cons.mp h with h | h
      · exact ⟨0, by simp [h], by simpa using hq⟩
      · obtain ⟨j, h1, h2⟩ := ih (off + 1) p h
        exact ⟨j + 1, by simpa using h1, by
          have e : off + (j + 1) = off + 1 + j := by omega
          rw [e]; exact h2⟩

theorem keepUnqueued_sublist (qs : List Nat) :
    ∀ (l : List PollFd) (off : Nat), (keepUnqueued qs off l).Sublist l := by
  intro l
  induction l with
  | nil => intro off; exact List.Sublist.slnil
  | cons x rest ih =>
    intro off
    simp only [keepUnqueued]
    by_cases hq : off ∈ qs
    · rw [if_pos hq]; exact List.Sublist.cons _ (ih (off + 1))
    · rw [if_neg hq]; exact List.Sublist.cons₂ _ (ih (off + 1))

theorem acceptedEntries_mem {Config Request Response : Type}
    (w : WebServer Config Request Response) (env : LoopEnv) :
    ∀ (rest : List PollFd) (off : Nat) (q : PollFd), q ∈ acceptedEntries w env off rest →
      ∃ j p, rest[j]? = some p ∧ acceptPerformed w env (off + j) p = true ∧
        0 < (env.accept (off + j)).clientFd ∧ q.fd = (env.accept (off + j)).clientFd := by
  intro rest
  induction rest with
  | nil => intro off q h; simp [acceptedEntries] at h
  | cons x tl ih =>
    intro off q h
    simp only [acceptedEntries, List.mem_append] at h
    rcases h with h | h
    · by_cases hc : acceptPerformed w env off x = true ∧ 0 < (env.accept off).clientFd
      · rw [if_pos hc] at h
        simp only [List.mem_singleton] at h
        exact ⟨0, x, by simp, by simpa using hc.1, by simpa using hc.2, by rw [h]; rfl⟩
      · rw [if_neg hc] at h
        exact absurd h (List.not_mem_nil q)
    · obtain ⟨j, p, h1, h2, h3, h4⟩ := ih (off + 1) q h
      have e : off + (j + 1) = off + 1 + j := by omega
      exact ⟨j + 1, p, by simpa using h1, by rw [e]; exact h2, by rw [e]; exact h3,
        by rw [e]; exact h4⟩

theorem performedAt_of {Config Request Response : Type}
    (w : WebServer Config Request Response) (env : LoopEnv) (i : Nat) (p : PollFd)
    (h1 : w.pollFds[i]? = some p) (h2 : acceptPerformed w env i p = true) :
    i < w.pollFds.length ∧ performedAt w env i = true := by
  constructor
  · by_contra hc
    rw [List.getElem?_eq_none (by omega)] at h1
    cases h1
  · simp only [performedAt, h1, h2]

theorem acceptedEntries_nodup {Config Request Response : Type}
    (w : WebServer Config Request Response) (env : LoopEnv)
    (hdist : ∀ i, i < w.pollFds.length → ∀ j, j < w.pollFds.length → i ≠ j →
      performedAt w env i = true → performedAt w env j = true →
      (env.accept i).clientFd ≠ (env.accept j).clientFd) :
    ∀ (rest : List PollFd) (off : Nat),
      (∀ j p, rest[j]? = some p → w.pollFds[off + j]? = some p) →
      ((acceptedEntries w env off rest).map (fun p => p.fd)).Nodup := by
  intro rest
  induction rest with
  | nil => intro off _; simp [acceptedEntries]
  | cons x tl ih =>
    intro off hsuf
    have htl : ∀ j p, tl[j]? = some p → w.pollFds[off + 1 + j]? = some p := by
      intro j p h
      have := hsuf (j + 1) p (by simpa using h)
      have e : off + (j + 1) = off + 1 + j := by omega
      rw [e] at this; exact this
    have ihn := ih (off + 1) htl
    simp only [acceptedEntries, List.map_append]
    by_cases hc : acceptPerformed w env off x = true ∧ 0 < (env.accept off).clientFd
    · rw [if_pos hc]
      simp only [List.map_cons, List.map_nil, List.singleton_append, List.nodup_cons]
      refine ⟨?_, ihn⟩
      intro hmem
      obtain ⟨q, hq, hqfd⟩ := List.mem_map.mp hmem
      obtain ⟨j, p, h1, h2, -, h4⟩ := acceptedEntries_mem w env tl (off + 1) q hq
      have hx := performedAt_of w env off x (by simpa using hsuf 0 x (by simp)) hc.1
      have hp := performedAt_of w env (off + 1 + j) p (htl j p h1) h2
      have := hdist off hx.1 (off + 1 + j) hp.1 (by omega) hx.2 hp.2
      apply this
      rw [← h4, hqfd]
    · rw [if_neg hc]
      simpa using ihn

theorem fdAt_mem (l : List PollFd) (i : Nat) (h : i < l.length) :
    fdAt l i ∈ l.map (fun p => p.fd) := by
  simp only [fdAt, List.getElem?_eq_getElem h]
  exact List.mem_map.mpr ⟨l[i], List.getElem_mem h, rfl⟩

theorem afterPoll_invariant {Config Request Response : Type}
    (K : Collaborators Config Request Response) (w : WebServer Config Request Response)
    (env : LoopEnv) (hinv : reactorInvariant w) (hfresh : acceptFresh w env) :
    reactorInvariant (WebServer.afterPoll K w env).state := by
  obtain ⟨hnd, hcls⟩ := hinv
  obtain ⟨hf1, hf2⟩ := hfresh
  obtain ⟨s1, s2, s3, -, -, -⟩ := handlePollEvents_spec K w env
  obtain ⟨-, a2, a3, -, a5, -, a7, a8⟩ := afterPoll_spec K w env
  -- an accepted descriptor is not open
  have hacc : ∀ j p, w.pollFds[j]? = some p → acceptPerformed w env j p = true →
      notOpen w (env.accept j).clientFd := by
    intro j p h1 h2
    obtain ⟨x1, x2⟩ := performedAt_of w env j p h1 h2
    exact hf1 j x1 x2
  have hkeysOut : ∀ k a, a ∈ keysAt w.servers k → k < w.servers.length := by
    intro k a h
    by_contra hc
    simp [keysAt, List.getElem?_eq_none (Nat.le_of_not_lt hc)] at h
  -- the keys after the iteration
  have hkeys : ∀ k a, a ∈ keysAt (WebServer.afterPoll K w env).state.servers k ↔
      (a ∈ keysAt w.servers k ∨
        ∃ j p, w.pollFds[j]? = some p ∧ acceptPerformed w env j p = true ∧
          k = routeOf w p.fd ∧ a = (env.accept j).clientFd) ∧
      ∀ i ∈ (WebServer.handlePollEvents K w env).toRemove, a ≠ fdAt w.pollFds i := by
    intro k a
    rw [a8 k a, s2 k a]
  unfold reactorInvariant
  rw [a3, a5, s3]
  simp only [List.map_append]
  constructor
  · rw [List.nodup_append]
    refine ⟨List.Nodup.sublist ((keepUnqueued_sublist _ _ _).map _) hnd,
      acceptedEntries_nodup w env hf2 w.pollFds 0 (by intro j p h; simpa using h), ?_⟩
    intro fd h1 h2
    obtain ⟨q, hq, hqfd⟩ := List.mem_map.mp h2
    obtain ⟨j, p, j1, j2, -, j4⟩ := acceptedEntries_mem w env w.pollFds 0 q hq
    simp only [Nat.zero_add] at j2 j4
    have hno := (hacc j p j1 j2).1
    apply hno
    rw [← j4, hqfd]
    exact (List.Sublist.map _ (keepUnqueued_sublist _ _ _)).subset h1
  · intro fd hfd
    rcases List.mem_append.mp hfd with hfd | hfd
    · -- a kept entry
      obtain ⟨q, hq, hqfd⟩ := List.mem_map.mp hfd
      obtain ⟨j, j1, j2⟩ := keepUnqueued_mem _ _ 0 q hq
      simp only [Nat.zero_add] at j2
      have hjlt : j < w.pollFds.length := by
        by_contra hc
        rw [List.getElem?_eq_none (by omega)] at j1
        cases j1
      have hin : fd ∈ w.pollFds.map (fun p => p.fd) :=
        List.mem_map.mpr ⟨q, List.mem_iff_getElem?.mpr ⟨j, j1⟩, hqfd⟩
      have hnotacc : ∀ i p, w.pollFds[i]? = some p → acceptPerformed w env i p = true →
          fd ≠ (env.accept i).clientFd := by
        intro i p h1 h2 e
        exact (hacc i p h1 h2).1 (e ▸ hin)
      have hkept : ∀ i ∈ (WebServer.handlePollEvents K w env).toRemove,
          fd ≠ fdAt w.pollFds i := by
        intro i hi e
        have hilt := (a2 i hi).1
        have h1 : (w.pollFds.map (fun p => p.fd))[j]? = some fd := by
          rw [List.getElem?_map, j1]; simp [hqfd]
        have h2 : (w.pollFds.map (fun p => p.fd))[i]? = some fd := by
          rw [List.getElem?_map, List.getElem?_eq_getElem hilt, e]
          simp [fdAt, List.getElem?_eq_getElem hilt]
        have := List.getElem?_inj (by simpa using hjlt) hnd (h1.trans h2.symm)
        exact j2 (this ▸ hi)
      rcases hcls fd hin with ⟨c1, c2⟩ | ⟨c1, k0, c2, c3⟩
      · left
        refine ⟨c1, fun k hk => ?_⟩
        rcases ((hkeys k fd).mp hk).1 with h | ⟨i, p, h1, h2, -, h4⟩
        · exact c2 k h
        · exact hnotacc i p h1 h2 h4
      · right
        refine ⟨c1, k0, (hkeys k0 fd).mpr ⟨Or.inl c2, hkept⟩, fun k2 hk2 => ?_⟩
        rcases ((hkeys k2 fd).mp hk2).1 with h | ⟨i, p, h1, h2, -, h4⟩
        · exact c3 k2 h
        · exact absurd h4 (hnotacc i p h1 h2)
    · -- a new entry
      obtain ⟨q, hq, hqfd⟩ := List.mem_map.mp hfd
      obtain ⟨j, p, j1, j2, -, j4⟩ := acceptedEntries_mem w env w.pollFds 0 q hq
      simp only [Nat.zero_add] at j2 j4
      have hfdj : fd = (env.accept j).clientFd := by rw [← hqfd, j4]
      obtain ⟨n1, n2, n3⟩ := hacc j p j1 j2
      rw [← hfdj] at n1 n2 n3
      right
      refine ⟨n2, routeOf w p.fd, (hkeys _ fd).mpr ⟨Or.inr ⟨j, p, j1, j2, rfl, hfdj⟩, ?_⟩, ?_⟩
      · intro i hi e
        exact n1 (e ▸ fdAt_mem w.pollFds i (a2 i hi).1)
      · intro k2 hk2
        rcases ((hkeys k2 fd).mp hk2).1 with h | ⟨i, p2, h1, h2, h3, h4⟩
        · exact absurd h (n3 k2 (hkeysOut k2 fd h))
        · by_cases hij : i = j
          · subst hij
            rw [j1] at h1
            cases h1
            exact h3
          · obtain ⟨x1, x2⟩ := performedAt_of w env i p2 h1 h2
            obtain ⟨y1, y2⟩ := performedAt_of w env j p j1 j2
            exact absurd (h4 ▸ hfdj).symm (by
              intro e
              exact hf2 i x1 j y1 hij x2 y2 (by rw [← h4, ← hfdj]))

theorem iteration_invariant {Config Request Response : Type}
    (K : Collaborators Config Request Response) (w : WebServer Config Request Response)
    (env : LoopEnv) (hinv : reactorInvariant w)
    (hfresh : 0 ≤ env.ready → acceptFresh (polled w env) env) :
    reactorInvariant (WebServer.iteration K w env).state := by
  unfold WebServer.iteration
  by_cases hr : env.ready < 0
  · simp only [hr, if_true]
    exact hinv
  · simp only [hr, if_false]
    exact afterPoll_invariant K (polled w env) env (reactorInvariant_polled w env hinv)
      (hfresh (by omega))

theorem runEventLoop_step_invariant {Config Request Response : Type}
    (K : Collaborators Config Request Response) :
    ∀ (envs : List LoopEnv) (w : WebServer Config Request Response),
      reactorInvariant w → freshRun K w envs →
      ∀ n, reactorInvariant (WebServer.runEventLoop K w (envs.take n)) := by
  intro envs
  induction envs with
  | nil =>
    intro w hinv _ n
    simp only [List.take_nil, WebServer.runEventLoop]
    exact hinv
  | cons env rest ih =>
    intro w hinv hfresh n
    obtain ⟨h1, h2⟩ := hfresh
    cases n with
    | zero =>
      simp only [List.take_zero, WebServer.runEventLoop]
      exact hinv
    | succ n =>
      simp only [List.take_succ_cons, WebServer.runEventLoop]
      exact ih _ (iteration_invariant K w env hinv h1) h2 n

theorem initPollStructures_invariant {Config Request Response : Type}
    (servers : List (Server Config Request Response))
    (hdistinct : ((servers.map (fun s => s.serverFds)).flatten).Nodup)
    (hempty : ∀ s ∈ servers, s._clientManager._clients = []) :
    reactorInvariant (WebServer.initPollStructures
      { servers := servers, pollFds := [], fdToServerIndex := [], serverFdsSet := [] }) := by
  obtain ⟨h1, h2, h3, -, -⟩ := initOuter_spec servers 0
    { servers := servers, pollFds := [], fdToServerIndex := [], serverFdsSet := [] }
  have hfds : (WebServer.initPollStructures
      { servers := servers, pollFds := [], fdToServerIndex := [],
        serverFdsSet := [] }).pollFds.map (fun p => p.fd)
      = (servers.map (fun s => s.serverFds)).flatten := by
    simp only [WebServer.initPollStructures]
    rw [h1]
    simp only [List.nil_append, List.map_map]
    have : ((fun p : PollFd => p.fd) ∘ fun fd => { fd := fd, events := POLLIN, revents := 0 })
        = id := by
      funext x; rfl
    rw [this, List.map_id]
  unfold reactorInvariant
  rw [hfds]
  refine ⟨hdistinct, fun fd hfd => Or.inl ⟨?_, ?_⟩⟩
  · simp only [WebServer.initPollStructures]
    rw [h3 fd]
    exact Or.inr hfd
  · intro k hk
    simp only [WebServer.initPollStructures] at hk
    rw [h2] at hk
    simp only [keysAt] at hk
    cases hs : servers[k]? with
    | none => rw [hs] at hk; exact absurd hk (List.not_mem_nil fd)
    | some s =>
      rw [hs] at hk
      have hmem : s ∈ servers := List.mem_iff_getElem?.mpr ⟨k, hs⟩
      simp only [hempty s hmem, mapKeys, List.map_nil] at hk
      exact absurd hk (List.not_mem_nil fd)

/-- C13: start from listeners whose listening descriptors are all distinct and whose
registries are empty, build the interest list with `initPollStructures`, and run any
number of iterations of the event loop in which every accepted connection gets a
descriptor that is not open. Then at every iteration boundary no descriptor occurs twice
in the interest list, and every descriptor in it is either a listening descriptor held by
no registry, or the key of a connection in the registry of exactly one listener and no
listening descriptor. -/
theorem runEventLoop_invariant {Config Request Response : Type}
    (K : Collaborators Config Request Response)
    (servers : List (Server Config Request Response)) (envs : List LoopEnv)
    (hdistinct : ((servers.map (fun s => s.serverFds)).flatten).Nodup)
    (hempty : ∀ s ∈ servers, s._clientManager._clients = [])
    (hfresh : freshRun K (WebServer.initPollStructures
      { servers := servers, pollFds := [], fdToServerIndex := [], serverFdsSet := [] }) envs) :
    ∀ n, reactorInvariant (WebServer.runEventLoop K (WebServer.initPollStructures
      { servers := servers, pollFds := [], fdToServerIndex := [], serverFdsSet := [] })
      (envs.take n)) :=
  runEventLoop_step_invariant K envs _
    (initPollStructures_invariant servers hdistinct hempty) hfresh

/-- Two listeners on descriptors 3 and 5; in the first iteration the listener on 3
accepts a connection on descriptor 7. -/
theorem runEventLoop_invariant_witness :
    ((WebServer.runEventLoop sampleCollaborators (WebServer.initPollStructures
        { servers := [sampleServer 10 [3] [], sampleServer 20 [5] []], pollFds := [],
          fdToServerIndex := [], serverFdsSet := [] })
        [sampleEnv [1, 0] ⟨7, "10.0.0.9", 2, 0⟩ 0 [] 0]).pollFds.map (fun p => p.fd)
      = [3, 5, 7]) ∧
    reactorInvariant (WebServer.runEventLoop sampleCollaborators (WebServer.initPollStructures
        { servers := [sampleServer 10 [3] [], sampleServer 20 [5] []], pollFds := [],
          fdToServerIndex := [], serverFdsSet := [] })
        ([sampleEnv [1, 0] ⟨7, "10.0.0.9", 2, 0⟩ 0 [] 0].take 1)) :=
  ⟨by decide,
   runEventLoop_invariant sampleCollaborators
    [sampleServer 10 [3] [], sampleServer 20 [5] []]
    [sampleEnv [1, 0] ⟨7, "10.0.0.9", 2, 0⟩ 0 [] 0]
    (by decide)
    (by
      intro s hs
      simp only [List.mem_cons, List.mem_singleton, List.not_mem_nil, or_false] at hs
      rcases hs with h | h <;> (rw [h]; rfl))
    (by
      refine ⟨fun _ => ⟨?_, ?_⟩, trivial⟩
      · unfold notOpen
        decide
      · intro i hi j hj hij h1 h2
        have hl : (polled (WebServer.initPollStructures
            { servers := [sampleServer 10 [3] [], sampleServer 20 [5] []], pollFds := [],
              fdToServerIndex := [], serverFdsSet := [] })
            (sampleEnv [1, 0] ⟨7, "10.0.0.9", 2, 0⟩ 0 [] 0)).pollFds.length = 2 := by decide
        rw [hl] at hi hj
        interval_cases i <;> interval_cases j
        · exact absurd rfl hij
        · exact absurd h2 (by decide)
        · exact absurd h1 (by decide)
        · exact absurd rfl hij) 1⟩


/-! ## Teardown -/

theorem cleanupServers_mem {Config Request Response : Type} (x : Sys) :
    ∀ (servers : List (Server Config Request Response)) (s : Server Config Request Response),
      s ∈ servers → x ∈ (s.cleanup).trace → x ∈ WebServer.cleanupServers servers := by
  intro servers
  induction servers with
  | nil => intro s hs; exact absurd hs (List.not_mem_nil s)
  | cons t rest ih =>
    intro s hs hx
    simp only [WebServer.cleanupServers, List.mem_append]
    rcases List.mem_cons.mp hs with h | h
    · subst h; exact Or.inl (Or.inl hx)
    · exact Or.inr (ih s h hx)

/-- Every non-negative descriptor that stands in the interest list and is also a
listening descriptor of a listener, or the key of a connection in a registry, is closed
at least twice by `WebServer::cleanup`. -/
theorem cleanup_closes_twice {Config Request Response : Type}
    (w : WebServer Config Request Response) (fd : Int) (s : Server Config Request Response)
    (hfd : 0 ≤ fd) (hpoll : fd ∈ w.pollFds.map (fun p => p.fd)) (hs : s ∈ w.servers)
    (hown : fd ∈ s.serverFds ∨ fd ∈ mapKeys s._clientManager._clients) :
    2 ≤ (WebServer.cleanup w).trace.count (Sys.close fd) := by
  simp only [WebServer.cleanup, List.count_append]
  have h1 : 0 < List.count (Sys.close fd)
      ((w.pollFds.filter (fun p => decide (p.fd ≥ 0))).map (fun p => Sys.close p.fd)) := by
    rw [List.count_pos_iff]
    obtain ⟨p, hp, hpfd⟩ := List.mem_map.mp hpoll
    exact List.mem_map.mpr ⟨p, List.mem_filter.mpr ⟨hp, by simpa [hpfd] using hfd⟩, by rw [hpfd]⟩
  have h2 : 0 < List.count (Sys.close fd) (WebServer.cleanupServers w.servers) := by
    rw [List.count_pos_iff]
    apply cleanupServers_mem _ w.servers s hs
    simp only [Server.cleanup, ClientManager.cleanup, List.mem_append, List.mem_map,
      List.mem_filter, List.mem_flatMap]
    rcases hown with h | h
    · exact Or.inl ⟨fd, ⟨h, by simpa using hfd⟩, rfl⟩
    · exact Or.inr ⟨fd, h, by simp⟩
  omega

/-- C21: on the reactor reached by two listeners, on descriptors 3 and 5, after one
iteration in which the listener on 3 accepted a connection on descriptor 7,
`WebServer::cleanup` issues `close` twice on each of the three descriptors: once in its
own loop over the interest list, and once more in the cleanup of the listener or of its
registry. -/
theorem cleanup_closes_each_descriptor_twice :
    ((WebServer.runEventLoop sampleCollaborators (WebServer.initPollStructures
        { servers := [sampleServer 10 [3] [], sampleServer 20 [5] []], pollFds := [],
          fdToServerIndex := [], serverFdsSet := [] })
        [sampleEnv [1, 0] ⟨7, "10.0.0.9", 2, 0⟩ 0 [] 0]).pollFds.map (fun p => p.fd)
      = [3, 5, 7]) ∧
    (WebServer.cleanup (WebServer.runEventLoop sampleCollaborators
        (WebServer.initPollStructures
          { servers := [sampleServer 10 [3] [], sampleServer 20 [5] []], pollFds := [],
            fdToServerIndex := [], serverFdsSet := [] })
        [sampleEnv [1, 0] ⟨7, "10.0.0.9", 2, 0⟩ 0 [] 0])).trace
      = [Sys.close 3, Sys.close 5, Sys.close 7,
         Sys.close 3, Sys.deleteClient 7, Sys.close 7,
         Sys.close 5] ∧
    (WebServer.cleanup (WebServer.runEventLoop sampleCollaborators
        (WebServer.initPollStructures
          { servers := [sampleServer 10 [3] [], sampleServer 20 [5] []], pollFds := [],
            fdToServerIndex := [], serverFdsSet := [] })
        [sampleEnv [1, 0] ⟨7, "10.0.0.9", 2, 0⟩ 0 [] 0])).trace.count (Sys.close 3) = 2 ∧
    (WebServer.cleanup (WebServer.runEventLoop sampleCollaborators
        (WebServer.initPollStructures
          { servers := [sampleServer 10 [3] [], sampleServer 20 [5] []], pollFds := [],
            fdToServerIndex := [], serverFdsSet := [] })
        [sampleEnv [1, 0] ⟨7, "10.0.0.9", 2, 0⟩ 0 [] 0])).trace.count (Sys.close 7) = 2 := by
  decide

/-! ## The index list of a location -/

theorem setIndexes_ok (c c1 : LocationConfig) (indexes : List Bytes)
    (h : c.setIndexes indexes = Except.ok c1) :
    c1 = { c with _indexes := indexes } ∧ indexes ≠ [] ∧ [] ∉ indexes := by
  unfold LocationConfig.setIndexes at h
  by_cases h1 : indexes.isEmpty = true
  · rw [if_pos h1] at h; cases h
  · rw [if_neg h1] at h
    by_cases h2 : indexes.any (fun it => it.isEmpty) = true
    · rw [if_pos h2] at h; cases h
    · rw [if_neg h2] at h
      cases h
      refine ⟨rfl, ?_, ?_⟩
      · intro e; rw [e] at h1; exact h1 rfl
      · intro hm
        apply h2
        rw [List.any_eq_true]
        exact ⟨[], hm, rfl⟩

theorem setRoot_ok (c c1 : LocationConfig) (r : Bytes) (h : c.setRoot r = Except.ok c1) :
    c1 = { c with _root := r } ∧ r ≠ [] := by
  unfold LocationConfig.setRoot at h
  by_cases h1 : r.isEmpty = true
  · rw [if_pos h1] at h; cases h
  · rw [if_neg h1] at h
    cases h
    exact ⟨rfl, fun e => h1 (by rw [e]; rfl)⟩

theorem inheritFromServer_ok (c c1 : LocationConfig) (serverRoot : Bytes)
    (serverIndexes : List Bytes)
    (h : c.inheritFromServer serverRoot serverIndexes = Except.ok c1) :
    c1._indexes = c._indexes ∨ (c1._indexes = serverIndexes ∧ [] ∉ serverIndexes) := by
  unfold LocationConfig.inheritFromServer at h
  simp only [] at h
  split at h
  · cases h
  · rename_i r1 hr1
    have hidx : r1._indexes = c._indexes := by
      by_cases hc : c._root.isEmpty = true
      · rw [if_pos hc] at hr1
        rw [(setRoot_ok _ _ _ hr1).1]
      · rw [if_neg hc] at hr1
        cases hr1; rfl
    split at h
    · cases h
    · rename_i r2 hr2
      cases h
      by_cases hc : r1._indexes.isEmpty = true
      · rw [if_pos hc] at hr2
        obtain ⟨e1, -, e3⟩ := setIndexes_ok _ _ _ hr2
        right
        rw [e1]
        exact ⟨rfl, e3⟩
      · rw [if_neg hc] at hr2
        cases hr2
        exact Or.inl hidx

theorem call_indexes (c c1 : LocationConfig) (op : ConfigCall)
    (h : c.call op = Except.ok c1) :
    ([] ∉ c._indexes → [] ∉ c1._indexes) ∧
    (c._indexes.Nodup → (∀ l ∈ givenIndexLists [op], l.Nodup) → c1._indexes.Nodup) := by
  cases op with
  | setPath p =>
    simp only [LocationConfig.call, LocationConfig.setPath] at h
    split at h
    · cases h
    · cases h; exact ⟨id, fun h _ => h⟩
  | setRoot r =>
    simp only [LocationConfig.call] at h
    rw [(setRoot_ok _ _ _ h).1]
    exact ⟨id, fun h _ => h⟩
  | addIndex idx =>
    simp only [LocationConfig.call, LocationConfig.addIndex] at h
    by_cases h1 : idx.isEmpty = true
    · rw [if_pos h1] at h; cases h
    · rw [if_neg h1] at h
      by_cases h2 : c._indexes.any (fun it => decide (it = idx)) = true
      · rw [if_pos h2] at h
        cases h; exact ⟨id, fun h _ => h⟩
      · rw [if_neg h2] at h
        cases h
        have hnot : idx ∉ c._indexes := by
          intro hm
          apply h2
          rw [List.any_eq_true]
          exact ⟨idx, hm, by simp⟩
        constructor
        · intro h0 hm
          rcases List.mem_append.mp hm with hm | hm
          · exact h0 hm
          · simp only [List.mem_singleton] at hm
            apply h1
            rw [← hm]; rfl
        · intro hnd _
          rw [List.nodup_append]
          refine ⟨hnd, List.nodup_singleton _, ?_⟩
          intro a ha hb
          simp only [List.mem_singleton] at hb
          exact hnot (hb ▸ ha)
  | setAutoIndex a =>
    simp only [LocationConfig.call, LocationConfig.setAutoIndex] at h
    cases h; exact ⟨id, fun h _ => h⟩
  | addAllowedMethod m =>
    simp only [LocationConfig.call, LocationConfig.addAllowedMethod] at h
    split at h
    · cases h
    · split at h <;> (cases h; exact ⟨id, fun h _ => h⟩)
  | addRedirect code target =>
    simp only [LocationConfig.call, LocationConfig.addRedirect] at h
    split at h
    · cases h
    · split at h
      · cases h
      · cases h; exact ⟨id, fun h _ => h⟩
  | addCgi ext cgi_path =>
    simp only [LocationConfig.call, LocationConfig.addCgi] at h
    split at h
    · cases h
    · split at h
      · cases h
      · cases h; exact ⟨id, fun h _ => h⟩
  | setIndexes indexes =>
    simp only [LocationConfig.call] at h
    obtain ⟨e1, -, e3⟩ := setIndexes_ok _ _ _ h
    rw [e1]
    exact ⟨fun _ => e3, fun _ hl => hl indexes (by simp [givenIndexLists])⟩
  | inheritFromServer serverRoot serverIndexes =>
    simp only [LocationConfig.call] at h
    rcases inheritFromServer_ok _ _ _ _ h with e | ⟨e, e3⟩
    · rw [e]; exact ⟨id, fun h _ => h⟩
    · rw [e]
      exact ⟨fun _ => e3, fun _ hl => hl serverIndexes (by simp [givenIndexLists])⟩

theorem givenIndexLists_cons (op : ConfigCall) (rest : List ConfigCall) :
    givenIndexLists (op :: rest) = givenIndexLists [op] ++ givenIndexLists rest := by
  cases op <;> simp [givenIndexLists]

theorem calls_indexes :
    ∀ (ops : List ConfigCall) (c c1 : LocationConfig), c.calls ops = Except.ok c1 →
      ([] ∉ c._indexes → [] ∉ c1._indexes) ∧
      (c._indexes.Nodup → (∀ l ∈ givenIndexLists ops, l.Nodup) → c1._indexes.Nodup) := by
  intro ops
  induction ops with
  | nil =>
    intro c c1 h
    simp only [LocationConfig.calls] at h
    cases h
    exact ⟨id, fun h _ => h⟩
  | cons op rest ih =>
    intro c c1 h
    simp only [LocationConfig.calls] at h
    split at h
    · cases h
    · rename_i c2 hc2
      obtain ⟨a1, a2⟩ := call_indexes c c2 op hc2
      obtain ⟨b1, b2⟩ := ih c2 c1 h
      refine ⟨fun h0 => b1 (a1 h0), fun hnd hl => ?_⟩
      rw [givenIndexLists_cons] at hl
      exact b2 (a2 hnd (fun l hm => hl l (List.mem_append_left _ hm)))
        (fun l hm => hl l (List.mem_append_right _ hm))

/-- C22, as stated, fails: `setIndexes`, called on a fresh configuration with the list
`a`, `a`, installs it as it is, and so does `inheritFromServer` with that list as the
server's index list; the index list then holds the name `a` twice. -/
theorem setIndexes_keeps_duplicates_counterexample :
    LocationConfig.calls LocationConfig.fresh [ConfigCall.setIndexes ["a".toList, "a".toList]]
      = Except.ok { LocationConfig.fresh with _indexes := ["a".toList, "a".toList] } ∧
    LocationConfig.calls LocationConfig.fresh
        [ConfigCall.inheritFromServer "/var/www".toList ["a".toList, "a".toList]]
      = Except.ok { LocationConfig.fresh with
          _root := "/var/www".toList, _indexes := ["a".toList, "a".toList] } ∧
    ¬ (["a".toList, "a".toList] : List Bytes).Nodup :=
  ⟨rfl, rfl, by decide⟩

/-- C22 (amended): in every configuration reached from a freshly constructed one by a
sequence of calls of the public mutators (`inheritFromServer` included), the index list
contains no empty name; and it contains no name twice provided that no list handed to
`setIndexes`, and no server index list handed to `inheritFromServer`, contains a name
twice. -/
theorem index_list_invariant (ops : List ConfigCall) (c : LocationConfig)
    (h : LocationConfig.calls LocationConfig.fresh ops = Except.ok c) :
    [] ∉ c._indexes ∧ ((∀ l ∈ givenIndexLists ops, l.Nodup) → c._indexes.Nodup) := by
  obtain ⟨h1, h2⟩ := calls_indexes ops LocationConfig.fresh c h
  exact ⟨h1 (List.not_mem_nil _), h2 List.nodup_nil⟩

/-- A location that gets the index `a` twice by `addIndex`, then a root, then inherits
from a server. -/
theorem index_list_invariant_witness :
    LocationConfig.calls LocationConfig.fresh
        [ConfigCall.addIndex "a".toList, ConfigCall.addIndex "a".toList,
         ConfigCall.setRoot "/srv".toList,
         ConfigCall.inheritFromServer "/var/www".toList ["index.html".toList]]
      = Except.ok { LocationConfig.fresh with
          _root := "/srv".toList, _indexes := ["a".toList] } ∧
    [] ∉ ({ LocationConfig.fresh with
          _root := "/srv".toList, _indexes := ["a".toList] } : LocationConfig)._indexes :=
  ⟨rfl,
   (index_list_invariant
      [ConfigCall.addIndex "a".toList, ConfigCall.addIndex "a".toList,
       ConfigCall.setRoot "/srv".toList,
       ConfigCall.inheritFromServer "/var/www".toList ["index.html".toList]]
      { LocationConfig.fresh with _root := "/srv".toList, _indexes := ["a".toList] }
      rfl).1⟩

/-! ## Inheritance from the server configuration -/

/-- C23: `inheritFromServer` works on a copy, so the location it is called on is not
changed. It throws exactly when the location's root is empty and the server's root is
empty, or the location's index list is empty and the server's index list is empty or
contains an empty name. Otherwise it returns the location with its root replaced by the
server's when its own is empty, its index list replaced by the server's when its own is
empty, and every other member as it was. -/
theorem inheritFromServer_spec (loc : LocationConfig) (serverRoot : Bytes)
    (serverIndexes : List Bytes) :
    (((loc._root = [] ∧ serverRoot = []) ∨
        (loc._indexes = [] ∧ (serverIndexes = [] ∨ [] ∈ serverIndexes))) →
      ∃ e, loc.inheritFromServer serverRoot serverIndexes = Except.error e) ∧
    (¬ ((loc._root = [] ∧ serverRoot = []) ∨
        (loc._indexes = [] ∧ (serverIndexes = [] ∨ [] ∈ serverIndexes))) →
      loc.inheritFromServer serverRoot serverIndexes =
        Except.ok { loc with
          _root := if loc._root ≠ [] then loc._root else serverRoot
          _indexes := if loc._indexes ≠ [] then loc._indexes else serverIndexes }) := by
  have hany : serverIndexes.any (fun it => it.isEmpty) = true ↔ [] ∈ serverIndexes := by
    rw [List.any_eq_true]
    constructor
    · rintro ⟨x, hx, he⟩
      have : x = [] := by cases x <;> simp_all
      exact this ▸ hx
    · intro h; exact ⟨[], h, rfl⟩
  have hemp : ∀ l : Bytes, l.isEmpty = true ↔ l = [] := by
    intro l; cases l <;> simp
  have hemp2 : ∀ l : List Bytes, l.isEmpty = true ↔ l = [] := by
    intro l; cases l <;> simp
  unfold LocationConfig.inheritFromServer LocationConfig.setRoot LocationConfig.setIndexes
  by_cases hr : loc._root = [] <;> by_cases hsr : serverRoot = [] <;>
    by_cases hi : loc._indexes = [] <;> by_cases hsi : serverIndexes = [] <;>
    by_cases hse : [] ∈ serverIndexes <;>
    simp [hr, hsr, hi, hsi, hse, hany, hemp, hemp2]

/-- A location with neither root nor indexes inherits both from a server that has them,
and the call throws when the server has no root either. -/
theorem inheritFromServer_spec_witness :
    LocationConfig.fresh.inheritFromServer "/var/www".toList ["index.html".toList]
      = Except.ok { LocationConfig.fresh with
          _root := "/var/www".toList, _indexes := ["index.html".toList] } ∧
    (∃ e, LocationConfig.fresh.inheritFromServer [] ["index.html".toList]
      = Except.error e) :=
  ⟨(inheritFromServer_spec LocationConfig.fresh "/var/www".toList ["index.html".toList]).2
      (by decide),
   (inheritFromServer_spec LocationConfig.fresh [] ["index.html".toList]).1
      (Or.inl ⟨rfl, rfl⟩)⟩

end Webserv
